import Mathlib

/-!
# spotify-term: a verification development

A shallow embedding of `spotify-term.go` (a command-line client for the Spotify
Web API) and theorems about its token life cycle and its API commands.

Conventions of the embedding

* A Go `string` is a Lean `String` (a sequence of Unicode scalar values); its
  length in bytes is its UTF-8 length.
* The process environment (home directory, files, standard input, incoming
  callback requests, the answers of the network) is an explicit `World` that
  every operation reads and updates; what the program prints, sends and writes
  is recorded in the same `World`.
* A Go function that can crash or spin forever returns a `Res`: it returns a
  value, panics, or hangs.
* The Go standard library (`encoding/json`, `net/url`, `encoding/base64`,
  `bufio`, `fmt`) is modelled by executable definitions in the first part of
  the file.
* A file that was opened is read and written without error; the callback
  handler and the waiting loop see each other's writes in the order they are
  made; the pause of one second of `next` and `previous` is left out.
-/

namespace SpotifyTerm

/-! ## Go errors -/

/-- A Go `error` value. The text of an error is not modelled, only its origin. -/
inductive GoError where
  /-- an error reported by the operating system, the home-directory lookup or
  the HTTP transport; the environment supplies its text -/
  | env (msg : String)
  /-- the value `io.EOF` -/
  | eof
  /-- a `*json.SyntaxError`: the input is not one well-formed JSON value -/
  | jsonSyntax
  /-- a `*json.UnmarshalTypeError`: a JSON value does not fit the Go type -/
  | jsonType
  deriving DecidableEq, Repr

/-! ## encoding/json: syntax -/

/-- A parsed JSON value. Numbers keep their literal text. -/
inductive Json where
  | null
  | bool (b : Bool)
  | num (lit : List Char)
  | str (s : List Char)
  | arr (elems : List Json)
  | obj (members : List (List Char × Json))

/-- JSON insignificant whitespace. -/
def isWs (c : Char) : Bool :=
  c = ' ' || c = '\t' || c = '\n' || c = '\r'

/-- Drops leading whitespace. -/
def skipWs : List Char → List Char
  | [] => []
  | c :: cs => if isWs c then skipWs cs else c :: cs

/-- The value of a hexadecimal digit. -/
def hexVal (c : Char) : Option Nat :=
  if 48 ≤ c.toNat ∧ c.toNat ≤ 57 then some (c.toNat - 48)
  else if 97 ≤ c.toNat ∧ c.toNat ≤ 102 then some (c.toNat - 87)
  else if 65 ≤ c.toNat ∧ c.toNat ≤ 70 then some (c.toNat - 55)
  else none

/-- The number written by four hexadecimal digits. -/
def hex4 (a b c d : Char) : Option Nat :=
  match hexVal a, hexVal b, hexVal c, hexVal d with
  | some x, some y, some z, some t => some (((x * 16 + y) * 16 + z) * 16 + t)
  | _, _, _, _ => none

/-- The replacement character U+FFFD. -/
def replacementChar : Char := Char.ofNat 0xFFFD

/-- Function `utf16.IsSurrogate`. -/
def isSurrogate (r : Nat) : Bool := 0xD800 ≤ r && r < 0xE000

/-- Function `utf16.DecodeRune`: the code point of a surrogate pair, or U+FFFD. -/
def decodeSurrogates (r1 r2 : Nat) : Char :=
  if 0xD800 ≤ r1 ∧ r1 < 0xDC00 ∧ 0xDC00 ≤ r2 ∧ r2 < 0xE000 then
    Char.ofNat ((r1 - 0xD800) * 1024 + (r2 - 0xDC00) + 0x10000)
  else replacementChar

/-- The escape `\uXXXX` at the head of the input, if there is one (`getu4`). -/
def getu4 : List Char → Option Nat
  | bs :: u :: a :: b :: c :: d :: _ =>
    if bs = '\\' ∧ u = 'u' then hex4 a b c d else none
  | _ => none

/-- The character a one-letter escape stands for. -/
def simpleEscape (e : Char) : Option Char :=
  if e = '"' then some '"'
  else if e = '\\' then some '\\'
  else if e = '/' then some '/'
  else if e = 'b' then some (Char.ofNat 8)
  else if e = 'f' then some (Char.ofNat 12)
  else if e = 'n' then some '\n'
  else if e = 'r' then some '\r'
  else if e = 't' then some '\t'
  else none

/-- Reads a string literal after its opening quote: the decoded text and the
input after the closing quote. The first argument bounds the number of steps;
the length of the input is always enough. -/
def parseStringBody : Nat → List Char → Option (List Char × List Char)
  | 0, _ => none
  | _ + 1, [] => none
  | fuel + 1, c :: rest =>
    if c = '"' then some ([], rest)
    else if c = '\\' then
      match rest with
      | [] => none
      | e :: rest1 =>
        if e = 'u' then
          match rest1 with
          | a :: b :: c2 :: d :: rest2 =>
            match hex4 a b c2 d with
            | none => none
            | some rr =>
              if isSurrogate rr then
                match getu4 rest2 with
                | some rr1 =>
                  if decodeSurrogates rr rr1 = replacementChar then
                    (parseStringBody fuel rest2).map (fun p => (replacementChar :: p.1, p.2))
                  else
                    (parseStringBody fuel (rest2.drop 6)).map
                      (fun p => (decodeSurrogates rr rr1 :: p.1, p.2))
                | none =>
                  (parseStringBody fuel rest2).map (fun p => (replacementChar :: p.1, p.2))
              else
                (parseStringBody fuel rest2).map (fun p => (Char.ofNat rr :: p.1, p.2))
          | _ => none
        else
          match simpleEscape e with
          | some x => (parseStringBody fuel rest1).map (fun p => (x :: p.1, p.2))
          | none => none
    else if c.toNat < 0x20 then none
    else (parseStringBody fuel rest).map (fun p => (c :: p.1, p.2))

/-- Reads a string literal, opening quote included. -/
def parseString : List Char → Option (List Char × List Char)
  | [] => none
  | c :: rest => if c = '"' then parseStringBody (rest.length + 1) rest else none

/-- Splits off the longest prefix of decimal digits. -/
def spanDigits : List Char → List Char × List Char
  | [] => ([], [])
  | c :: cs =>
    if c.isDigit then ((c :: (spanDigits cs).1), (spanDigits cs).2) else ([], c :: cs)

/-- Reads the integer part of a number: `0`, or a non-zero digit and more digits. -/
def parseIntPart (cs : List Char) : Option (List Char × List Char) :=
  match spanDigits cs with
  | ([], _) => none
  | (d :: ds, rest) => if d = '0' ∧ ds ≠ [] then some (['0'], ds ++ rest) else some (d :: ds, rest)

/-- Reads an optional fraction. -/
def parseFrac (cs : List Char) : Option (List Char × List Char) :=
  match cs with
  | c :: rest =>
    if c = '.' then
      match spanDigits rest with
      | ([], _) => none
      | (ds, rest1) => some ('.' :: ds, rest1)
    else some ([], cs)
  | [] => some ([], [])

/-- Reads the digits of an exponent, after the optional sign. -/
def parseExpDigits (pre : List Char) (cs : List Char) : Option (List Char × List Char) :=
  match spanDigits cs with
  | ([], _) => none
  | (ds, rest) => some (pre ++ ds, rest)

/-- Reads an optional exponent. -/
def parseExp (cs : List Char) : Option (List Char × List Char) :=
  match cs with
  | c :: rest =>
    if c = 'e' ∨ c = 'E' then
      match rest with
      | s :: rest1 =>
        if s = '+' ∨ s = '-' then parseExpDigits [c, s] rest1 else parseExpDigits [c] rest
      | [] => none
    else some ([], cs)
  | [] => some ([], [])

/-- Reads a number literal after its optional sign `sign`: integer part,
optional fraction, optional exponent. -/
def parseUnsigned (sign cs : List Char) : Option (List Char × List Char) :=
  match parseIntPart cs with
  | none => none
  | some (ip, r1) =>
    match parseFrac r1 with
    | none => none
    | some (fp, r2) =>
      match parseExp r2 with
      | none => none
      | some (ep, r3) => some (sign ++ ip ++ fp ++ ep, r3)

/-- Reads a number literal: its text and the input after it. -/
def parseNumber (cs : List Char) : Option (List Char × List Char) :=
  match cs with
  | c :: rest => if c = '-' then parseUnsigned ['-'] rest else parseUnsigned [] cs
  | [] => none

/-- Reads the literal `word` at the head of the input. -/
def parseWord (word : List Char) (v : Json) (cs : List Char) : Option (Json × List Char) :=
  if cs.take word.length = word then some (v, cs.drop word.length) else none

mutual
/-- Reads one JSON value at the head of the input (no leading whitespace).
The first argument bounds the number of nested calls. -/
def parseValue : Nat → List Char → Option (Json × List Char)
  | 0, _ => none
  | _ + 1, [] => none
  | fuel + 1, c :: rest =>
    if c = '{' then
      match skipWs rest with
      | [] => none
      | c1 :: rest1 =>
        if c1 = '}' then some (Json.obj [], rest1)
        else (parseMembers fuel (c1 :: rest1)).map (fun p => (Json.obj p.1, p.2))
    else if c = '[' then
      match skipWs rest with
      | [] => none
      | c1 :: rest1 =>
        if c1 = ']' then some (Json.arr [], rest1)
        else (parseElems fuel (c1 :: rest1)).map (fun p => (Json.arr p.1, p.2))
    else if c = '"' then
      (parseString (c :: rest)).map (fun p => (Json.str p.1, p.2))
    else if c = 't' then parseWord "true".data (Json.bool true) (c :: rest)
    else if c = 'f' then parseWord "false".data (Json.bool false) (c :: rest)
    else if c = 'n' then parseWord "null".data Json.null (c :: rest)
    else (parseNumber (c :: rest)).map (fun p => (Json.num p.1, p.2))
/-- Reads the members of an object from its first key up to the closing brace. -/
def parseMembers : Nat → List Char → Option (List (List Char × Json) × List Char)
  | 0, _ => none
  | fuel + 1, cs =>
    match parseString cs with
    | none => none
    | some (key, r1) =>
      match skipWs r1 with
      | [] => none
      | colon :: r2 =>
        if colon = ':' then
          match parseValue fuel (skipWs r2) with
          | none => none
          | some (v, r3) =>
            match skipWs r3 with
            | [] => none
            | sep :: r4 =>
              if sep = '}' then some ([(key, v)], r4)
              else if sep = ',' then
                (parseMembers fuel (skipWs r4)).map (fun p => ((key, v) :: p.1, p.2))
              else none
        else none
/-- Reads the elements of an array from its first element up to the closing bracket. -/
def parseElems : Nat → List Char → Option (List Json × List Char)
  | 0, _ => none
  | fuel + 1, cs =>
    match parseValue fuel cs with
    | none => none
    | some (v, r1) =>
      match skipWs r1 with
      | [] => none
      | sep :: r2 =>
        if sep = ']' then some ([v], r2)
        else if sep = ',' then
          (parseElems fuel (skipWs r2)).map (fun p => (v :: p.1, p.2))
        else none
end

/-- The JSON value a text consists of, surrounded by optional whitespace; `none`
when the text is not one well-formed value (what `checkValid` rejects). The
bound on the nested calls, twice the length of the text, is never reached.
The limit of Go on the nesting depth (10000) is not modelled. -/
def parseJson (cs : List Char) : Option Json :=
  match parseValue (2 * cs.length + 1) (skipWs cs) with
  | none => none
  | some (v, rest) => if skipWs rest = [] then some v else none

/-! ## encoding/json: decoding into Go values -/

/-- Lower-case form of an ASCII letter; other characters are unchanged. -/
def asciiLower (c : Char) : Char :=
  if 65 ≤ c.toNat ∧ c.toNat ≤ 90 then Char.ofNat (c.toNat + 32) else c

/-- One character of an object key matches one character of a field name:
equal, equal up to ASCII case, or one of the two non-ASCII characters that
fold to `k` and `s` (the Kelvin sign and the long s). -/
def foldEqChar (f k : Char) : Bool :=
  f = k || asciiLower f = asciiLower k
    || (asciiLower f = 'k' && k.toNat = 0x212A)
    || (asciiLower f = 's' && k.toNat = 0x17F)

/-- An object key names a struct field: case-insensitive match of the field's
JSON name. -/
def foldEq : List Char → List Char → Bool
  | [], [] => true
  | f :: fs, k :: ks => foldEqChar f k && foldEq fs ks
  | _, _ => false

/-- The key `k` names the field whose JSON name is `name`. -/
def isField (name : String) (k : List Char) : Bool := foldEq name.data k

/-- The value of a string of decimal digits. -/
def digitsVal (ds : List Char) : Nat :=
  ds.foldl (fun acc c => acc * 10 + (c.toNat - 48)) 0

/-- The Go `int` (64 bits) a JSON number literal stands for: `strconv.ParseInt`
in base 10; `none` for a literal with a fraction or an exponent, or out of range. -/
def parseGoInt (lit : List Char) : Option Int :=
  match lit with
  | [] => none
  | c :: rest =>
    if c = '-' then
      if rest ≠ [] ∧ rest.all Char.isDigit ∧ digitsVal rest ≤ 2 ^ 63 then
        some (-(digitsVal rest : Int))
      else none
    else
      if lit.all Char.isDigit ∧ digitsVal lit < 2 ^ 63 then some (digitsVal lit : Int)
      else none

/-- Decodes a JSON value into a Go `string`: the new value of the variable and
whether a type error is recorded. `null` leaves the variable as it is. -/
def decString (v : Json) (cur : String) : String × Bool :=
  match v with
  | Json.null => (cur, false)
  | Json.str s => (String.mk s, false)
  | _ => (cur, true)

/-- Decodes a JSON value into a Go `int` or `int64`. -/
def decInt (v : Json) (cur : Int) : Int × Bool :=
  match v with
  | Json.null => (cur, false)
  | Json.num lit =>
    match parseGoInt lit with
    | some n => (n, false)
    | none => (cur, true)
  | _ => (cur, true)

/-- Decodes a JSON value into a Go `bool`. -/
def decBool (v : Json) (cur : Bool) : Bool × Bool :=
  match v with
  | Json.null => (cur, false)
  | Json.bool b => (b, false)
  | _ => (cur, true)

/-- Whether `m * 10 ^ x` is at least `2 ^ 1024 - 2 ^ 970`, the least number that
rounds to an infinite `float64`, for a number `m` of at most `nd` decimal
digits. The first three tests give the answer without building a large power
of ten. -/
def roundsToInf (m nd : Nat) (x : Int) : Bool :=
  if m = 0 then false
  else if 309 < x then true
  else if (nd : Int) + x ≤ 308 then false
  else if 0 ≤ x then decide (2 ^ 1024 - 2 ^ 970 ≤ m * 10 ^ x.toNat)
  else decide ((2 ^ 1024 - 2 ^ 970) * 10 ^ (-x).toNat ≤ m)

/-- Whether `strconv.ParseFloat(lit, 64)` returns a range error for a JSON number
literal: the number is too large for a `float64`. The answer is taken from the
value of the literal; `ParseFloat` agrees on every literal shorter than 800
characters (on longer ones it drops digits). -/
def floatOverflows (lit : List Char) : Bool :=
  let body := if lit.head? = some '-' then lit.tail else lit
  let ip := (spanDigits body).1
  let r1 := (spanDigits body).2
  let fp := if r1.head? = some '.' then (spanDigits r1.tail).1 else []
  let r2 := if r1.head? = some '.' then (spanDigits r1.tail).2 else r1
  let r3 := r2.tail
  let ed := if r3.head? = some '-' ∨ r3.head? = some '+' then r3.tail else r3
  let e : Int := if r3.head? = some '-' then -(digitsVal ed : Int) else (digitsVal ed : Int)
  roundsToInf (digitsVal (ip ++ fp)) (ip ++ fp).length (e - (fp.length : Int))

mutual
/-- The value the non-reflect code of the decoder (`valueInterface`) builds for a
JSON value, written as a JSON value: a number that does not fit a `float64`
becomes nil (`null`) and records a type error. -/
def ifaceValue : Json → Json × Bool
  | Json.num lit => if floatOverflows lit then (Json.null, true) else (Json.num lit, false)
  | Json.arr xs => (Json.arr (ifaceElems xs).1, (ifaceElems xs).2)
  | Json.obj kvs => (Json.obj (ifaceMembers kvs).1, (ifaceMembers kvs).2)
  | Json.null => (Json.null, false)
  | Json.bool b => (Json.bool b, false)
  | Json.str s => (Json.str s, false)
/-- The elements of `arrayInterface`. -/
def ifaceElems : List Json → List Json × Bool
  | [] => ([], false)
  | x :: xs => ((ifaceValue x).1 :: (ifaceElems xs).1, (ifaceValue x).2 || (ifaceElems xs).2)
/-- The members of `objectInterface`. -/
def ifaceMembers : List (List Char × Json) → List (List Char × Json) × Bool
  | [] => ([], false)
  | (k, v) :: kvs =>
    ((k, (ifaceValue v).1) :: (ifaceMembers kvs).1, (ifaceValue v).2 || (ifaceMembers kvs).2)
end

/-- Decodes a JSON value into an empty interface (`none` is the nil interface;
the value held is written as the JSON value it was built from). `null` gives
nil; a number that does not fit a `float64` is a type error and leaves the
variable as it is; every other value fits, with a type error recorded for
each number inside it that does not fit a `float64`. -/
def decIface (v : Json) (cur : Option Json) : Option Json × Bool :=
  match v with
  | Json.null => (none, false)
  | Json.num lit => if floatOverflows lit then (cur, true) else (some (Json.num lit), false)
  | x => (some (ifaceValue x).1, (ifaceValue x).2)

/-- A Go slice: its elements, and the elements of its backing array beyond its
length, up to its capacity. The nil slice and the empty slice without a
backing array both have no elements and no spare elements. -/
structure Slice (α : Type) where
  elems : List α := []
  spare : List α := []
  deriving DecidableEq, Repr

/-- The capacity to which `decodeState.array` grows a full slice of capacity `cap`:
half as much again, and at least 4. -/
def growCap (cap : Nat) : Nat := if cap + cap / 2 < 4 then 4 else cap + cap / 2

/-- The loop of `decodeState.array` over the elements of a JSON array, from index
`i`, on the backing array of the slice: a full backing array is replaced by a
longer one, zero beyond the elements copied, and the element of the array is
decoded into the element `i` of the backing array, whatever that element held
before. Returns the backing array and whether a type error is recorded. -/
def decElems {α : Type} (dec : Json → α → α × Bool) (zero : α) :
    List Json → Nat → List α → List α × Bool
  | [], _, backing => (backing, false)
  | x :: xs, i, backing =>
    let backing :=
      if backing.length ≤ i then
        backing ++ List.replicate (growCap backing.length - backing.length) zero
      else backing
    ((decElems dec zero xs (i + 1) (backing.set i (dec x (backing.getD i zero)).1)).1,
      (dec x (backing.getD i zero)).2
        || (decElems dec zero xs (i + 1) (backing.set i (dec x (backing.getD i zero)).1)).2)

/-- Decodes a JSON value into a Go slice. `null` gives the nil slice and an
empty array the empty slice, both without a backing array. The elements of a
non-empty array are decoded one by one into the backing array the slice has
(so when an object names the same slice field twice, the values of the second
array are decoded into the elements the first one left), and the length of the
slice becomes the length of the array. Any other value is a type error. The
backing array grows as in the decoder of the time of the program (`growCap`);
the releases that grow it with `reflect.Value.Grow` give other capacities. -/
def decSlice {α : Type} (dec : Json → α → α × Bool) (zero : α) (v : Json) (cur : Slice α) :
    Slice α × Bool :=
  match v with
  | Json.null => ({}, false)
  | Json.arr [] => ({}, false)
  | Json.arr (x :: xs) =>
    let r := decElems dec zero (x :: xs) 0 (cur.elems ++ cur.spare)
    ({ elems := r.1.take (x :: xs).length, spare := r.1.drop (x :: xs).length }, r.2)
  | _ => (cur, true)

/-- Decodes a JSON value into a Go struct: each member of an object, in order,
is decoded into the field its key names (`setField`); members that name no
field are skipped by `setField`. -/
def decStruct {α : Type} (setField : α → List Char → Json → α × Bool) (v : Json) (cur : α) :
    α × Bool :=
  match v with
  | Json.null => (cur, false)
  | Json.obj kvs =>
    kvs.foldl (fun acc kv => ((setField acc.1 kv.1 kv.2).1, acc.2 || (setField acc.1 kv.1 kv.2).2))
      (cur, false)
  | _ => (cur, true)

/-- Function `json.Unmarshal(data, &p)` for a pointer `p` to a struct (`none` is the nil
pointer): the new value of `p` and the error returned. Text that is not valid
JSON changes nothing; the literal `null` sets `p` to nil; an object is decoded
into the struct `p` points to (a new one when `p` is nil); any other value is
a type error. -/
def unmarshalPtr {α : Type} (setField : α → List Char → Json → α × Bool) (zero : α)
    (data : String) (p : Option α) : Option α × Option GoError :=
  match parseJson data.data with
  | none => (p, some GoError.jsonSyntax)
  | some Json.null => (none, none)
  | some (Json.obj kvs) =>
    let r := decStruct setField (Json.obj kvs) (p.getD zero)
    (some r.1, if r.2 then some GoError.jsonType else none)
  | some _ => (p, some GoError.jsonType)

/-- Function `json.Unmarshal(data, &s)` for a struct variable `s`. -/
def unmarshalStruct {α : Type} (setField : α → List Char → Json → α × Bool)
    (data : String) (s : α) : α × Option GoError :=
  match parseJson data.data with
  | none => (s, some GoError.jsonSyntax)
  | some v =>
    let r := decStruct setField v s
    (r.1, if r.2 then some GoError.jsonType else none)

/-! ## encoding/json: encoding -/

/-- A hexadecimal digit, lower case. -/
def hexDigit (n : Nat) : Char :=
  if n < 10 then Char.ofNat (48 + n) else Char.ofNat (87 + n)

/-- The JSON text of one character of a string, as `json.Marshal` writes it
(HTML-safe escaping). -/
def escapeChar (c : Char) : List Char :=
  if c = '"' then ['\\', '"']
  else if c = '\\' then ['\\', '\\']
  else if c = '\n' then ['\\', 'n']
  else if c = '\r' then ['\\', 'r']
  else if c = '\t' then ['\\', 't']
  else if c.toNat < 0x20 ∨ c = '<' ∨ c = '>' ∨ c = '&' then
    ['\\', 'u', '0', '0', hexDigit (c.toNat / 16), hexDigit (c.toNat % 16)]
  else if c.toNat = 0x2028 then "\\u2028".data
  else if c.toNat = 0x2029 then "\\u2029".data
  else [c]

/-- The JSON string literal of a Go string. -/
def encodeString (s : String) : List Char :=
  '"' :: (s.data.flatMap escapeChar ++ ['"'])

/-- The decimal digits of a natural number, most significant first. The first
argument bounds the number of digits; `n + 1` is always enough. -/
def decimal : Nat → Nat → List Char
  | 0, _ => []
  | fuel + 1, n =>
    if n < 10 then [Nat.digitChar n] else decimal fuel (n / 10) ++ [Nat.digitChar (n % 10)]

/-- Function `strconv.Itoa`. -/
def itoa (n : Int) : List Char :=
  match n with
  | Int.ofNat m => decimal (m + 1) m
  | Int.negSucc m => '-' :: decimal (m + 2) (m + 1)

/-! ## The data model of `spotify-term.go` -/

/-- Stores a decoded value in a field: the updated struct and the error flag of
the decoding. -/
def setWith {α β : Type} (d : β × Bool) (upd : β → α) : α × Bool := (upd d.1, d.2)

/-- GetAPITokenResponse represents /api/token spotify api response. -/
structure GetAPITokenResponse where
  AccessToken : String := ""
  TokenType : String := ""
  ExpiresIn : Int := 0
  RefreshToken : String := ""
  Scope : String := ""
  deriving DecidableEq, Repr

/-- Decodes one object member into a `GetAPITokenResponse` (its `json` tags). -/
def GetAPITokenResponse.setField (r : GetAPITokenResponse) (k : List Char) (v : Json) :
    GetAPITokenResponse × Bool :=
  if isField "access_token" k then
    setWith (decString v r.AccessToken) (fun x => { r with AccessToken := x })
  else if isField "token_type" k then
    setWith (decString v r.TokenType) (fun x => { r with TokenType := x })
  else if isField "expires_in" k then
    setWith (decInt v r.ExpiresIn) (fun x => { r with ExpiresIn := x })
  else if isField "refresh_token" k then
    setWith (decString v r.RefreshToken) (fun x => { r with RefreshToken := x })
  else if isField "scope" k then
    setWith (decString v r.Scope) (fun x => { r with Scope := x })
  else (r, false)

/-- Function `json.Marshal` of a `GetAPITokenResponse`. -/
def GetAPITokenResponse.marshal (r : GetAPITokenResponse) : String :=
  String.mk ("\x7b\"access_token\":".data ++ encodeString r.AccessToken
    ++ ",\"token_type\":".data ++ encodeString r.TokenType
    ++ ",\"expires_in\":".data ++ itoa r.ExpiresIn
    ++ ",\"refresh_token\":".data ++ encodeString r.RefreshToken
    ++ ",\"scope\":".data ++ encodeString r.Scope ++ ['}'])

/-- SpotifyTermConfig is a spotify term configuration file representation. -/
structure SpotifyTermConfig where
  ClientID : String := ""
  ClientSecret : String := ""
  RedirectPort : String := ""
  deriving DecidableEq, Repr

/-- Decodes one object member into a `SpotifyTermConfig`. -/
def SpotifyTermConfig.setField (r : SpotifyTermConfig) (k : List Char) (v : Json) :
    SpotifyTermConfig × Bool :=
  if isField "client_id" k then
    setWith (decString v r.ClientID) (fun x => { r with ClientID := x })
  else if isField "client_secret" k then
    setWith (decString v r.ClientSecret) (fun x => { r with ClientSecret := x })
  else if isField "redirect_port" k then
    setWith (decString v r.RedirectPort) (fun x => { r with RedirectPort := x })
  else (r, false)

/-- Function `json.Marshal` of a `SpotifyTermConfig`. -/
def SpotifyTermConfig.marshal (c : SpotifyTermConfig) : String :=
  String.mk ("\x7b\"client_id\":".data ++ encodeString c.ClientID
    ++ ",\"client_secret\":".data ++ encodeString c.ClientSecret
    ++ ",\"redirect_port\":".data ++ encodeString c.RedirectPort ++ ['}'])

/-- One element of `GetDevicesResponse.Devices`. The Go field `Type` is
`Type_` here. -/
structure Device where
  ID : String := ""
  IsActive : Bool := false
  IsPrivateSession : Bool := false
  IsRestricted : Bool := false
  Name : String := ""
  Type_ : String := ""
  VolumePercent : Int := 0
  deriving DecidableEq, Repr

/-- Decodes one object member into a `Device`. -/
def Device.setField (r : Device) (k : List Char) (v : Json) : Device × Bool :=
  if isField "id" k then setWith (decString v r.ID) (fun x => { r with ID := x })
  else if isField "is_active" k then
    setWith (decBool v r.IsActive) (fun x => { r with IsActive := x })
  else if isField "is_private_session" k then
    setWith (decBool v r.IsPrivateSession) (fun x => { r with IsPrivateSession := x })
  else if isField "is_restricted" k then
    setWith (decBool v r.IsRestricted) (fun x => { r with IsRestricted := x })
  else if isField "name" k then setWith (decString v r.Name) (fun x => { r with Name := x })
  else if isField "type" k then setWith (decString v r.Type_) (fun x => { r with Type_ := x })
  else if isField "volume_percent" k then
    setWith (decInt v r.VolumePercent) (fun x => { r with VolumePercent := x })
  else (r, false)

/-- GetDevicesResponse represents v1/me/player/devices spotify api response. -/
structure GetDevicesResponse where
  Devices : Slice Device := {}
  deriving DecidableEq, Repr

/-- Decodes one object member into a `GetDevicesResponse`. -/
def GetDevicesResponse.setField (r : GetDevicesResponse) (k : List Char) (v : Json) :
    GetDevicesResponse × Bool :=
  if isField "devices" k then
    setWith (decSlice (decStruct Device.setField) {} v r.Devices) (fun x => { r with Devices := x })
  else (r, false)

/-- The struct of the fields `external_urls`. -/
structure ExternalUrls where
  Spotify : String := ""

/-- Decodes one object member into an `ExternalUrls`. -/
def ExternalUrls.setField (r : ExternalUrls) (k : List Char) (v : Json) : ExternalUrls × Bool :=
  if isField "spotify" k then setWith (decString v r.Spotify) (fun x => { r with Spotify := x })
  else (r, false)

/-- One element of the slices `artists`. -/
structure Artist where
  ExternalUrls : ExternalUrls := {}
  Href : String := ""
  ID : String := ""
  Name : String := ""
  Type_ : String := ""
  URI : String := ""

/-- Decodes one object member into an `Artist`. -/
def Artist.setField (r : Artist) (k : List Char) (v : Json) : Artist × Bool :=
  if isField "external_urls" k then
    setWith (decStruct ExternalUrls.setField v r.ExternalUrls)
      (fun x => { r with ExternalUrls := x })
  else if isField "href" k then setWith (decString v r.Href) (fun x => { r with Href := x })
  else if isField "id" k then setWith (decString v r.ID) (fun x => { r with ID := x })
  else if isField "name" k then setWith (decString v r.Name) (fun x => { r with Name := x })
  else if isField "type" k then setWith (decString v r.Type_) (fun x => { r with Type_ := x })
  else if isField "uri" k then setWith (decString v r.URI) (fun x => { r with URI := x })
  else (r, false)

/-- One element of the slice `images`. -/
structure Image where
  Height : Int := 0
  URL : String := ""
  Width : Int := 0

/-- Decodes one object member into an `Image`. -/
def Image.setField (r : Image) (k : List Char) (v : Json) : Image × Bool :=
  if isField "height" k then setWith (decInt v r.Height) (fun x => { r with Height := x })
  else if isField "url" k then setWith (decString v r.URL) (fun x => { r with URL := x })
  else if isField "width" k then setWith (decInt v r.Width) (fun x => { r with Width := x })
  else (r, false)

/-- The struct of the field `album`. -/
structure Album where
  AlbumType : String := ""
  Artists : Slice Artist := {}
  AvailableMarkets : Slice (Option Json) := {}
  ExternalUrls : ExternalUrls := {}
  Href : String := ""
  ID : String := ""
  Images : Slice Image := {}
  Name : String := ""
  ReleaseDate : String := ""
  ReleaseDatePrecision : String := ""
  Type_ : String := ""
  URI : String := ""

/-- Decodes one object member into an `Album`. -/
def Album.setField (r : Album) (k : List Char) (v : Json) : Album × Bool :=
  if isField "album_type" k then
    setWith (decString v r.AlbumType) (fun x => { r with AlbumType := x })
  else if isField "artists" k then
    setWith (decSlice (decStruct Artist.setField) {} v r.Artists)
      (fun x => { r with Artists := x })
  else if isField "available_markets" k then
    setWith (decSlice decIface none v r.AvailableMarkets)
      (fun x => { r with AvailableMarkets := x })
  else if isField "external_urls" k then
    setWith (decStruct ExternalUrls.setField v r.ExternalUrls)
      (fun x => { r with ExternalUrls := x })
  else if isField "href" k then setWith (decString v r.Href) (fun x => { r with Href := x })
  else if isField "id" k then setWith (decString v r.ID) (fun x => { r with ID := x })
  else if isField "images" k then
    setWith (decSlice (decStruct Image.setField) {} v r.Images) (fun x => { r with Images := x })
  else if isField "name" k then setWith (decString v r.Name) (fun x => { r with Name := x })
  else if isField "release_date" k then
    setWith (decString v r.ReleaseDate) (fun x => { r with ReleaseDate := x })
  else if isField "release_date_precision" k then
    setWith (decString v r.ReleaseDatePrecision) (fun x => { r with ReleaseDatePrecision := x })
  else if isField "type" k then setWith (decString v r.Type_) (fun x => { r with Type_ := x })
  else if isField "uri" k then setWith (decString v r.URI) (fun x => { r with URI := x })
  else (r, false)

/-- The struct of the field `external_ids`. -/
structure ExternalIds where
  Isrc : String := ""

/-- Decodes one object member into an `ExternalIds`. -/
def ExternalIds.setField (r : ExternalIds) (k : List Char) (v : Json) : ExternalIds × Bool :=
  if isField "isrc" k then setWith (decString v r.Isrc) (fun x => { r with Isrc := x })
  else (r, false)

/-- The struct of the field `item`: the track. -/
structure Item where
  Album : Album := {}
  Artists : Slice Artist := {}
  AvailableMarkets : Slice (Option Json) := {}
  DiscNumber : Int := 0
  DurationMs : Int := 0
  Explicit : Bool := false
  ExternalIds : ExternalIds := {}
  ExternalUrls : ExternalUrls := {}
  Href : String := ""
  ID : String := ""
  IsLocal : Bool := false
  Name : String := ""
  Popularity : Int := 0
  PreviewURL : Option Json := none
  TrackNumber : Int := 0
  Type_ : String := ""
  URI : String := ""

/-- Decodes one object member into an `Item`. -/
def Item.setField (r : Item) (k : List Char) (v : Json) : Item × Bool :=
  if isField "album" k then
    setWith (decStruct Album.setField v r.Album) (fun x => { r with Album := x })
  else if isField "artists" k then
    setWith (decSlice (decStruct Artist.setField) {} v r.Artists)
      (fun x => { r with Artists := x })
  else if isField "available_markets" k then
    setWith (decSlice decIface none v r.AvailableMarkets)
      (fun x => { r with AvailableMarkets := x })
  else if isField "disc_number" k then
    setWith (decInt v r.DiscNumber) (fun x => { r with DiscNumber := x })
  else if isField "duration_ms" k then
    setWith (decInt v r.DurationMs) (fun x => { r with DurationMs := x })
  else if isField "explicit" k then
    setWith (decBool v r.Explicit) (fun x => { r with Explicit := x })
  else if isField "external_ids" k then
    setWith (decStruct ExternalIds.setField v r.ExternalIds)
      (fun x => { r with ExternalIds := x })
  else if isField "external_urls" k then
    setWith (decStruct ExternalUrls.setField v r.ExternalUrls)
      (fun x => { r with ExternalUrls := x })
  else if isField "href" k then setWith (decString v r.Href) (fun x => { r with Href := x })
  else if isField "id" k then setWith (decString v r.ID) (fun x => { r with ID := x })
  else if isField "is_local" k then
    setWith (decBool v r.IsLocal) (fun x => { r with IsLocal := x })
  else if isField "name" k then setWith (decString v r.Name) (fun x => { r with Name := x })
  else if isField "popularity" k then
    setWith (decInt v r.Popularity) (fun x => { r with Popularity := x })
  else if isField "preview_url" k then
    setWith (decIface v r.PreviewURL) (fun x => { r with PreviewURL := x })
  else if isField "track_number" k then
    setWith (decInt v r.TrackNumber) (fun x => { r with TrackNumber := x })
  else if isField "type" k then setWith (decString v r.Type_) (fun x => { r with Type_ := x })
  else if isField "uri" k then setWith (decString v r.URI) (fun x => { r with URI := x })
  else (r, false)

/-- CurrentlyPlayingResponse represents v1/me/player spotify api response. -/
structure CurrentlyPlayingResponse where
  Timestamp : Int := 0
  Context : Option Json := none
  ProgressMs : Int := 0
  Item : Item := {}
  IsPlaying : Bool := false

/-- Decodes one object member into a `CurrentlyPlayingResponse`. -/
def CurrentlyPlayingResponse.setField (r : CurrentlyPlayingResponse) (k : List Char)
    (v : Json) : CurrentlyPlayingResponse × Bool :=
  if isField "timestamp" k then
    setWith (decInt v r.Timestamp) (fun x => { r with Timestamp := x })
  else if isField "context" k then
    setWith (decIface v r.Context) (fun x => { r with Context := x })
  else if isField "progress_ms" k then
    setWith (decInt v r.ProgressMs) (fun x => { r with ProgressMs := x })
  else if isField "item" k then
    setWith (decStruct Item.setField v r.Item) (fun x => { r with Item := x })
  else if isField "is_playing" k then
    setWith (decBool v r.IsPlaying) (fun x => { r with IsPlaying := x })
  else (r, false)

/-! ## net/url, encoding/base64, bufio, strings -/

/-- The UTF-8 bytes of a string. -/
def utf8Bytes (s : String) : List Nat :=
  s.data.flatMap (fun c => (String.utf8EncodeChar c).map UInt8.toNat)

/-- Function `len(s)` of Go: the number of bytes of a string. -/
def byteLen (s : String) : Nat := (s.data.map Char.utf8Size).sum

/-- Type `url.Values`: the values of each key, in the order they were added. -/
abbrev Values := List (String × List String)

/-- Method `Values.Add`. -/
def Values.add : Values → String → String → Values
  | [], key, value => [(key, [value])]
  | (k, vs) :: rest, key, value =>
    if k = key then (k, vs ++ [value]) :: rest else (k, vs) :: Values.add rest key value

/-- The map lookup `v[key]`; the nil slice of an absent key is the empty list. -/
def Values.get : Values → String → List String
  | [], _ => []
  | (k, vs) :: rest, key => if k = key then vs else Values.get rest key

/-- An upper-case hexadecimal digit. -/
def upperHex (n : Nat) : Char :=
  if n < 10 then Char.ofNat (48 + n) else Char.ofNat (55 + n)

/-- The characters `url.QueryEscape` writes for one character: unreserved
characters stay, a space becomes `+`, every other byte becomes `%XX`. -/
def queryEscapeChar (c : Char) : List Char :=
  if c.isAlphanum || c = '-' || c = '_' || c = '.' || c = '~' then [c]
  else if c = ' ' then ['+']
  else (utf8Bytes (String.mk [c])).flatMap (fun b => ['%', upperHex (b / 16), upperHex (b % 16)])

/-- Function `url.QueryEscape`. -/
def queryEscape (s : String) : String := String.mk (s.data.flatMap queryEscapeChar)

/-- Function `url.QueryUnescape`, as the bytes of its result: `%XX` is the byte `XX`, `+`
is a space, every other character stands for itself; `none` for a `%` that is
not followed by two hexadecimal digits. -/
def queryUnescapeBytes : List Char → Option (List Nat)
  | [] => some []
  | c :: rest =>
    if c = '%' then
      match rest with
      | a :: b :: rest1 =>
        match hexVal a, hexVal b with
        | some x, some y => (queryUnescapeBytes rest1).map (fun bs => (x * 16 + y) :: bs)
        | _, _ => none
      | _ => none
    else if c = '+' then (queryUnescapeBytes rest).map (fun bs => 32 :: bs)
    else (queryUnescapeBytes rest).map (fun bs => utf8Bytes (String.mk [c]) ++ bs)

/-- The order of `sort.Strings`: lexicographic, character by character. -/
def strLt : List Char → List Char → Bool
  | _, [] => false
  | [], _ :: _ => true
  | a :: as, b :: bs => a.toNat < b.toNat || (a = b && strLt as bs)

/-- Inserts a key with its values into a list sorted by key. -/
def insertByKey (kv : String × List String) : Values → Values
  | [] => [kv]
  | x :: rest => if strLt kv.1.data x.1.data then kv :: x :: rest else x :: insertByKey kv rest

/-- The keys of the values in increasing order. -/
def sortByKey (v : Values) : Values := v.foldr insertByKey []

/-- Method `Values.Encode`: `key=value` pairs, escaped, sorted by key, joined by `&`. -/
def Values.encode (v : Values) : String :=
  "&".intercalate
    ((sortByKey v).flatMap (fun kv => kv.2.map (fun x => queryEscape kv.1 ++ "=" ++ queryEscape x)))

/-- The base64 alphabet of `base64.StdEncoding`. -/
def base64Alphabet : List Char :=
  "ABCDEFGHIJKLMNOPQRSTUVWXYZabcdefghijklmnopqrstuvwxyz0123456789+/".data

/-- The base64 digit of a six-bit number. -/
def base64Digit (n : Nat) : Char := base64Alphabet.getD n 'A'

/-- The base64 text of a list of bytes, padded with `=`. -/
def base64Bytes : List Nat → List Char
  | [] => []
  | [a] => [base64Digit (a / 4), base64Digit (a % 4 * 16), '=', '=']
  | [a, b] => [base64Digit (a / 4), base64Digit (a % 4 * 16 + b / 16), base64Digit (b % 16 * 4), '=']
  | a :: b :: c :: rest =>
    base64Digit (a / 4) :: base64Digit (a % 4 * 16 + b / 16)
      :: base64Digit (b % 16 * 4 + c / 64) :: base64Digit (c % 64) :: base64Bytes rest

/-- Function `base64.StdEncoding.EncodeToString([]byte(s))`. -/
def base64Encode (s : String) : String := String.mk (base64Bytes (utf8Bytes s))

/-- The first `n` bytes of a text, as characters. A character that the limit
cuts in two is invalid UTF-8 in Go; it is the replacement character here, which
JSON rejects in the same places. -/
def peekChars : Nat → List Char → List Char
  | _, [] => []
  | n, c :: cs =>
    if c.utf8Size ≤ n then c :: peekChars (n - c.utf8Size) cs
    else if n = 0 then [] else [replacementChar]

/-- Method `Peek(n)` of a `bufio.Reader` on a file with the given content, its
error dropped: the first `n` bytes, or the whole content when it is shorter. -/
def peek (n : Nat) (content : String) : String := String.mk (peekChars n content.data)

/-- Method `ReadString('\n')` of a `bufio.Reader`: the text up to and including the
first newline, the rest of the input, and `io.EOF` when the input ends before a
newline. -/
def readString : List Char → List Char × List Char × Option GoError
  | [] => ([], [], some GoError.eof)
  | c :: cs =>
    if c = '\n' then (['\n'], cs, none)
    else (c :: (readString cs).1, (readString cs).2.1, (readString cs).2.2)

/-- Function `strings.TrimSuffix(s, suffix)` for a one-character suffix. -/
def trimSuffixChar (s : List Char) (c : Char) : List Char :=
  if s.getLast? = some c then s.dropLast else s

/-- The line typed by the user without its line end: `TrimSuffix(_, "\n")`, then
`TrimSuffix(_, "\r")`. -/
def trimLine (text : List Char) : String :=
  String.mk (trimSuffixChar (trimSuffixChar text '\n') '\r')

/-- Function `fmt.Sprintln` of strings: the operands separated by spaces, and a newline. -/
def sprintln (args : List String) : String := " ".intercalate args ++ "\n"

/-! ## The environment -/

/-- An HTTP request as the program sends it. -/
structure Request where
  method : String
  url : String
  header : List (String × String) := []
  body : String := ""
  deriving DecidableEq, Repr

/-- Method `Header.Add`. -/
def Request.addHeader (r : Request) (key value : String) : Request :=
  { r with header := r.header ++ [(key, value)] }

/-- An HTTP response: its status code and its body as `ioutil.ReadAll` returns it. -/
structure Response where
  status : Nat
  body : String
  deriving DecidableEq, Repr

/-- The result of `client.Do`: a response (of any status), or a transport error. -/
inductive NetResult where
  | response (r : Response)
  | failure (e : GoError)
  deriving DecidableEq, Repr

/-- One item written to standard output: a text, or an error value printed by
`fmt.Println(err)`. -/
inductive Out where
  | text (s : String)
  | error (e : GoError)
  deriving DecidableEq, Repr

/-- The environment of one run of the program and the record of what the run
did. -/
structure World where
  /-- the directory `homedir.Dir()` returns -/
  home : String := ""
  /-- the error `homedir.Dir()` returns, if any -/
  homeErr : Option GoError := none
  /-- the content of the files, by path; a file that is not listed is absent
  or empty (every open creates the file) -/
  files : List (String × String) := []
  /-- the paths that cannot be opened for reading, with the error -/
  openReadErr : List (String × GoError) := []
  /-- the paths that cannot be opened for writing, with the error -/
  openWriteErr : List (String × GoError) := []
  /-- what the user types -/
  stdin : List Char := []
  /-- the queries of the requests that reach `/callback`, in order -/
  callbacks : List Values := []
  /-- the results of the HTTP requests of the run, in order; when the list is
  used up every further request fails -/
  net : List NetResult := []
  /-- the addresses for which `url.Parse(s)` followed by `String()` does not
  give `s` back: the text it gives, or `none` when `Parse` fails -/
  urlStrings : List (String × Option String) := []
  /-- whether a handler is registered for `/callback` on the default mux -/
  handlerRegistered : Bool := false
  /-- standard output -/
  out : List Out := []
  /-- the HTTP requests sent -/
  requests : List Request := []
  /-- the file writes done: path and content -/
  writes : List (String × String) := []
  /-- the bodies the callback handler answered with -/
  replies : List String := []
  /-- how many times `getAuthorizationCode` was entered -/
  authRuns : Nat := 0
  deriving DecidableEq, Repr

/-- The result of running a Go function: it returns, it panics (the process
dies), or it never returns. -/
inductive Res (α : Type) where
  | ret (a : α) (w : World)
  | panic (msg : String) (w : World)
  | hang (w : World)
  deriving DecidableEq, Repr

/-- The world a run ends in. -/
def Res.world {α : Type} : Res α → World
  | Res.ret _ w => w
  | Res.panic _ w => w
  | Res.hang w => w

/-- The value a run returns, if it returns. -/
def Res.value {α : Type} : Res α → Option α
  | Res.ret a _ => some a
  | Res.panic _ _ => none
  | Res.hang _ => none

/-- Sequencing: the rest of the function runs when the call returns. -/
def Res.bind {α β : Type} (r : Res α) (f : α → World → Res β) : Res β :=
  match r with
  | Res.ret a w => f a w
  | Res.panic msg w => Res.panic msg w
  | Res.hang w => Res.hang w

/-- Function `fmt.Print` of one string. -/
def World.print (w : World) (s : String) : World :=
  { w with out := w.out ++ [Out.text s] }

/-- Function `fmt.Println` of strings. -/
def World.println (w : World) (args : List String) : World := w.print (sprintln args)

/-- Function `fmt.Println(err)`. -/
def World.printlnErr (w : World) (e : GoError) : World :=
  { w with out := w.out ++ [Out.error e] }

/-- The text that a list of output items puts on standard output; `none` when
an error value is among them (the text of an error is not modelled). -/
def outText : List Out → Option String
  | [] => some ""
  | Out.text s :: rest => (outText rest).map (fun t => s ++ t)
  | Out.error _ :: _ => none

/-- The lines of a text: the pieces that end at a line feed, and the piece after
the last line feed when it is not empty. -/
def splitLines : List Char → List (List Char)
  | [] => []
  | c :: cs =>
    if c = '\n' then [] :: splitLines cs
    else
      match splitLines cs with
      | [] => [[c]]
      | l :: ls => (c :: l) :: ls

/-- The lines of a text, as strings. -/
def linesOf (s : String) : List String := (splitLines s.data).map String.mk

/-- The content of a file. -/
def World.fileContent (w : World) (path : String) : String :=
  (w.files.lookup path).getD ""

/-- Replaces the content of a file. -/
def setFile (path content : String) : List (String × String) → List (String × String)
  | [] => [(path, content)]
  | (p, c) :: rest => if p = path then (p, content) :: rest else (p, c) :: setFile path content rest

/-- Truncates a file opened for writing and writes `content` to it (the write
does not fail). -/
def World.writeFile (w : World) (path content : String) : World :=
  { w with files := setFile path content w.files, writes := w.writes ++ [(path, content)] }

/-- Method `client.Do(req)`: the request is sent and the next result of the network
comes back. -/
def World.clientDo (w : World) (req : Request) : NetResult × World :=
  match w.net with
  | [] => (NetResult.failure (GoError.env "no answer"), { w with requests := w.requests ++ [req] })
  | r :: rest => (r, { w with requests := w.requests ++ [req], net := rest })

/-- The text of `url.Parse(s)` followed by `String()`; `none` when `Parse` fails. -/
def World.urlString (w : World) (s : String) : Option String :=
  (w.urlStrings.lookup s).getD (some s)

/-! ## The program -/

/-- The path of the configuration file in the home directory `path`. -/
def configFilePath (path : String) : String := path ++ "\\.spotify-term.config"

/-- The path of the token store in the home directory `path`. -/
def storageFilePath (path : String) : String := path ++ "\\.spotify-term"

/-- The content of the token store. -/
def World.storeContent (w : World) : String := w.fileContent (storageFilePath w.home)

/-- The writes to the token store among the file writes recorded. -/
def World.storeWrites (w : World) : List (String × String) :=
  w.writes.filter (fun e => e.1 = storageFilePath w.home)

/-- The redirect URI for a port: `fmt.Sprintf("http://localhost:%s/callback", port)`. -/
def redirectURIOf (port : String) : String := "http://localhost:" ++ port ++ "/callback"

/-- The authorization URI of `getAuthorizationCode` for a client and a redirect URI. -/
def authorizationURIOf (clientID redirectURI : String) : String :=
  "https://accounts.spotify.com/authorize?scope=user-modify-playback-state%20user-read-currently-playing%20user-read-playback-state&client_id="
    ++ clientID ++ "&response_type=code&redirect_uri=" ++ redirectURI

/-- The first lines `getConfig` prints at the first-time setup. -/
def setupBanner (w : World) : World :=
  (((w.println ["Welcome to spotify term, we need to perform some first time setup."]).println
    ["In order to avoid using a third-party server and host all the code on your computer you need to create a spotify application in the link:"]).println
    ["https://developer.spotify.com"]).println
    ["After creating it enter the following settings with your spotify aplication information:"]

/-- One question of the first-time setup: prints the prompt and reads a line
from standard input. Returns the answer without its line end, or the error of
the read, after printing it. -/
def promptLine (prompt : String) (w : World) : (String ⊕ GoError) × World :=
  let w1 := w.print prompt
  let r := readString w1.stdin
  let w2 := { w1 with stdin := r.2.1 }
  match r.2.2 with
  | some err => (Sum.inr err, (w2.println ["Error getting user configuration."]).printlnErr err)
  | none => (Sum.inl (trimLine r.1), w2)

/-- The first-time setup of `getConfig` (the branch of the empty configuration
file): asks for the three settings, saves them in the configuration file and
prints the redirect URI to register. A write to a file that was opened, and
`json.Marshal` of the configuration, do not fail. -/
def firstTimeSetup (configFilePath : String) (w : World) :
    (SpotifyTermConfig × Option GoError) × World :=
  let config : SpotifyTermConfig := {}
  let w := setupBanner w
  match promptLine "Enter your client ID:" w with
  | (Sum.inr err, w) => ((config, some err), w)
  | (Sum.inl text, w) =>
    let config := { config with ClientID := text }
    match promptLine "Enter your client secret:" w with
    | (Sum.inr err, w) => ((config, some err), w)
    | (Sum.inl text, w) =>
      let config := { config with ClientSecret := text }
      match promptLine "Enter the desired port for authentification redirect [5958]:" w with
      | (Sum.inr err, w) => ((config, some err), w)
      | (Sum.inl text, w) =>
        let config := { config with RedirectPort := text }
        match w.openWriteErr.lookup configFilePath with
        | some err =>
          ((config, some err), (w.println ["Error saving user configuration."]).printlnErr err)
        | none =>
          let w := w.writeFile configFilePath config.marshal
          let redirectURI := redirectURIOf config.RedirectPort
          ((config, none),
            w.println ["The setup is done. Don't forget to add the following URI to spotify application redirect URIs: ", redirectURI])

/-- Function `getConfig`: loads the configuration file, or runs the first-time setup
when the file is empty. The error of `homedir.Dir()` and the error of opening
the file for reading are dropped: the path is then relative, the content empty. -/
def getConfig (w : World) : (SpotifyTermConfig × Option GoError) × World :=
  let path := if w.homeErr.isSome then "" else w.home
  let configFilePath := configFilePath path
  let fileContent :=
    if (w.openReadErr.lookup configFilePath).isSome then ""
    else peek 1000 (w.fileContent configFilePath)
  let config : SpotifyTermConfig := {}
  if fileContent = "" then firstTimeSetup configFilePath w
  else
    match unmarshalStruct SpotifyTermConfig.setField fileContent config with
    | (config, some err) =>
      ((config, some err), (w.println ["Error getting user configuration."]).printlnErr err)
    | (config, none) => ((config, none), w)

/-- The handler of `/callback`: given the query of the request and the current
authorization code, the new authorization code and the body written. -/
def callbackHandler (query : Values) (authorizationCode : String) : String × String :=
  match Values.get query "code" with
  | code :: _ => (code, "Sucesssfuly authorized, you can go back to your terminal now.\n")
  | [] => (authorizationCode, "Couldn't get code from request URI.\n")

/-- The waiting loop of `getAuthorizationCode`, `for authorizationCode == ""`,
interleaved with the callback requests that arrive: the loop ends as soon as
the code is not empty; while it is empty the next callback request is handled.
Returns the code (`none` when the callbacks run out with the code still empty:
the loop spins forever), the callbacks that were not consumed, and the
answers of the handler. Reads of the shared variable see the last write. -/
def awaitAuthorizationCode :
    String → List Values → List String → Option String × List Values × List String
  | authorizationCode, [], replies =>
    if authorizationCode = "" then (none, [], replies) else (some authorizationCode, [], replies)
  | authorizationCode, query :: rest, replies =>
    if authorizationCode = "" then
      awaitAuthorizationCode (callbackHandler query authorizationCode).1 rest
        (replies ++ [(callbackHandler query authorizationCode).2])
    else (some authorizationCode, query :: rest, replies)

/-- Function `getAuthorizationCode`: the browser flow. Registers the callback handler
(a second registration of the pattern panics), prints the link to open, and
waits for the authorization code. -/
def getAuthorizationCode (w : World) : Res (String × Option GoError) :=
  let w := { w with authRuns := w.authRuns + 1 }
  match getConfig w with
  | ((_, some err), w) => Res.ret ("", some err) (w.println ["Error loading config."])
  | ((config, none), w) =>
    if w.handlerRegistered then Res.panic "http: multiple registrations for /callback" w
    else
      let w := { w with handlerRegistered := true }
      let redirectURI := redirectURIOf config.RedirectPort
      match w.urlString (authorizationURIOf config.ClientID redirectURI) with
      | none => Res.panic "invalid memory address or nil pointer dereference" w
      | some clientAuthString =>
        let w := w.println ["Please, enter this link in your browser to authorize the app: ", clientAuthString]
        match awaitAuthorizationCode "" w.callbacks w.replies with
        | (none, rest, replies) => Res.hang { w with callbacks := rest, replies := replies }
        | (some authorizationCode, rest, replies) =>
          Res.ret (authorizationCode, none) { w with callbacks := rest, replies := replies }

deriving instance DecidableEq for Except

/-- What `getAPIToken` knows when the token endpoint has answered: the kind of
grant, the code or refresh token it sent, and the body of the response. -/
structure Exchange where
  isRefreshRequest : Bool
  authorizationCode : String
  body : String
  deriving DecidableEq, Repr

/-- The form of the token request: `data` of `getAPIToken`. -/
def tokenRequestData (isRefreshRequest : Bool) (authorizationCode redirectURI : String) :
    Values :=
  let data : Values := []
  let data :=
    if isRefreshRequest then
      Values.add (Values.add data "grant_type" "refresh_token") "refresh_token" authorizationCode
    else
      Values.add (Values.add data "grant_type" "authorization_code") "code" authorizationCode
  Values.add data "redirect_uri" redirectURI

/-- The token request: `req` of `getAPIToken`. -/
def tokenRequest (config : SpotifyTermConfig) (data : Values) : Request :=
  let req : Request :=
    { method := "POST", url := "https://accounts.spotify.com/api/token", body := Values.encode data }
  let req := req.addHeader "Content-Type" "application/x-www-form-urlencoded"
  let req := req.addHeader "Content-Length" (String.mk (itoa (byteLen (Values.encode data))))
  req.addHeader "Authorization"
    ("Basic " ++ base64Encode (config.ClientID ++ ":" ++ config.ClientSecret))

/-- The choice of the grant in `getAPIToken`, from the content read from the
token store: an empty store runs `getAuthorizationCode` and gives an
authorization code; any other content is decoded and gives the stored refresh
token (`isRefreshRequest` is then true). A store that holds `null` leaves a nil
pointer, whose use panics. -/
def chooseGrant (fileContent : String) (w : World) :
    Res (Except (String × GoError) (Bool × String)) :=
  let authorizationCode := ""
  if fileContent = "" then
    (getAuthorizationCode w).bind (fun r w =>
      match r with
      | (authorizationCode, some err) =>
        Res.ret (Except.error (authorizationCode, err))
          ((w.println ["Error getting user authorization code."]).printlnErr err)
      | (authorizationCode, none) => Res.ret (Except.ok (false, authorizationCode)) w)
  else
    match unmarshalPtr GetAPITokenResponse.setField {} fileContent (some {}) with
    | (_, some err) =>
      Res.ret (Except.error (authorizationCode, err))
        ((w.println ["Error deserializing spotify term storage file."]).printlnErr err)
    | (none, none) => Res.panic "invalid memory address or nil pointer dereference" w
    | (some fileContentStruct, none) =>
      Res.ret (Except.ok (true, fileContentStruct.RefreshToken)) w

/-- The token exchange of `getAPIToken`: loads the configuration, builds the
request for the grant and sends it. -/
def sendTokenRequest (isRefreshRequest : Bool) (authorizationCode : String) (w : World) :
    Res (Except (String × GoError) Exchange) :=
  match getConfig w with
  | ((_, some err), w) =>
    Res.ret (Except.error ("", err)) ((w.println ["Error loading config."]).printlnErr err)
  | ((config, none), w) =>
    let redirectURI := redirectURIOf config.RedirectPort
    let data := tokenRequestData isRefreshRequest authorizationCode redirectURI
    match w.clientDo (tokenRequest config data) with
    | (NetResult.failure err, w) =>
      Res.ret (Except.error ("", err))
        ((w.println ["Error on spotify access token request."]).printlnErr err)
    | (NetResult.response resp, w) =>
      Res.ret (Except.ok
        { isRefreshRequest := isRefreshRequest, authorizationCode := authorizationCode,
          body := resp.body }) w

/-- The first part of `getAPIToken`, up to the reading of the response body:
reads the token store, chooses the grant, and sends the token request. An
early return of `getAPIToken` is an `Except.error` with the two values
returned. -/
def getAPITokenRequest (w : World) : Res (Except (String × GoError) Exchange) :=
  let authorizationCode := ""
  match w.homeErr with
  | some err =>
    Res.ret (Except.error (authorizationCode, err))
      ((w.println ["Error getting user home directory."]).printlnErr err)
  | none =>
    let storageFilePath := storageFilePath w.home
    match w.openReadErr.lookup storageFilePath with
    | some err =>
      Res.ret (Except.error (authorizationCode, err))
        ((w.println ["Error opening spotify term storage file."]).printlnErr err)
    | none =>
      let fileContent := peek 1000 (w.fileContent storageFilePath)
      (chooseGrant fileContent w).bind (fun c w =>
        match c with
        | Except.error e => Res.ret (Except.error e) w
        | Except.ok (isRefreshRequest, authorizationCode) =>
          sendTokenRequest isRefreshRequest authorizationCode w)

/-- The record `responseJSON` of `getAPIToken` after the body was decoded (the
error of `json.Unmarshal` is dropped) and, for a refresh request, its refresh
token was set to the one that was sent; `none` when `responseJSON` is nil (the
body is `null`). -/
def mergedResponse (x : Exchange) : Option GetAPITokenResponse :=
  match (unmarshalPtr GetAPITokenResponse.setField {} x.body (some {})).1 with
  | none => none
  | some responseJSON =>
    if x.isRefreshRequest then some { responseJSON with RefreshToken := x.authorizationCode }
    else some responseJSON

/-- The last part of `getAPIToken`, from the decoding of the response body:
saves the record when it has a refresh token and an access token, and returns
the access token with a nil error. A nil `responseJSON` panics at its first
use. A write to the store that cannot be opened is dropped. -/
def getAPITokenStore (x : Exchange) (w : World) : Res (String × Option GoError) :=
  match mergedResponse x with
  | none => Res.panic "invalid memory address or nil pointer dereference" w
  | some responseJSON =>
    let w :=
      if responseJSON.RefreshToken ≠ "" ∧ responseJSON.AccessToken ≠ "" then
        match w.openWriteErr.lookup (storageFilePath w.home) with
        | some _ => w
        | none => w.writeFile (storageFilePath w.home) responseJSON.marshal
      else w
    Res.ret (responseJSON.AccessToken, none) w

/-- Function `getAPIToken`. -/
def getAPIToken (w : World) : Res (String × Option GoError) :=
  (getAPITokenRequest w).bind (fun r w =>
    match r with
    | Except.error (accessToken, err) => Res.ret (accessToken, some err) w
    | Except.ok x => getAPITokenStore x w)

/-- A request without a body to an endpoint of the Spotify API: `http.NewRequest`. -/
def apiRequest (method url : String) : Request := { method := method, url := url }

/-- Function `displayCurrentPlayingTrack`. The access `Artists[0]` panics on an empty
slice, and the first use of a nil `response` panics. -/
def displayCurrentPlayingTrack (w : World) : Res Unit :=
  let req := apiRequest "GET" "https://api.spotify.com/v1/me/player/currently-playing"
  (getAPIToken w).bind (fun r w =>
    match r with
    | (_, some err) => Res.ret () ((w.println ["Error getting api access token."]).printlnErr err)
    | (accessToken, none) =>
      let req := req.addHeader "Authorization" ("Bearer " ++ accessToken)
      match w.clientDo req with
      | (NetResult.failure err, w) =>
        Res.ret () ((w.println ["Error on currently playing api request."]).printlnErr err)
      | (NetResult.response resp, w) =>
        match unmarshalPtr CurrentlyPlayingResponse.setField {} resp.body (some {}) with
        | (_, some err) =>
          Res.ret ()
            ((w.println ["Error on deserializing currently playing api response."]).printlnErr err)
        | (none, none) => Res.panic "invalid memory address or nil pointer dereference" w
        | (some response, none) =>
          match response.Item.Artists.elems with
          | [] => Res.panic "index out of range [0] with length 0" w
          | artist :: _ =>
            Res.ret () (w.println ["Now playing: ", response.Item.Name, " by ", artist.Name]))

/-- Function `resumeTrack`. -/
def resumeTrack (w : World) : Res Unit :=
  let req := apiRequest "PUT" "https://api.spotify.com/v1/me/player/play"
  (getAPIToken w).bind (fun r w =>
    match r with
    | (_, some err) => Res.ret () ((w.println ["Error getting api access token."]).printlnErr err)
    | (accessToken, none) =>
      let req := req.addHeader "Authorization" ("Bearer " ++ accessToken)
      match w.clientDo req with
      | (NetResult.failure err, w) =>
        Res.ret () ((w.println ["Error on resume track request."]).printlnErr err)
      | (NetResult.response _, w) => displayCurrentPlayingTrack w)

/-- Function `pauseTrack`. The error of `getAPIToken` is overwritten by the one of
`client.Do` before it is looked at. -/
def pauseTrack (w : World) : Res Unit :=
  let req := apiRequest "PUT" "https://api.spotify.com/v1/me/player/pause"
  (getAPIToken w).bind (fun r w =>
    let req := req.addHeader "Authorization" ("Bearer " ++ r.1)
    match w.clientDo req with
    | (NetResult.failure err, w) =>
      Res.ret () ((w.println ["Error getting api access token."]).printlnErr err)
    | (NetResult.response _, w) => Res.ret () (w.println ["Track paused."]))

/-- Function `skipToNextTrack`. The pause of one second before the track is displayed
is not modelled. -/
def skipToNextTrack (w : World) : Res Unit :=
  let req := apiRequest "POST" "https://api.spotify.com/v1/me/player/next"
  (getAPIToken w).bind (fun r w =>
    match r with
    | (_, some err) => Res.ret () ((w.println ["Error getting api access token."]).printlnErr err)
    | (accessToken, none) =>
      let req := req.addHeader "Authorization" ("Bearer " ++ accessToken)
      match w.clientDo req with
      | (NetResult.failure err, w) =>
        Res.ret () ((w.println ["Error on skip to next track api request."]).printlnErr err)
      | (NetResult.response _, w) => displayCurrentPlayingTrack w)

/-- Function `skipToPreviousTrack`. The pause of one second before the track is
displayed is not modelled. -/
def skipToPreviousTrack (w : World) : Res Unit :=
  let req := apiRequest "POST" "https://api.spotify.com/v1/me/player/previous"
  (getAPIToken w).bind (fun r w =>
    match r with
    | (_, some err) => Res.ret () ((w.println ["Error getting api access token."]).printlnErr err)
    | (accessToken, none) =>
      let req := req.addHeader "Authorization" ("Bearer " ++ accessToken)
      match w.clientDo req with
      | (NetResult.failure err, w) =>
        Res.ret () ((w.println ["Error on skip to previous track api request."]).printlnErr err)
      | (NetResult.response _, w) => displayCurrentPlayingTrack w)

/-- The line `getDevices` prints for one device. -/
def deviceLine (d : Device) : String :=
  sprintln [d.Name, " ", d.Type_, " ", String.mk (itoa d.VolumePercent), " ", d.ID]

/-- The output of `getDevices` once the response is decoded: the message for an
empty list, then one line for each device. -/
def printDevices (response : GetDevicesResponse) (w : World) : World :=
  let w :=
    if response.Devices.elems.length = 0 then
      w.println ["There are no available devices at the moment."]
    else w
  response.Devices.elems.foldl (fun w d => w.print (deviceLine d)) w

/-- Function `getDevices`. -/
def getDevices (w : World) : Res Unit :=
  let req := apiRequest "GET" "https://api.spotify.com/v1/me/player/devices"
  (getAPIToken w).bind (fun r w =>
    match r with
    | (_, some err) => Res.ret () ((w.println ["Error getting api access token."]).printlnErr err)
    | (accessToken, none) =>
      let req := req.addHeader "Authorization" ("Bearer " ++ accessToken)
      match w.clientDo req with
      | (NetResult.failure err, w) =>
        Res.ret () ((w.println ["Error on get devices request."]).printlnErr err)
      | (NetResult.response resp, w) =>
        match unmarshalPtr GetDevicesResponse.setField {} resp.body (some {}) with
        | (_, some err) =>
          Res.ret ()
            ((w.println ["Error on deserializing get devices api response."]).printlnErr err)
        | (none, none) => Res.panic "invalid memory address or nil pointer dereference" w
        | (some response, none) => Res.ret () (printDevices response w))

/-- Function `getMe`. -/
def getMe (w : World) : Res Unit :=
  let req := apiRequest "GET" "https://api.spotify.com/v1/me"
  (getAPIToken w).bind (fun r w =>
    match r with
    | (_, some err) => Res.ret () ((w.println ["Error getting api access token."]).printlnErr err)
    | (accessToken, none) =>
      let req := req.addHeader "Authorization" ("Bearer " ++ accessToken)
      match w.clientDo req with
      | (NetResult.failure err, w) =>
        Res.ret () ((w.println ["Error on get devices request."]).printlnErr err)
      | (NetResult.response resp, w) => Res.ret () (w.println [resp.body]))

/-- The help text of `main`. -/
def printHelp (w : World) : World :=
  (((((((((w.println ["available functions:"]).println
    ["setup - Perform first time setup."]).println
    ["login - Authorize application on spotify."]).println
    ["resume - Resume current track."]).println
    ["pause - Pause current track."]).println
    ["next - Skip to next track."]).println
    ["previous - Skip to next track."]).println
    ["devices - Show current connected devices."]).println
    [""]).println
    ["spotify-term uses two configurations files: \"~\\.spotify-term\" and \"~\\.spotify-term.config\". You are free to delete them to force a reconfiguration or make any changes you see fit."]

/-- Function `main`, for the command-line arguments `os.Args[1:]`. -/
def main (callArguments : List String) (w : World) : Res Unit :=
  match callArguments with
  | [] => Res.ret () (w.println ["Enter a valid command. Enter --help for help."])
  | arg :: _ =>
    if arg = "setup" then Res.ret () (getConfig w).2
    else if arg = "login" then
      (getAPIToken w).bind (fun r w =>
        match r.2 with
        | none => Res.ret () (w.println ["Sucessfully logged in!"])
        | some _ => Res.ret () w)
    else if arg = "devices" then getDevices w
    else if arg = "next" then skipToNextTrack w
    else if arg = "previous" then skipToPreviousTrack w
    else if arg = "pause" then pauseTrack w
    else if arg = "resume" then resumeTrack w
    else if arg = "--help" ∨ arg = "-h" then Res.ret () (printHelp w)
    else Res.ret () (w.println ["Invalid command. Enter --help for help."])

/-- The API commands. -/
inductive Command where
  | resume
  | pause
  | next
  | previous
  | nowPlaying
  | devices
  | me
  deriving DecidableEq, Repr

/-- The Go function of a command. -/
def Command.run : Command → World → Res Unit
  | Command.resume => resumeTrack
  | Command.pause => pauseTrack
  | Command.next => skipToNextTrack
  | Command.previous => skipToPreviousTrack
  | Command.nowPlaying => displayCurrentPlayingTrack
  | Command.devices => getDevices
  | Command.me => getMe

/-- The request a command builds for its endpoint, before the `Authorization` header. -/
def Command.request : Command → Request
  | Command.resume => apiRequest "PUT" "https://api.spotify.com/v1/me/player/play"
  | Command.pause => apiRequest "PUT" "https://api.spotify.com/v1/me/player/pause"
  | Command.next => apiRequest "POST" "https://api.spotify.com/v1/me/player/next"
  | Command.previous => apiRequest "POST" "https://api.spotify.com/v1/me/player/previous"
  | Command.nowPlaying => apiRequest "GET" "https://api.spotify.com/v1/me/player/currently-playing"
  | Command.devices => apiRequest "GET" "https://api.spotify.com/v1/me/player/devices"
  | Command.me => apiRequest "GET" "https://api.spotify.com/v1/me"

/-- The line a command prints when `client.Do` fails for its request. -/
def Command.failureText : Command → String
  | Command.resume => "Error on resume track request."
  | Command.pause => "Error getting api access token."
  | Command.next => "Error on skip to next track api request."
  | Command.previous => "Error on skip to previous track api request."
  | Command.nowPlaying => "Error on currently playing api request."
  | Command.devices => "Error on get devices request."
  | Command.me => "Error on get devices request."

/-! ## Sample environments -/

/-- A configuration file as the first-time setup writes it. -/
def sampleConfigFile : String :=
  "\x7b\"client_id\":\"id\",\"client_secret\":\"secret\",\"redirect_port\":\"5958\"\x7d"

/-- A token store that holds the refresh token `R`. -/
def sampleStoreFile : String :=
  "\x7b\"access_token\":\"A\",\"token_type\":\"Bearer\",\"expires_in\":3600,\"refresh_token\":\"R\",\"scope\":\"s\"\x7d"

/-- A refresh response of the token endpoint: an access token and no refresh token. -/
def sampleRefreshBody : String :=
  "\x7b\"access_token\":\"A2\",\"token_type\":\"Bearer\",\"expires_in\":3600,\"scope\":\"s\"\x7d"

/-- A response of the token endpoint to the first login. -/
def sampleLoginBody : String :=
  "\x7b\"access_token\":\"A1\",\"token_type\":\"Bearer\",\"expires_in\":3600,\"refresh_token\":\"R1\",\"scope\":\"s\"\x7d"

/-- A devices response with two devices. -/
def sampleDevicesBody : String :=
  "\x7b\"devices\":[\x7b\"id\":\"d1\",\"is_active\":true,\"name\":\"Desk\",\"type\":\"Computer\",\"volume_percent\":70\x7d,\x7b\"id\":\"d2\",\"name\":\"Phone\",\"type\":\"Smartphone\",\"volume_percent\":35\x7d]\x7d"

/-- A devices response with one device, whose name holds a line feed. -/
def lineFeedDevicesBody : String :=
  "\x7b\"devices\":[\x7b\"id\":\"k1\",\"name\":\"There are no available devices at the moment.\\nKitchen\",\"type\":\"Speaker\",\"volume_percent\":50\x7d]\x7d"

/-- A machine after a login: the configuration file and a token store with the
refresh token `R`, and the given answers of the network. -/
def loggedInWorld (net : List NetResult) : World :=
  { home := "/home/u"
    files := [("/home/u\\.spotify-term.config", sampleConfigFile),
      ("/home/u\\.spotify-term", sampleStoreFile)]
    net := net }

/-- A machine before the first login: the configuration file and no token
store, with the given callback requests and answers of the network. -/
def freshWorld (callbacks : List Values) (net : List NetResult) : World :=
  { home := "/home/u"
    files := [("/home/u\\.spotify-term.config", sampleConfigFile)]
    callbacks := callbacks
    net := net }

/-- A machine whose token store holds text that is not JSON; the network answers
the first request with status 401. -/
def corruptStoreWorld : World :=
  { home := "/home/u"
    files := [("/home/u\\.spotify-term", "junk")]
    net := [NetResult.response { status := 401, body := "" }] }

/-- A token record whose access token is a thousand characters long. -/
def longRecord : GetAPITokenResponse :=
  { AccessToken := String.mk (List.replicate 1000 'a'), TokenType := "Bearer", ExpiresIn := 3600,
    RefreshToken := "R", Scope := "s" }

set_option maxRecDepth 100000

/-! ## Frame properties -/

theorem promptLine_frame (prompt : String) (w : World) :
    (promptLine prompt w).2.home = w.home ∧ (promptLine prompt w).2.homeErr = w.homeErr
    ∧ (promptLine prompt w).2.files = w.files ∧ (promptLine prompt w).2.writes = w.writes
    ∧ (promptLine prompt w).2.openReadErr = w.openReadErr
    ∧ (promptLine prompt w).2.openWriteErr = w.openWriteErr
    ∧ (promptLine prompt w).2.callbacks = w.callbacks ∧ (promptLine prompt w).2.net = w.net
    ∧ (promptLine prompt w).2.urlStrings = w.urlStrings
    ∧ (promptLine prompt w).2.handlerRegistered = w.handlerRegistered
    ∧ (promptLine prompt w).2.requests = w.requests ∧ (promptLine prompt w).2.replies = w.replies
    ∧ (promptLine prompt w).2.authRuns = w.authRuns := by
  unfold promptLine
  simp only []
  split <;> simp [World.println, World.print, World.printlnErr]

theorem promptLine_frame_of_eq {prompt : String} {w w1 : World} {r : String ⊕ GoError}
    (h : promptLine prompt w = (r, w1)) :
    w1.home = w.home ∧ w1.homeErr = w.homeErr
    ∧ w1.files = w.files ∧ w1.writes = w.writes
    ∧ w1.openReadErr = w.openReadErr
    ∧ w1.openWriteErr = w.openWriteErr
    ∧ w1.callbacks = w.callbacks ∧ w1.net = w.net
    ∧ w1.urlStrings = w.urlStrings
    ∧ w1.handlerRegistered = w.handlerRegistered
    ∧ w1.requests = w.requests ∧ w1.replies = w.replies
    ∧ w1.authRuns = w.authRuns := by
  have := promptLine_frame prompt w
  rw [h] at this
  exact this

theorem setupBanner_frame (w : World) :
    (setupBanner w).home = w.home ∧ (setupBanner w).homeErr = w.homeErr
    ∧ (setupBanner w).files = w.files ∧ (setupBanner w).writes = w.writes
    ∧ (setupBanner w).openReadErr = w.openReadErr
    ∧ (setupBanner w).openWriteErr = w.openWriteErr
    ∧ (setupBanner w).callbacks = w.callbacks ∧ (setupBanner w).net = w.net
    ∧ (setupBanner w).urlStrings = w.urlStrings
    ∧ (setupBanner w).handlerRegistered = w.handlerRegistered
    ∧ (setupBanner w).requests = w.requests ∧ (setupBanner w).replies = w.replies
    ∧ (setupBanner w).authRuns = w.authRuns := by
  simp [setupBanner, World.println, World.print]

theorem firstTimeSetup_frame (p : String) (w : World) :
    (firstTimeSetup p w).2.home = w.home ∧ (firstTimeSetup p w).2.homeErr = w.homeErr
    ∧ (firstTimeSetup p w).2.openReadErr = w.openReadErr
    ∧ (firstTimeSetup p w).2.openWriteErr = w.openWriteErr
    ∧ (firstTimeSetup p w).2.callbacks = w.callbacks ∧ (firstTimeSetup p w).2.net = w.net
    ∧ (firstTimeSetup p w).2.urlStrings = w.urlStrings
    ∧ (firstTimeSetup p w).2.handlerRegistered = w.handlerRegistered
    ∧ (firstTimeSetup p w).2.requests = w.requests ∧ (firstTimeSetup p w).2.replies = w.replies
    ∧ (firstTimeSetup p w).2.authRuns = w.authRuns
    ∧ (((firstTimeSetup p w).2.files = w.files ∧ (firstTimeSetup p w).2.writes = w.writes)
      ∨ ∃ c, (firstTimeSetup p w).2.files = setFile p c w.files
          ∧ (firstTimeSetup p w).2.writes = w.writes ++ [(p, c)]) := by
  obtain ⟨b1, b2, b3, b4, b5, b6, b7, b8, b9, b10, b11, b12, b13⟩ := setupBanner_frame w
  unfold firstTimeSetup
  simp only []
  rcases h1 : promptLine "Enter your client ID:" (setupBanner w) with ⟨r1 | e1, w1⟩
  · obtain ⟨a1, a2, a3, a4, a5, a6, a7, a8, a9, a10, a11, a12, a13⟩ := promptLine_frame_of_eq h1
    simp only []
    rcases h2 : promptLine "Enter your client secret:" w1 with ⟨r2 | e2, w2⟩
    · obtain ⟨c1, c2, c3, c4, c5, c6, c7, c8, c9, c10, c11, c12, c13⟩ :=
        promptLine_frame_of_eq h2
      simp only []
      rcases h3 : promptLine "Enter the desired port for authentification redirect [5958]:" w2
        with ⟨r3 | e3, w3⟩
      · obtain ⟨d1, d2, d3, d4, d5, d6, d7, d8, d9, d10, d11, d12, d13⟩ :=
          promptLine_frame_of_eq h3
        simp only []
        cases h4 : List.lookup p w3.openWriteErr with
        | some err => simp [World.println, World.print, World.printlnErr, *]
        | none => simp [World.println, World.print, World.printlnErr, World.writeFile, *]
      · obtain ⟨d1, d2, d3, d4, d5, d6, d7, d8, d9, d10, d11, d12, d13⟩ :=
          promptLine_frame_of_eq h3
        simp [*]
    · obtain ⟨c1, c2, c3, c4, c5, c6, c7, c8, c9, c10, c11, c12, c13⟩ :=
        promptLine_frame_of_eq h2
      simp [*]
  · obtain ⟨a1, a2, a3, a4, a5, a6, a7, a8, a9, a10, a11, a12, a13⟩ := promptLine_frame_of_eq h1
    simp [*]

/-- What `getConfig` leaves as it is: everything but standard input and output
and the configuration file. -/
theorem getConfig_frame (w : World) :
    (getConfig w).2.home = w.home ∧ (getConfig w).2.homeErr = w.homeErr
    ∧ (getConfig w).2.openReadErr = w.openReadErr
    ∧ (getConfig w).2.openWriteErr = w.openWriteErr
    ∧ (getConfig w).2.callbacks = w.callbacks ∧ (getConfig w).2.net = w.net
    ∧ (getConfig w).2.urlStrings = w.urlStrings
    ∧ (getConfig w).2.handlerRegistered = w.handlerRegistered
    ∧ (getConfig w).2.requests = w.requests ∧ (getConfig w).2.replies = w.replies
    ∧ (getConfig w).2.authRuns = w.authRuns
    ∧ (((getConfig w).2.files = w.files ∧ (getConfig w).2.writes = w.writes)
      ∨ ∃ c, (getConfig w).2.files
            = setFile (configFilePath (if w.homeErr.isSome then "" else w.home)) c w.files
          ∧ (getConfig w).2.writes
            = w.writes ++ [(configFilePath (if w.homeErr.isSome then "" else w.home), c)]) := by
  unfold getConfig
  simp only []
  generalize (if w.homeErr.isSome = true then "" else w.home) = path
  generalize (if (List.lookup (configFilePath path) w.openReadErr).isSome = true then ""
    else peek 1000 (w.fileContent (configFilePath path))) = fc
  by_cases hfc : fc = ""
  · simp only [hfc, if_true]
    exact firstTimeSetup_frame _ w
  · simp only [hfc, if_false]
    split <;> simp [World.println, World.print, World.printlnErr]

theorem storageFilePath_ne_configFilePath (a b : String) :
    storageFilePath a ≠ configFilePath b := by
  intro h
  have h1 : (storageFilePath a).data.getLast? = (configFilePath b).data.getLast? := by rw [h]
  simp [storageFilePath, configFilePath, String.data_append, List.getLast?_append] at h1

theorem lookup_setFile_ne {p q : String} (c : String) (fs : List (String × String))
    (h : p ≠ q) : (setFile q c fs).lookup p = fs.lookup p := by
  induction fs with
  | nil =>
    simp only [setFile, List.lookup]
    have : (p == q) = false := by simpa using h
    simp [this]
  | cons x rest ih =>
    obtain ⟨k, v⟩ := x
    simp only [setFile]
    by_cases hk : k = q
    · subst hk
      have : (p == k) = false := by simpa using h
      simp [List.lookup, this]
    · simp only [hk, if_false, List.lookup]
      cases hpk : (p == k) <;> simp [ih]

theorem lookup_setFile_self (p c : String) (fs : List (String × String)) :
    (setFile p c fs).lookup p = some c := by
  induction fs with
  | nil => simp [setFile, List.lookup]
  | cons x rest ih =>
    obtain ⟨k, v⟩ := x
    simp only [setFile]
    by_cases hk : k = p
    · subst hk
      simp [List.lookup]
    · have : (p == k) = false := by simpa using (fun h : p = k => hk h.symm)
      simp [hk, List.lookup, this, ih]

/-- A change of the configuration file alone leaves the token store as it is. -/
theorem store_kept_of_config_write {w w1 : World} {path : String} (hhome : w1.home = w.home)
    (h : (w1.files = w.files ∧ w1.writes = w.writes)
      ∨ ∃ c, w1.files = setFile (configFilePath path) c w.files
          ∧ w1.writes = w.writes ++ [(configFilePath path, c)]) :
    w1.storeContent = w.storeContent ∧ w1.storeWrites = w.storeWrites := by
  unfold World.storeContent World.storeWrites World.fileContent
  rw [hhome]
  rcases h with ⟨hf, hw⟩ | ⟨c, hf, hw⟩
  · rw [hf, hw]
    exact ⟨rfl, rfl⟩
  · rw [hf, hw, lookup_setFile_ne c w.files (storageFilePath_ne_configFilePath w.home path)]
    refine ⟨rfl, ?_⟩
    have hne : configFilePath path ≠ storageFilePath w.home :=
      fun e => storageFilePath_ne_configFilePath w.home path e.symm
    simp [List.filter_append, hne]

/-- What `getAuthorizationCode` leaves as it is: the environment but standard
input and the callbacks, the network, the requests sent, and every file but
the configuration file. -/
theorem getAuthorizationCode_frame (w : World) :
    (getAuthorizationCode w).world.home = w.home
    ∧ (getAuthorizationCode w).world.homeErr = w.homeErr
    ∧ (getAuthorizationCode w).world.openReadErr = w.openReadErr
    ∧ (getAuthorizationCode w).world.openWriteErr = w.openWriteErr
    ∧ (getAuthorizationCode w).world.net = w.net
    ∧ (getAuthorizationCode w).world.urlStrings = w.urlStrings
    ∧ (getAuthorizationCode w).world.requests = w.requests
    ∧ (getAuthorizationCode w).world.authRuns = w.authRuns + 1
    ∧ (((getAuthorizationCode w).world.files = w.files
        ∧ (getAuthorizationCode w).world.writes = w.writes)
      ∨ ∃ c, (getAuthorizationCode w).world.files
            = setFile (configFilePath (if w.homeErr.isSome then "" else w.home)) c w.files
          ∧ (getAuthorizationCode w).world.writes
            = w.writes ++ [(configFilePath (if w.homeErr.isSome then "" else w.home), c)]) := by
  obtain ⟨a1, a2, a3, a4, a5, a6, a7, a8, a9, a10, a11, a12⟩ :=
    getConfig_frame { w with authRuns := w.authRuns + 1 }
  simp only [] at a1 a2 a3 a4 a5 a6 a7 a8 a9 a10 a11 a12
  unfold getAuthorizationCode
  simp only []
  rcases h : getConfig { w with authRuns := w.authRuns + 1 } with ⟨⟨config, err⟩, w1⟩
  rw [h] at a1 a2 a3 a4 a5 a6 a7 a8 a9 a10 a11 a12
  simp only [] at a1 a2 a3 a4 a5 a6 a7 a8 a9 a10 a11 a12
  cases err with
  | some e => simp [Res.world, World.println, World.print, *]
  | none =>
    simp only []
    by_cases hreg : w1.handlerRegistered = true
    · simp [hreg, Res.world, *]
    · simp only [hreg]
      cases hu : World.urlString { w1 with handlerRegistered := true }
          (authorizationURIOf config.ClientID (redirectURIOf config.RedirectPort)) with
      | none => simp [Res.world, *]
      | some s =>
        simp only []
        rcases hs : awaitAuthorizationCode ""
            (World.println { w1 with handlerRegistered := true }
              ["Please, enter this link in your browser to authorize the app: ", s]).callbacks
            (World.println { w1 with handlerRegistered := true }
              ["Please, enter this link in your browser to authorize the app: ", s]).replies
          with ⟨code, rest, replies⟩
        cases code <;> simp [Res.world, World.println, World.print, *]

/-- What the choice of the grant leaves as it is. -/
theorem chooseGrant_frame (fc : String) (w : World) :
    (chooseGrant fc w).world.home = w.home
    ∧ (chooseGrant fc w).world.homeErr = w.homeErr
    ∧ (chooseGrant fc w).world.openReadErr = w.openReadErr
    ∧ (chooseGrant fc w).world.openWriteErr = w.openWriteErr
    ∧ (chooseGrant fc w).world.net = w.net
    ∧ (chooseGrant fc w).world.requests = w.requests
    ∧ (chooseGrant fc w).world.storeContent = w.storeContent
    ∧ (chooseGrant fc w).world.storeWrites = w.storeWrites := by
  unfold chooseGrant
  simp only []
  by_cases hfc : fc = ""
  · simp only [hfc, if_true]
    obtain ⟨a1, a2, a3, a4, a5, a6, a7, a8, a9⟩ := getAuthorizationCode_frame w
    obtain ⟨s1, s2⟩ := store_kept_of_config_write a1 a9
    rcases h : getAuthorizationCode w with ⟨⟨code, err⟩, w1⟩ | ⟨m, w1⟩ | w1
    · rw [h] at a1 a2 a3 a4 a5 a6 a7 a8 s1 s2
      simp only [Res.world] at a1 a2 a3 a4 a5 a6 a7 a8 s1 s2
      cases err with
      | some e =>
        simp [Res.bind, Res.world, World.println, World.print, World.printlnErr,
          World.storeContent, World.storeWrites, World.fileContent, *]
        exact ⟨by simpa [World.storeContent, World.fileContent, a1] using s1,
          by simpa [World.storeWrites, a1] using s2⟩
      | none => simp [Res.bind, Res.world, *]
    · rw [h] at a1 a2 a3 a4 a5 a6 a7 a8 s1 s2
      simp only [Res.world] at a1 a2 a3 a4 a5 a6 a7 a8 s1 s2
      simp [Res.bind, Res.world, *]
    · rw [h] at a1 a2 a3 a4 a5 a6 a7 a8 s1 s2
      simp only [Res.world] at a1 a2 a3 a4 a5 a6 a7 a8 s1 s2
      simp [Res.bind, Res.world, *]
  · simp only [hfc, if_false]
    split <;>
      simp [Res.world, World.println, World.print, World.printlnErr, World.storeContent,
        World.storeWrites, World.fileContent]

theorem printed_store (w : World) (args : List String) :
    (w.println args).storeContent = w.storeContent
    ∧ (w.println args).storeWrites = w.storeWrites
    ∧ (w.println args).home = w.home ∧ (w.println args).homeErr = w.homeErr
    ∧ (w.println args).openWriteErr = w.openWriteErr := by
  simp [World.println, World.print, World.storeContent, World.storeWrites, World.fileContent]

theorem printedErr_store (w : World) (e : GoError) :
    (w.printlnErr e).storeContent = w.storeContent
    ∧ (w.printlnErr e).storeWrites = w.storeWrites
    ∧ (w.printlnErr e).home = w.home ∧ (w.printlnErr e).homeErr = w.homeErr
    ∧ (w.printlnErr e).openWriteErr = w.openWriteErr := by
  simp [World.printlnErr, World.storeContent, World.storeWrites, World.fileContent]

theorem clientDo_store (w : World) (req : Request) :
    (w.clientDo req).2.storeContent = w.storeContent
    ∧ (w.clientDo req).2.storeWrites = w.storeWrites
    ∧ (w.clientDo req).2.home = w.home ∧ (w.clientDo req).2.homeErr = w.homeErr
    ∧ (w.clientDo req).2.openWriteErr = w.openWriteErr := by
  unfold World.clientDo
  split <;> simp [World.storeContent, World.storeWrites, World.fileContent]

/-- What the token exchange leaves as it is, the token store among it. -/
theorem sendTokenRequest_frame (isR : Bool) (code : String) (w : World) :
    (sendTokenRequest isR code w).world.home = w.home
    ∧ (sendTokenRequest isR code w).world.homeErr = w.homeErr
    ∧ (sendTokenRequest isR code w).world.openWriteErr = w.openWriteErr
    ∧ (sendTokenRequest isR code w).world.storeContent = w.storeContent
    ∧ (sendTokenRequest isR code w).world.storeWrites = w.storeWrites := by
  obtain ⟨a1, a2, a3, a4, a5, a6, a7, a8, a9, a10, a11, a12⟩ := getConfig_frame w
  obtain ⟨s1, s2⟩ := store_kept_of_config_write a1 a12
  unfold sendTokenRequest
  rcases h : getConfig w with ⟨⟨config, err⟩, w1⟩
  rw [h] at a1 a2 a4 s1 s2
  simp only [] at a1 a2 a4 s1 s2
  cases err with
  | some e =>
    simp only [Res.world]
    obtain ⟨p1, p2, p3, p4, p5⟩ := printed_store w1 ["Error loading config."]
    obtain ⟨q1, q2, q3, q4, q5⟩ := printedErr_store (w1.println ["Error loading config."]) e
    simp [*]
  | none =>
    simp only []
    obtain ⟨c1, c2, c3, c4, c5⟩ := clientDo_store w1
      (tokenRequest config (tokenRequestData isR code (redirectURIOf config.RedirectPort)))
    rcases hd : w1.clientDo
      (tokenRequest config (tokenRequestData isR code (redirectURIOf config.RedirectPort)))
      with ⟨nr, w2⟩
    rw [hd] at c1 c2 c3 c4 c5
    simp only [] at c1 c2 c3 c4 c5
    cases nr with
    | failure e =>
      simp only [Res.world]
      obtain ⟨p1, p2, p3, p4, p5⟩ := printed_store w2 ["Error on spotify access token request."]
      obtain ⟨q1, q2, q3, q4, q5⟩ :=
        printedErr_store (w2.println ["Error on spotify access token request."]) e
      simp [*]
    | response r => simp [Res.world, *]

theorem Res.bind_world_of {α β : Type} (P : World → Prop) (r : Res α)
    (f : α → World → Res β) (hr : P r.world) (hf : ∀ a w, P w → P (f a w).world) :
    P (r.bind f).world := by
  cases r with
  | ret a w => exact hf a w hr
  | panic m w => exact hr
  | hang w => exact hr

/-- The first part of `getAPIToken` leaves the token store as it is. -/
theorem getAPITokenRequest_frame (w : World) :
    (getAPITokenRequest w).world.home = w.home
    ∧ (getAPITokenRequest w).world.homeErr = w.homeErr
    ∧ (getAPITokenRequest w).world.openWriteErr = w.openWriteErr
    ∧ (getAPITokenRequest w).world.storeContent = w.storeContent
    ∧ (getAPITokenRequest w).world.storeWrites = w.storeWrites := by
  unfold getAPITokenRequest
  simp only []
  cases hh : w.homeErr with
  | some e =>
    simp only [Res.world]
    obtain ⟨p1, p2, p3, p4, p5⟩ := printed_store w ["Error getting user home directory."]
    obtain ⟨q1, q2, q3, q4, q5⟩ :=
      printedErr_store (w.println ["Error getting user home directory."]) e
    simp [*]
  | none =>
    simp only []
    cases ho : List.lookup (storageFilePath w.home) w.openReadErr with
    | some e =>
      simp only [Res.world]
      obtain ⟨p1, p2, p3, p4, p5⟩ := printed_store w ["Error opening spotify term storage file."]
      obtain ⟨q1, q2, q3, q4, q5⟩ :=
        printedErr_store (w.println ["Error opening spotify term storage file."]) e
      simp [*]
    | none =>
      simp only []
      obtain ⟨a1, a2, a3, a4, a5, a6, a7, a8⟩ :=
        chooseGrant_frame (peek 1000 (w.fileContent (storageFilePath w.home))) w
      refine Res.bind_world_of
        (fun w' => w'.home = w.home ∧ w'.homeErr = none ∧ w'.openWriteErr = w.openWriteErr
          ∧ w'.storeContent = w.storeContent ∧ w'.storeWrites = w.storeWrites) _ _
        ⟨a1, by rw [a2, hh], a4, a7, a8⟩ ?_
      intro c w1 ⟨b1, b2, b3, b4, b5⟩
      cases c with
      | error e => exact ⟨b1, b2, b3, b4, b5⟩
      | ok x =>
        obtain ⟨isR, code⟩ := x
        obtain ⟨d1, d2, d3, d4, d5⟩ := sendTokenRequest_frame isR code w1
        simp only []
        exact ⟨d1.trans b1, d2.trans b2, d3.trans b3, d4.trans b4, d5.trans b5⟩

theorem writeFile_store (w : World) (c : String) :
    (w.writeFile (storageFilePath w.home) c).storeWrites
      = w.storeWrites ++ [(storageFilePath w.home, c)]
    ∧ (w.writeFile (storageFilePath w.home) c).storeContent = c := by
  simp [World.writeFile, World.storeWrites, World.storeContent, World.fileContent,
    List.filter_append, lookup_setFile_self]

/-- The last part of `getAPIToken`, case by case. -/
theorem getAPITokenStore_cases (x : Exchange) (w : World) :
    (mergedResponse x = none ∧ (getAPITokenStore x w).value = none
        ∧ (getAPITokenStore x w).world = w)
    ∨ ∃ m, mergedResponse x = some m
        ∧ (getAPITokenStore x w).value = some (m.AccessToken, none)
        ∧ (getAPITokenStore x w).world
          = if m.RefreshToken ≠ "" ∧ m.AccessToken ≠ ""
              ∧ w.openWriteErr.lookup (storageFilePath w.home) = none
            then w.writeFile (storageFilePath w.home) m.marshal else w := by
  unfold getAPITokenStore
  cases hm : mergedResponse x with
  | none => exact Or.inl ⟨rfl, rfl, rfl⟩
  | some m =>
    refine Or.inr ⟨m, rfl, rfl, ?_⟩
    simp only [Res.world]
    by_cases h1 : m.RefreshToken ≠ "" ∧ m.AccessToken ≠ ""
    · cases h2 : List.lookup (storageFilePath w.home) w.openWriteErr with
      | none => simp [h1]
      | some e => simp [h1]
    · have h3 : ¬ (m.RefreshToken ≠ "" ∧ m.AccessToken ≠ ""
          ∧ List.lookup (storageFilePath w.home) w.openWriteErr = none) :=
        fun h => h1 ⟨h.1, h.2.1⟩
      rw [if_neg h1, if_neg h3]

/-- C4. `getAPIToken` writes the token store exactly when the merged response
record has a refresh token and an access token: it then writes that record
(provided the store can be opened for writing); in every other case the
writes to the store and its content are as before. Hence every record it
writes has a refresh token. -/
theorem getAPIToken_writes_store_iff (w : World) :
    (∀ x m, (getAPITokenRequest w).value = some (Except.ok x) → mergedResponse x = some m →
      m.RefreshToken ≠ "" → m.AccessToken ≠ "" →
      w.openWriteErr.lookup (storageFilePath w.home) = none →
      (getAPIToken w).world.storeWrites = w.storeWrites ++ [(storageFilePath w.home, m.marshal)]
        ∧ (getAPIToken w).world.storeContent = m.marshal)
    ∧ ((∀ x m, (getAPITokenRequest w).value = some (Except.ok x) → mergedResponse x = some m →
        m.RefreshToken = "" ∨ m.AccessToken = ""
          ∨ w.openWriteErr.lookup (storageFilePath w.home) ≠ none) →
      (getAPIToken w).world.storeWrites = w.storeWrites
        ∧ (getAPIToken w).world.storeContent = w.storeContent)
    ∧ (∀ e ∈ (getAPIToken w).world.storeWrites, e ∈ w.storeWrites
        ∨ ∃ m : GetAPITokenResponse, e = (storageFilePath w.home, m.marshal)
            ∧ m.RefreshToken ≠ "" ∧ m.AccessToken ≠ "") := by
  obtain ⟨f1, f2, f3, f4, f5⟩ := getAPITokenRequest_frame w
  unfold getAPIToken
  rcases hreq : getAPITokenRequest w with ⟨(e | x), w1⟩ | ⟨msg, w1⟩ | w1
  · rw [hreq] at f1 f2 f3 f4 f5
    simp only [Res.world] at f1 f2 f3 f4 f5
    simp only [Res.bind, Res.world, Res.value]
    rw [f4, f5]
    refine ⟨fun x m h => ?_, fun _ => ⟨rfl, rfl⟩, fun e he => Or.inl he⟩
    simp at h
  · rw [hreq] at f1 f2 f3 f4 f5
    simp only [Res.world] at f1 f2 f3 f4 f5
    simp only [Res.bind, Res.value]
    rcases getAPITokenStore_cases x w1 with ⟨hm, _, hw⟩ | ⟨m, hm, _, hw⟩
    · rw [hw, f4, f5]
      refine ⟨fun x' m' hx hm' => ?_, fun _ => ⟨rfl, rfl⟩, fun e he => Or.inl he⟩
      simp only [Option.some.injEq, Except.ok.injEq] at hx
      subst hx
      rw [hm] at hm'
      simp at hm'
    · rw [hw, f1, f3]
      obtain ⟨s1, s2⟩ := writeFile_store w1 m.marshal
      rw [f1, f5] at s1
      rw [f1] at s2
      refine ⟨fun x' m' hx hm' hR hA hO => ?_, fun hno => ?_, fun e he => ?_⟩
      · simp only [Option.some.injEq, Except.ok.injEq] at hx
        subst hx
        rw [hm] at hm'
        simp only [Option.some.injEq] at hm'
        subst hm'
        rw [if_pos ⟨hR, hA, hO⟩]
        exact ⟨s1, s2⟩
      · have hor := hno x m rfl hm
        have hneg : ¬ (m.RefreshToken ≠ "" ∧ m.AccessToken ≠ ""
            ∧ List.lookup (storageFilePath w.home) w.openWriteErr = none) := by
          intro h
          rcases hor with h1 | h1 | h1
          · exact h.1 h1
          · exact h.2.1 h1
          · exact h1 h.2.2
        rw [if_neg hneg]
        exact ⟨f5, f4⟩
      · by_cases hc : m.RefreshToken ≠ "" ∧ m.AccessToken ≠ ""
            ∧ List.lookup (storageFilePath w.home) w.openWriteErr = none
        · rw [if_pos hc, s1] at he
          rcases List.mem_append.mp he with h1 | h1
          · exact Or.inl h1
          · refine Or.inr ⟨m, ?_, hc.1, hc.2.1⟩
            simpa using h1
        · rw [if_neg hc, f5] at he
          exact Or.inl he
  · rw [hreq] at f1 f2 f3 f4 f5
    simp only [Res.world] at f1 f2 f3 f4 f5
    simp only [Res.bind, Res.world, Res.value]
    rw [f4, f5]
    refine ⟨fun x m h => ?_, fun _ => ⟨rfl, rfl⟩, fun e he => Or.inl he⟩
    simp at h
  · rw [hreq] at f1 f2 f3 f4 f5
    simp only [Res.world] at f1 f2 f3 f4 f5
    simp only [Res.bind, Res.world, Res.value]
    rw [f4, f5]
    refine ⟨fun x m h => ?_, fun _ => ⟨rfl, rfl⟩, fun e he => Or.inl he⟩
    simp at h

/-- Text that is empty is not JSON. -/
theorem unmarshalPtr_empty {α : Type} (setField : α → List Char → Json → α × Bool) (zero : α)
    (p : Option α) : unmarshalPtr setField zero "" p = (p, some GoError.jsonSyntax) := rfl

/-- With a token store that decodes to a record, the first part of
`getAPIToken` is the refresh exchange with the stored refresh token. -/
theorem getAPITokenRequest_refresh (w : World) (st : GetAPITokenResponse)
    (hhome : w.homeErr = none)
    (hopen : w.openReadErr.lookup (storageFilePath w.home) = none)
    (hstore : unmarshalPtr GetAPITokenResponse.setField {} (peek 1000 w.storeContent) (some {})
      = (some st, none)) :
    getAPITokenRequest w = sendTokenRequest true st.RefreshToken w := by
  have hne : peek 1000 w.storeContent ≠ "" := by
    intro h
    rw [h, unmarshalPtr_empty] at hstore
    simp at hstore
  unfold World.storeContent at hne hstore
  unfold getAPITokenRequest
  simp only [hhome, hopen, chooseGrant, hne, if_false, hstore, Res.bind]

/-- With an empty token store, the first part of `getAPIToken` is the browser
flow followed by the authorization-code exchange with the code it returned. -/
theorem getAPITokenRequest_authorize (w w1 : World) (code : String)
    (hhome : w.homeErr = none)
    (hopen : w.openReadErr.lookup (storageFilePath w.home) = none)
    (hempty : w.storeContent = "")
    (hauth : getAuthorizationCode w = Res.ret (code, none) w1) :
    getAPITokenRequest w = sendTokenRequest false code w1 := by
  have hpeek : peek 1000 (w.fileContent (storageFilePath w.home)) = "" := by
    have h : w.fileContent (storageFilePath w.home) = "" := hempty
    rw [h]
    rfl
  unfold getAPITokenRequest
  simp only [hhome, hopen, chooseGrant, hpeek, if_true, hauth, Res.bind]

/-- The token exchange when the configuration loads and the endpoint answers. -/
theorem sendTokenRequest_response (isR : Bool) (code : String) (w : World)
    (config : SpotifyTermConfig) (r : Response) (rest : List NetResult)
    (hcfg : (getConfig w).1 = (config, none))
    (hnet : w.net = NetResult.response r :: rest) :
    sendTokenRequest isR code w
      = Res.ret (Except.ok { isRefreshRequest := isR, authorizationCode := code, body := r.body })
          { (getConfig w).2 with
            requests := w.requests ++ [tokenRequest config
              (tokenRequestData isR code (redirectURIOf config.RedirectPort))],
            net := rest } := by
  obtain ⟨a1, a2, a3, a4, a5, a6, a7, a8, a9, a10, a11, a12⟩ := getConfig_frame w
  unfold sendTokenRequest
  rcases h : getConfig w with ⟨⟨c, err⟩, w1⟩
  rw [h] at hcfg a6 a9
  simp only [Prod.mk.injEq] at hcfg
  obtain ⟨hc, he⟩ := hcfg
  subst hc he
  simp only [] at a6 a9
  simp only [World.clientDo, a6, hnet, a9]

/-- Sending a request leaves the token store as it is. -/
theorem store_kept_of_sent (w : World) (reqs : List Request) (net : List NetResult) :
    ({ w with requests := reqs, net := net } : World).storeWrites = w.storeWrites
    ∧ ({ w with requests := reqs, net := net } : World).storeContent = w.storeContent := by
  simp [World.storeWrites, World.storeContent, World.fileContent]

/-- C1. When the token store holds a record with a non-empty refresh token `R` and
the token server answers with a body that carries a non-empty access token
(whether or not it carries a refresh token), `getAPIToken` sends `R` in the
refresh request and writes one record to the store: the decoded response with
its refresh token set to `R`; its access token is the one of the response,
which is also the value returned. -/
theorem getAPIToken_refresh_keeps_refresh_token (w : World) (st resp : GetAPITokenResponse)
    (config : SpotifyTermConfig) (r : Response) (rest : List NetResult)
    (hhome : w.homeErr = none)
    (hopen : w.openReadErr.lookup (storageFilePath w.home) = none)
    (hstore : unmarshalPtr GetAPITokenResponse.setField {} (peek 1000 w.storeContent) (some {})
      = (some st, none))
    (hR : st.RefreshToken ≠ "")
    (hcfg : (getConfig w).1 = (config, none))
    (hnet : w.net = NetResult.response r :: rest)
    (hbody : (unmarshalPtr GetAPITokenResponse.setField {} r.body (some {})).1 = some resp)
    (hA : resp.AccessToken ≠ "")
    (hwr : w.openWriteErr.lookup (storageFilePath w.home) = none) :
    (getAPIToken w).world.requests
      = w.requests ++ [tokenRequest config
          (tokenRequestData true st.RefreshToken (redirectURIOf config.RedirectPort))]
    ∧ (getAPIToken w).world.storeWrites
      = w.storeWrites
        ++ [(storageFilePath w.home, ({ resp with RefreshToken := st.RefreshToken }).marshal)]
    ∧ (getAPIToken w).world.storeContent = ({ resp with RefreshToken := st.RefreshToken }).marshal
    ∧ (getAPIToken w).value = some (resp.AccessToken, none) := by
  obtain ⟨a1, a2, a3, a4, a5, a6, a7, a8, a9, a10, a11, a12⟩ := getConfig_frame w
  obtain ⟨s1, s2⟩ := store_kept_of_config_write a1 a12
  have hm : mergedResponse (Exchange.mk true st.RefreshToken r.body)
      = some { resp with RefreshToken := st.RefreshToken } := by
    simp [mergedResponse, hbody]
  have key : ∀ w2 : World, w2.home = w.home → w2.openWriteErr = w.openWriteErr →
      w2.storeWrites = w.storeWrites →
      (getAPITokenStore (Exchange.mk true st.RefreshToken r.body) w2).world.requests = w2.requests
      ∧ (getAPITokenStore (Exchange.mk true st.RefreshToken r.body) w2).world.storeWrites
        = w.storeWrites
          ++ [(storageFilePath w.home, ({ resp with RefreshToken := st.RefreshToken }).marshal)]
      ∧ (getAPITokenStore (Exchange.mk true st.RefreshToken r.body) w2).world.storeContent
        = ({ resp with RefreshToken := st.RefreshToken }).marshal
      ∧ (getAPITokenStore (Exchange.mk true st.RefreshToken r.body) w2).value
        = some (resp.AccessToken, none) := by
    intro w2 h1 h2 h3
    rcases getAPITokenStore_cases (Exchange.mk true st.RefreshToken r.body) w2
      with ⟨hm', _, _⟩ | ⟨m, hm', hv, hw⟩
    · rw [hm] at hm'
      simp at hm'
    · rw [hm] at hm'
      simp only [Option.some.injEq] at hm'
      subst hm'
      rw [h1, h2, if_pos ⟨hR, hA, hwr⟩] at hw
      obtain ⟨t1, t2⟩ := writeFile_store w2
        ({ resp with RefreshToken := st.RefreshToken } : GetAPITokenResponse).marshal
      rw [h1, h3] at t1
      rw [h1] at t2
      rw [hw, hv]
      exact ⟨by simp [World.writeFile], t1, t2, rfl⟩
  unfold getAPIToken
  rw [getAPITokenRequest_refresh w st hhome hopen hstore,
    sendTokenRequest_response true st.RefreshToken w config r rest hcfg hnet]
  simp only [Res.bind]
  obtain ⟨t1, t2⟩ := store_kept_of_sent (getConfig w).2
    (w.requests ++ [tokenRequest config
      (tokenRequestData true st.RefreshToken (redirectURIOf config.RedirectPort))]) rest
  obtain ⟨k1, k2, k3, k4⟩ := key
    { (getConfig w).2 with
      requests := w.requests ++ [tokenRequest config
        (tokenRequestData true st.RefreshToken (redirectURIOf config.RedirectPort))]
      net := rest } a1 a4 (t1.trans s2)
  exact ⟨k1, k2, k3, k4⟩

/-- The last part of `getAPIToken` sends nothing and starts no browser flow. -/
theorem getAPITokenStore_requests (x : Exchange) (w : World) :
    (getAPITokenStore x w).world.requests = w.requests
    ∧ (getAPITokenStore x w).world.authRuns = w.authRuns
    ∧ (getAPITokenStore x w).world.handlerRegistered = w.handlerRegistered
    ∧ (getAPITokenStore x w).world.callbacks = w.callbacks
    ∧ (getAPITokenStore x w).world.replies = w.replies := by
  rcases getAPITokenStore_cases x w with ⟨_, _, hw⟩ | ⟨m, _, _, hw⟩
  · rw [hw]
    exact ⟨rfl, rfl, rfl, rfl, rfl⟩
  · rw [hw]
    split <;> simp [World.writeFile]

/-- The token exchange sends exactly one request once the configuration is
loaded, whatever the network answers. -/
theorem sendTokenRequest_requests (isR : Bool) (code : String) (w : World)
    (config : SpotifyTermConfig) (hcfg : (getConfig w).1 = (config, none)) :
    (sendTokenRequest isR code w).world.requests
      = w.requests ++ [tokenRequest config
          (tokenRequestData isR code (redirectURIOf config.RedirectPort))]
    ∧ (sendTokenRequest isR code w).world.authRuns = w.authRuns
    ∧ (sendTokenRequest isR code w).world.handlerRegistered = w.handlerRegistered
    ∧ (sendTokenRequest isR code w).world.callbacks = w.callbacks
    ∧ (sendTokenRequest isR code w).world.replies = w.replies := by
  obtain ⟨a1, a2, a3, a4, a5, a6, a7, a8, a9, a10, a11, a12⟩ := getConfig_frame w
  unfold sendTokenRequest
  rcases h : getConfig w with ⟨⟨c, err⟩, w1⟩
  rw [h] at hcfg a5 a8 a9 a10 a11
  simp only [Prod.mk.injEq] at hcfg
  obtain ⟨hc, he⟩ := hcfg
  subst hc he
  simp only [] at a5 a8 a9 a10 a11
  simp only [World.clientDo]
  cases hn : w1.net with
  | nil => simp [Res.world, World.println, World.print, World.printlnErr, a5, a8, a9, a10, a11]
  | cons nr rest =>
    cases nr with
    | response r => simp [Res.world, a5, a8, a9, a10, a11]
    | failure e =>
      simp [Res.world, World.println, World.print, World.printlnErr, a5, a8, a9, a10, a11]

theorem tokenRequestData_refresh (code uri : String) :
    tokenRequestData true code uri
      = [("grant_type", ["refresh_token"]), ("refresh_token", [code]), ("redirect_uri", [uri])] := by
  simp [tokenRequestData, Values.add]

theorem tokenRequestData_authorize (code uri : String) :
    tokenRequestData false code uri
      = [("grant_type", ["authorization_code"]), ("code", [code]), ("redirect_uri", [uri])] := by
  simp [tokenRequestData, Values.add]

/-- The form of the authorization-code grant as `Values.Encode` writes it: the keys
in increasing order. -/
theorem encode_authorize (code uri : String) :
    Values.encode [("grant_type", ["authorization_code"]), ("code", [code]), ("redirect_uri", [uri])]
      = "code=" ++ queryEscape code ++ "&grant_type=authorization_code&redirect_uri="
          ++ queryEscape uri := by
  have h1 : sortByKey
      [("grant_type", ["authorization_code"]), ("code", [code]), ("redirect_uri", [uri])]
      = [("code", [code]), ("grant_type", ["authorization_code"]), ("redirect_uri", [uri])] := by
    simp [sortByKey, insertByKey, strLt]
  have e1 : queryEscape "code" = "code" := by decide
  have e2 : queryEscape "grant_type" = "grant_type" := by decide
  have e3 : queryEscape "authorization_code" = "authorization_code" := by decide
  have e4 : queryEscape "redirect_uri" = "redirect_uri" := by decide
  unfold Values.encode
  rw [h1]
  simp only [List.flatMap_cons, List.flatMap_nil, List.map, List.append_nil, List.cons_append,
    List.nil_append, e1, e2, e3, e4]
  apply String.ext
  simp [String.intercalate, String.intercalate.go, String.data_append]

/-- The form of the refresh grant as `Values.Encode` writes it. -/
theorem encode_refresh (token uri : String) :
    Values.encode [("grant_type", ["refresh_token"]), ("refresh_token", [token]),
        ("redirect_uri", [uri])]
      = "grant_type=refresh_token&redirect_uri=" ++ queryEscape uri ++ "&refresh_token="
          ++ queryEscape token := by
  have h1 : sortByKey
      [("grant_type", ["refresh_token"]), ("refresh_token", [token]), ("redirect_uri", [uri])]
      = [("grant_type", ["refresh_token"]), ("redirect_uri", [uri]), ("refresh_token", [token])] := by
    simp [sortByKey, insertByKey, strLt]
  have e2 : queryEscape "grant_type" = "grant_type" := by decide
  have e3 : queryEscape "refresh_token" = "refresh_token" := by decide
  have e4 : queryEscape "redirect_uri" = "redirect_uri" := by decide
  unfold Values.encode
  rw [h1]
  simp only [List.flatMap_cons, List.flatMap_nil, List.map, List.append_nil, List.cons_append,
    List.nil_append, e2, e3, e4]
  apply String.ext
  simp [String.intercalate, String.intercalate.go, String.data_append]

/-- The token request in full, for a form whose encoded text is `body`. -/
theorem tokenRequest_eq (config : SpotifyTermConfig) (data : Values) (body : String)
    (h : Values.encode data = body) :
    tokenRequest config data
      = { method := "POST", url := "https://accounts.spotify.com/api/token",
          header := [("Content-Type", "application/x-www-form-urlencoded"),
            ("Content-Length", String.mk (itoa (byteLen body))),
            ("Authorization",
              "Basic " ++ base64Encode (config.ClientID ++ ":" ++ config.ClientSecret))],
          body := body } := by
  subst h
  simp [tokenRequest, Request.addHeader]

/-- C2. The grant of the token request is chosen by the content of the token store.
With an empty store, `getAPIToken` sends one request: a `POST` to
`https://accounts.spotify.com/api/token` whose form-encoded body is
`code=<code>&grant_type=authorization_code&redirect_uri=<uri>`, with the code
`getAuthorizationCode` returned. With a store that decodes to a record it
sends one request: a `POST` to the same address whose body is
`grant_type=refresh_token&redirect_uri=<uri>&refresh_token=<R>`, with the stored
refresh token `R`, and `getAuthorizationCode` is not entered (no handler is
registered, no callback request is consumed or answered). In both cases `<uri>`
is `http://localhost:<redirect_port>/callback`; the values are written with
`url.QueryEscape`; the headers are the content type of a form, the length of the
body, and the basic authorization of the client id and secret. -/
theorem getAPIToken_grant_by_store (w : World)
    (hhome : w.homeErr = none)
    (hopen : w.openReadErr.lookup (storageFilePath w.home) = none) :
    (w.storeContent = "" →
      ∀ code w1 config, getAuthorizationCode w = Res.ret (code, none) w1 →
        (getConfig w1).1 = (config, none) →
        (getAPIToken w).world.requests
          = w.requests ++
            [{ method := "POST", url := "https://accounts.spotify.com/api/token",
               header := [("Content-Type", "application/x-www-form-urlencoded"),
                 ("Content-Length", String.mk (itoa (byteLen
                   ("code=" ++ queryEscape code ++ "&grant_type=authorization_code&redirect_uri="
                     ++ queryEscape ("http://localhost:" ++ config.RedirectPort ++ "/callback"))))),
                 ("Authorization",
                   "Basic " ++ base64Encode (config.ClientID ++ ":" ++ config.ClientSecret))],
               body := "code=" ++ queryEscape code ++ "&grant_type=authorization_code&redirect_uri="
                 ++ queryEscape ("http://localhost:" ++ config.RedirectPort ++ "/callback") }]
        ∧ (getAPIToken w).world.authRuns = w.authRuns + 1)
    ∧ (∀ st config,
        unmarshalPtr GetAPITokenResponse.setField {} (peek 1000 w.storeContent) (some {})
          = (some st, none) →
        (getConfig w).1 = (config, none) →
        (getAPIToken w).world.requests
          = w.requests ++
            [{ method := "POST", url := "https://accounts.spotify.com/api/token",
               header := [("Content-Type", "application/x-www-form-urlencoded"),
                 ("Content-Length", String.mk (itoa (byteLen
                   ("grant_type=refresh_token&redirect_uri="
                     ++ queryEscape ("http://localhost:" ++ config.RedirectPort ++ "/callback")
                     ++ "&refresh_token=" ++ queryEscape st.RefreshToken)))),
                 ("Authorization",
                   "Basic " ++ base64Encode (config.ClientID ++ ":" ++ config.ClientSecret))],
               body := "grant_type=refresh_token&redirect_uri="
                 ++ queryEscape ("http://localhost:" ++ config.RedirectPort ++ "/callback")
                 ++ "&refresh_token=" ++ queryEscape st.RefreshToken }]
        ∧ (getAPIToken w).world.authRuns = w.authRuns
        ∧ (getAPIToken w).world.handlerRegistered = w.handlerRegistered
        ∧ (getAPIToken w).world.callbacks = w.callbacks
        ∧ (getAPIToken w).world.replies = w.replies) := by
  have hfin : ∀ r : Res (Except (String × GoError) Exchange),
      (r.bind (fun r w =>
        match r with
        | Except.error (accessToken, err) => Res.ret (accessToken, some err) w
        | Except.ok x => getAPITokenStore x w)).world.requests = r.world.requests
      ∧ (r.bind (fun r w =>
        match r with
        | Except.error (accessToken, err) => Res.ret (accessToken, some err) w
        | Except.ok x => getAPITokenStore x w)).world.authRuns = r.world.authRuns
      ∧ (r.bind (fun r w =>
        match r with
        | Except.error (accessToken, err) => Res.ret (accessToken, some err) w
        | Except.ok x => getAPITokenStore x w)).world.handlerRegistered
          = r.world.handlerRegistered
      ∧ (r.bind (fun r w =>
        match r with
        | Except.error (accessToken, err) => Res.ret (accessToken, some err) w
        | Except.ok x => getAPITokenStore x w)).world.callbacks = r.world.callbacks
      ∧ (r.bind (fun r w =>
        match r with
        | Except.error (accessToken, err) => Res.ret (accessToken, some err) w
        | Except.ok x => getAPITokenStore x w)).world.replies = r.world.replies := by
    intro r
    rcases r with ⟨(e | x), w1⟩ | ⟨msg, w1⟩ | w1
    · exact ⟨rfl, rfl, rfl, rfl, rfl⟩
    · exact getAPITokenStore_requests x w1
    · exact ⟨rfl, rfl, rfl, rfl, rfl⟩
    · exact ⟨rfl, rfl, rfl, rfl, rfl⟩
  constructor
  · intro hempty code w1 config hauth hcfg
    obtain ⟨a1, a2, a3, a4, a5, a6, a7, a8, a9⟩ := getAuthorizationCode_frame w
    rw [hauth] at a7 a8
    simp only [Res.world] at a7 a8
    obtain ⟨s1, s2, _⟩ := sendTokenRequest_requests false code w1 config hcfg
    unfold getAPIToken
    rw [(hfin _).1, (hfin _).2.1, getAPITokenRequest_authorize w w1 code hhome hopen hempty hauth,
      s1, s2, tokenRequestData_authorize, a7, a8,
      tokenRequest_eq config _ _ (encode_authorize code (redirectURIOf config.RedirectPort))]
    exact ⟨rfl, rfl⟩
  · intro st config hstore hcfg
    obtain ⟨s1, s2, s3, s4, s5⟩ := sendTokenRequest_requests true st.RefreshToken w config hcfg
    unfold getAPIToken
    rw [(hfin _).1, (hfin _).2.1, (hfin _).2.2.1, (hfin _).2.2.2.1, (hfin _).2.2.2.2,
      getAPITokenRequest_refresh w st hhome hopen hstore, s1, s2, s3, s4, s5,
      tokenRequestData_refresh,
      tokenRequest_eq config _ _ (encode_refresh st.RefreshToken (redirectURIOf config.RedirectPort))]
    exact ⟨rfl, rfl, rfl, rfl, rfl⟩
theorem deviceLine_eq (d : Device) :
    deviceLine d
      = d.Name ++ "   " ++ d.Type_ ++ "   " ++ String.mk (itoa d.VolumePercent) ++ "   " ++ d.ID
        ++ "\n" := by
  apply String.ext
  simp [deviceLine, sprintln, String.intercalate, String.intercalate.go, String.data_append]

theorem foldl_print_out (f : Device → String) (ds : List Device) (w : World) :
    (ds.foldl (fun w d => w.print (f d)) w).out = w.out ++ ds.map (fun d => Out.text (f d)) := by
  induction ds generalizing w with
  | nil => simp
  | cons d rest ih =>
    simp only [List.foldl, List.map]
    rw [ih]
    simp [World.print]

theorem foldl_print_frame (f : Device → String) (ds : List Device) (w : World) :
    (ds.foldl (fun w d => w.print (f d)) w).requests = w.requests := by
  induction ds generalizing w with
  | nil => simp
  | cons d rest ih =>
    simp only [List.foldl]
    rw [ih]
    simp [World.print]

theorem noDevices_not_deviceLine (a b c d : String) :
    a ++ "   " ++ b ++ "   " ++ c ++ "   " ++ d ++ "\n"
      ≠ "There are no available devices at the moment.\n" := by
  intro h
  have h1 : "   ".data <:+: (a ++ "   " ++ b ++ "   " ++ c ++ "   " ++ d ++ "\n").data := by
    simp only [String.data_append, List.append_assoc]
    exact ⟨a.data, _, (List.append_assoc _ _ _)⟩
  rw [h] at h1
  revert h1
  decide

/-- A text with three spaces in a row is not the message about no devices. -/
theorem noDevices_not_line (a b c d : String) :
    a ++ "   " ++ b ++ "   " ++ c ++ "   " ++ d
      ≠ "There are no available devices at the moment." := by
  intro h
  have h1 : "   ".data <:+: (a ++ "   " ++ b ++ "   " ++ c ++ "   " ++ d).data := by
    simp only [String.data_append, List.append_assoc]
    exact ⟨a.data, _, (List.append_assoc _ _ _)⟩
  rw [h] at h1
  revert h1
  decide

/-- What `getDevices` prints for a decoded response. -/
theorem printDevices_out (response : GetDevicesResponse) (w : World) :
    (printDevices response w).out
      = w.out ++
        (if response.Devices.elems.length = 0 then
          [Out.text "There are no available devices at the moment.\n"]
        else
          response.Devices.elems.map (fun d => Out.text
            (d.Name ++ "   " ++ d.Type_ ++ "   " ++ String.mk (itoa d.VolumePercent) ++ "   "
              ++ d.ID ++ "\n"))) := by
  unfold printDevices
  simp only [foldl_print_out]
  by_cases h : response.Devices.elems.length = 0
  · have hnil : response.Devices.elems = [] := List.length_eq_zero.mp h
    simp [hnil, World.println, World.print, sprintln, String.intercalate, String.intercalate.go]
  · simp only [h, if_false, List.append_cancel_left_eq]
    apply List.map_congr_left
    intro d _
    rw [deviceLine_eq]

/-- A piece without a line feed, followed by a line feed, is the first line. -/
theorem splitLines_line (l rest : List Char) (h : '\n' ∉ l) :
    splitLines (l ++ '\n' :: rest) = l :: splitLines rest := by
  induction l with
  | nil => simp [splitLines]
  | cons c cs ih =>
    have hc : c ≠ '\n' := fun e => h (by simp [e])
    have hcs : '\n' ∉ cs := fun e => h (List.mem_cons_of_mem _ e)
    have e : c :: cs ++ '\n' :: rest = c :: (cs ++ '\n' :: rest) := rfl
    rw [e, splitLines, if_neg hc, ih hcs]

/-- Lines printed one by one are the lines of the output. -/
theorem outText_lines (ls : List String) (h : ∀ l ∈ ls, '\n' ∉ l.data) :
    (outText (ls.map (fun l => Out.text (l ++ "\n")))).map linesOf = some ls := by
  induction ls with
  | nil => rfl
  | cons l rest ih =>
    have hl : '\n' ∉ l.data := h l (List.mem_cons_self _ _)
    have hrest := ih (fun x hx => h x (List.mem_cons_of_mem _ hx))
    simp only [List.map, outText]
    cases ht : outText (rest.map (fun l => Out.text (l ++ "\n"))) with
    | none => rw [ht] at hrest; simp at hrest
    | some t =>
      rw [ht] at hrest
      simp only [Option.map_some', Option.some.injEq] at hrest ⊢
      have e : (l ++ "\n" ++ t).data = l.data ++ '\n' :: t.data := by
        simp [String.data_append]
      unfold linesOf at hrest ⊢
      rw [e, splitLines_line _ _ hl, List.map_cons, hrest]

/-- The decimal digits of a number hold no line feed. -/
theorem decimal_no_lineFeed : ∀ fuel n, '\n' ∉ decimal fuel n := by
  intro fuel
  induction fuel with
  | zero => intro n; simp [decimal]
  | succ f ih =>
    intro n
    unfold decimal
    have hd : ∀ k, k < 10 → Nat.digitChar k ≠ '\n' := by decide
    split
    · rename_i h
      simp only [List.mem_singleton]
      exact fun e => hd n h e.symm
    · simp only [List.mem_append, List.mem_singleton, not_or]
      exact ⟨ih _, fun e => hd (n % 10) (Nat.mod_lt _ (by decide)) e.symm⟩

/-- The text of an integer holds no line feed. -/
theorem itoa_no_lineFeed (n : Int) : '\n' ∉ itoa n := by
  cases n with
  | ofNat m => exact decimal_no_lineFeed _ _
  | negSucc m =>
    simp only [itoa, List.mem_cons, not_or]
    exact ⟨by decide, decimal_no_lineFeed _ _⟩

/-- C8 (amended). For a devices response that decodes to a list of `n` devices,
what `getDevices` prints after the token was obtained is: for `n = 0`, the
message that there are no devices and nothing else; for `n > 0`, one `Println`
for each device, with the name, the type, the volume percent and the id of the
device, in that order. When no name, type or id holds a line feed, the text on
standard output is, for `n = 0`, the one line of the message, and for `n > 0`
exactly `n` lines, the `i`-th being the line of the `i`-th device, none of
which is the message. -/
theorem getDevices_output (w w1 : World) (accessToken : String) (r : Response)
    (rest : List NetResult) (response : GetDevicesResponse)
    (htok : getAPIToken w = Res.ret (accessToken, none) w1)
    (hnet : w1.net = NetResult.response r :: rest)
    (hparse : unmarshalPtr GetDevicesResponse.setField {} r.body (some {})
      = (some response, none)) :
    (getDevices w).value = some ()
    ∧ (getDevices w).world.out
      = w1.out ++
        (if response.Devices.elems.length = 0 then
          [Out.text "There are no available devices at the moment.\n"]
        else
          response.Devices.elems.map (fun d => Out.text
            (d.Name ++ "   " ++ d.Type_ ++ "   " ++ String.mk (itoa d.VolumePercent) ++ "   "
              ++ d.ID ++ "\n")))
    ∧ ((∀ d ∈ response.Devices.elems,
          '\n' ∉ d.Name.data ∧ '\n' ∉ d.Type_.data ∧ '\n' ∉ d.ID.data) →
        (outText ((getDevices w).world.out.drop w1.out.length)).map linesOf
          = some
            (if response.Devices.elems.length = 0 then
              ["There are no available devices at the moment."]
            else
              response.Devices.elems.map (fun d =>
                d.Name ++ "   " ++ d.Type_ ++ "   " ++ String.mk (itoa d.VolumePercent) ++ "   "
                  ++ d.ID))
        ∧ (response.Devices.elems.length ≠ 0 →
            (outText ((getDevices w).world.out.drop w1.out.length)).map
                (fun t => (linesOf t).length)
              = some response.Devices.elems.length
            ∧ (outText ((getDevices w).world.out.drop w1.out.length)).map
                (fun t => decide ("There are no available devices at the moment." ∈ linesOf t))
              = some false)) := by
  have hrun : getDevices w
      = Res.ret () (printDevices response
          { w1 with
            requests := w1.requests ++ [(apiRequest "GET"
              "https://api.spotify.com/v1/me/player/devices").addHeader "Authorization"
                ("Bearer " ++ accessToken)]
            net := rest }) := by
    unfold getDevices
    simp only [htok, Res.bind, World.clientDo, hnet, hparse]
  have hout := printDevices_out response
    { w1 with
      requests := w1.requests ++ [(apiRequest "GET"
        "https://api.spotify.com/v1/me/player/devices").addHeader "Authorization"
          ("Bearer " ++ accessToken)]
      net := rest }
  refine ⟨?_, ?_, fun hclean => ?_⟩
  · rw [hrun]
    rfl
  · rw [hrun]
    exact hout
  have hlines : (outText ((getDevices w).world.out.drop w1.out.length)).map linesOf
      = some
        (if response.Devices.elems.length = 0 then
          ["There are no available devices at the moment."]
        else
          response.Devices.elems.map (fun d =>
            d.Name ++ "   " ++ d.Type_ ++ "   " ++ String.mk (itoa d.VolumePercent) ++ "   "
              ++ d.ID)) := by
    rw [hrun]
    simp only [Res.world]
    rw [hout]
    simp only [List.drop_left]
    by_cases hn : response.Devices.elems.length = 0
    · simp only [hn, if_true]
      decide
    · simp only [hn, if_false]
      have h := outText_lines
        (response.Devices.elems.map (fun d =>
          d.Name ++ "   " ++ d.Type_ ++ "   " ++ String.mk (itoa d.VolumePercent) ++ "   "
            ++ d.ID)) (by
          intro l hl
          obtain ⟨d, hd, rfl⟩ := List.mem_map.mp hl
          obtain ⟨c1, c2, c3⟩ := hclean d hd
          have c4 := itoa_no_lineFeed d.VolumePercent
          simp only [String.data_append, List.mem_append, not_or]
          exact ⟨⟨⟨⟨⟨⟨c1, by decide⟩, c2⟩, by decide⟩, c4⟩, by decide⟩, c3⟩)
      rw [List.map_map] at h
      exact h
  refine ⟨hlines, fun hn => ?_⟩
  cases ht : outText ((getDevices w).world.out.drop w1.out.length) with
  | none => rw [ht] at hlines; simp at hlines
  | some t =>
    rw [ht] at hlines
    simp only [Option.map_some', Option.some.injEq, hn, if_false] at hlines
    simp only [Option.map_some', Option.some.injEq, hlines, List.length_map, true_and,
      decide_eq_false_iff_not]
    intro hmem
    obtain ⟨d, _, hd⟩ := List.mem_map.mp hmem
    exact noDevices_not_line _ _ _ _ hd

/-! ## The API commands -/

/-- C6 (amended). For every API command, when `client.Do` fails for the request to
its endpoint, the command prints its error line and the error and returns
without any other output. The status of a response is not looked at:
`pauseTrack` prints `Track paused.` for every response, whatever its status. -/
theorem command_aborts_on_transport_failure (c : Command) (w w1 : World) (accessToken : String)
    (rest : List NetResult)
    (htok : getAPIToken w = Res.ret (accessToken, none) w1) :
    (∀ e, w1.net = NetResult.failure e :: rest →
      c.run w = Res.ret ()
        ((World.println
          { w1 with
            requests := w1.requests
              ++ [c.request.addHeader "Authorization" ("Bearer " ++ accessToken)]
            net := rest } [c.failureText]).printlnErr e))
    ∧ (∀ r, w1.net = NetResult.response r :: rest →
      pauseTrack w = Res.ret ()
        (World.println
          { w1 with
            requests := w1.requests
              ++ [Command.pause.request.addHeader "Authorization" ("Bearer " ++ accessToken)]
            net := rest } ["Track paused."])) := by
  constructor
  · intro e hnet
    cases c <;>
      simp only [Command.run, Command.request, Command.failureText, resumeTrack, pauseTrack,
        skipToNextTrack, skipToPreviousTrack, displayCurrentPlayingTrack, getDevices, getMe,
        htok, Res.bind, World.clientDo, hnet]
  · intro r hnet
    simp only [Command.request, pauseTrack, htok, Res.bind, World.clientDo, hnet]

/-- When `getAPIToken` returns an error, every API command but `pauseTrack` prints
it and returns without sending a request; `pauseTrack` sends its request with
an empty bearer token. -/
theorem commands_on_token_error (w w1 : World) (accessToken : String) (err : GoError)
    (htok : getAPIToken w = Res.ret (accessToken, some err) w1) :
    (∀ c : Command, c ≠ Command.pause →
      c.run w = Res.ret () ((w1.println ["Error getting api access token."]).printlnErr err))
    ∧ (pauseTrack w).world.requests
      = w1.requests
        ++ [Command.pause.request.addHeader "Authorization" ("Bearer " ++ accessToken)] := by
  constructor
  · intro c hc
    cases c <;>
      first
      | exact absurd rfl hc
      | simp only [Command.run, resumeTrack, skipToNextTrack, skipToPreviousTrack,
          displayCurrentPlayingTrack, getDevices, getMe, htok, Res.bind]
  · simp only [Command.request, pauseTrack, htok, Res.bind, World.clientDo]
    cases hn : w1.net with
    | nil => simp [Res.world, World.println, World.print, World.printlnErr]
    | cons nr rest =>
      cases nr with
      | response r => simp [Res.world, World.println, World.print]
      | failure e => simp [Res.world, World.println, World.print, World.printlnErr]

/-- Once the token endpoint has answered, `getAPIToken` never returns an error:
whatever the response, the last part returns a nil error or panics. -/
theorem getAPITokenStore_error_nil (x : Exchange) (w : World) (accessToken : String)
    (err : Option GoError) (h : (getAPITokenStore x w).value = some (accessToken, err)) :
    err = none := by
  rcases getAPITokenStore_cases x w with ⟨_, hv, _⟩ | ⟨m, _, hv, _⟩
  · rw [hv] at h
    simp at h
  · rw [hv] at h
    simp only [Option.some.injEq, Prod.mk.injEq] at h
    exact h.2.symm

/-- One turn of the waiting loop on a callback request. -/
theorem callback_loop_step (query : Values) (rest : List Values) (replies : List String) :
    (∀ code more, Values.get query "code" = code :: more → code ≠ "" →
      awaitAuthorizationCode "" (query :: rest) replies
        = (some code, rest,
            replies ++ ["Sucesssfuly authorized, you can go back to your terminal now.\n"]))
    ∧ (Values.get query "code" = [] →
      awaitAuthorizationCode "" (query :: rest) replies
        = awaitAuthorizationCode "" rest (replies ++ ["Couldn't get code from request URI.\n"])) := by
  constructor
  · intro code more hq hne
    cases rest <;> simp [awaitAuthorizationCode, callbackHandler, hq, hne]
  · intro hq
    simp [awaitAuthorizationCode, callbackHandler, hq]

/-- C9 (amended). For every callback request whose query carries a `code` parameter
with a non-empty value, the handler sets the authorization code to that
value and answers with the success body, and the waiting loop ends returning
the value. For a callback request without a `code` parameter the handler
leaves the authorization code as it is and answers with the error body, and
the loop goes on waiting. -/
theorem callback_with_code_completes_flow (query : Values) (rest : List Values)
    (replies : List String) :
    (∀ code more, Values.get query "code" = code :: more → code ≠ "" →
      callbackHandler query ""
        = (code, "Sucesssfuly authorized, you can go back to your terminal now.\n")
      ∧ awaitAuthorizationCode "" (query :: rest) replies
        = (some code, rest,
            replies ++ ["Sucesssfuly authorized, you can go back to your terminal now.\n"]))
    ∧ (Values.get query "code" = [] →
      (∀ authorizationCode, callbackHandler query authorizationCode
        = (authorizationCode, "Couldn't get code from request URI.\n"))
      ∧ awaitAuthorizationCode "" (query :: rest) replies
        = awaitAuthorizationCode "" rest (replies ++ ["Couldn't get code from request URI.\n"])) := by
  constructor
  · intro code more hq hne
    cases rest <;> simp [awaitAuthorizationCode, callbackHandler, hq, hne]
  · intro hq
    simp [awaitAuthorizationCode, callbackHandler, hq]

/-- The browser flow as a whole: with a configuration that loads, no handler
registered yet and an address that parses, a first callback request with a
non-empty `code` makes `getAuthorizationCode` return that code. -/
theorem getAuthorizationCode_returns_code (w : World) (config : SpotifyTermConfig)
    (query : Values) (rest : List Values) (code : String) (more : List String)
    (hcfg : (getConfig { w with authRuns := w.authRuns + 1 }).1 = (config, none))
    (hreg : w.handlerRegistered = false)
    (hurl : w.urlStrings = [])
    (hcb : w.callbacks = query :: rest)
    (hq : Values.get query "code" = code :: more) (hne : code ≠ "") :
    (getAuthorizationCode w).value = some (code, none)
    ∧ (getAuthorizationCode w).world.replies
      = w.replies ++ ["Sucesssfuly authorized, you can go back to your terminal now.\n"]
    ∧ (getAuthorizationCode w).world.callbacks = rest := by
  obtain ⟨a1, a2, a3, a4, a5, a6, a7, a8, a9, a10, a11, a12⟩ :=
    getConfig_frame { w with authRuns := w.authRuns + 1 }
  simp only [] at a5 a7 a8 a10
  unfold getAuthorizationCode
  simp only []
  rcases h : getConfig { w with authRuns := w.authRuns + 1 } with ⟨⟨c, err⟩, w1⟩
  rw [h] at hcfg a5 a7 a8 a10
  simp only [Prod.mk.injEq] at hcfg
  obtain ⟨hc, he⟩ := hcfg
  subst hc he
  simp only [] at a5 a7 a8 a10
  have hloop := (callback_loop_step query rest w.replies).1 code more hq hne
  simp only [a8, hreg, Bool.false_eq_true, if_false, World.urlString, a7, hurl, List.lookup,
    Option.getD, World.println, World.print, a5, hcb, hloop, Res.value, Res.world, a10,
    and_self]

/-- A currently-playing response that deserializes without error to a track
without artists makes `displayCurrentPlayingTrack` panic; with a first artist it
prints the line. -/
theorem displayCurrentPlayingTrack_after_response (w w1 : World) (accessToken : String)
    (r : Response) (rest : List NetResult) (response : CurrentlyPlayingResponse)
    (htok : getAPIToken w = Res.ret (accessToken, none) w1)
    (hnet : w1.net = NetResult.response r :: rest)
    (hparse : unmarshalPtr CurrentlyPlayingResponse.setField {} r.body (some {})
      = (some response, none)) :
    (response.Item.Artists.elems = [] →
      (displayCurrentPlayingTrack w).value = none
      ∧ (displayCurrentPlayingTrack w).world.out = w1.out)
    ∧ (∀ artist more, response.Item.Artists.elems = artist :: more →
      (displayCurrentPlayingTrack w).value = some ()
      ∧ (displayCurrentPlayingTrack w).world.out
        = w1.out ++ [Out.text (sprintln ["Now playing: ", response.Item.Name, " by ", artist.Name])]) := by
  constructor
  · intro hnil
    simp only [displayCurrentPlayingTrack, htok, Res.bind, World.clientDo, hnet, hparse, hnil,
      Res.value, Res.world, and_self]
  · intro artist more hcons
    simp only [displayCurrentPlayingTrack, htok, Res.bind, World.clientDo, hnet, hparse, hcons,
      Res.value, Res.world, World.println, World.print, and_self]

/-! ## The bounds on the number of steps of the JSON reader are never reached -/

/-- One more step allowed changes nothing once the bound exceeds the length of
the input: every step of the string reader consumes a character. -/
theorem parseStringBody_fuel (f : Nat) :
    ∀ cs : List Char, cs.length < f → parseStringBody (f + 1) cs = parseStringBody f cs := by
  induction f with
  | zero => intro cs h; omega
  | succ g ih =>
    intro cs hlen
    cases cs with
    | nil => simp [parseStringBody]
    | cons c rest =>
      simp only [List.length_cons] at hlen
      conv_lhs => unfold parseStringBody
      conv_rhs => unfold parseStringBody
      by_cases h1 : c = '"'
      · simp [h1]
      · by_cases h2 : c = '\\'
        · simp only [h1, h2, if_false, if_true]
          cases rest with
          | nil => rfl
          | cons e rest1 =>
            simp only [List.length_cons] at hlen
            by_cases h3 : e = 'u'
            · simp only [h3, if_true]
              rcases rest1 with _ | ⟨a, _ | ⟨b, _ | ⟨c2, _ | ⟨d, rest2⟩⟩⟩⟩
              · rfl
              · rfl
              · rfl
              · rfl
              · simp only [List.length_cons] at hlen
                have e1 := ih rest2 (by omega)
                have e2 := ih (rest2.drop 6) (by simp only [List.length_drop]; omega)
                simp only [e1, e2]
            · simp only [h3, if_false]
              rw [ih rest1 (by omega)]
        · simp only [h1, h2, if_false]
          rw [ih rest (by omega)]

/-- Any bound above the length of the input gives the result of the bound that
`parseString` uses. -/
theorem parseStringBody_fuel_le (cs : List Char) (f : Nat) (h : cs.length < f) :
    parseStringBody f cs = parseStringBody (cs.length + 1) cs := by
  obtain ⟨d, hd⟩ : ∃ d, f = cs.length + 1 + d := ⟨f - (cs.length + 1), by omega⟩
  subst hd
  induction d with
  | zero => rfl
  | succ d ih =>
    rw [← ih (by omega)]
    exact parseStringBody_fuel (cs.length + 1 + d) cs (by omega)

/-- The string reader consumes input: what is left is shorter. -/
theorem parseStringBody_rest (f : Nat) :
    ∀ (cs s r : List Char), parseStringBody f cs = some (s, r) → r.length < cs.length := by
  induction f with
  | zero => intro cs s r h; simp [parseStringBody] at h
  | succ g ih =>
    intro cs s r h
    have step : ∀ (X : List Char) (x : Char),
        Option.map (fun p => (x :: p.1, p.2)) (parseStringBody g X) = some (s, r) →
        r.length < X.length := by
      intro X x hx
      obtain ⟨p, hp, hpe⟩ := Option.map_eq_some'.mp hx
      simp only [Prod.mk.injEq] at hpe
      have := ih X p.1 p.2 hp
      rw [hpe.2] at this
      exact this
    cases cs with
    | nil => simp [parseStringBody] at h
    | cons c rest =>
      unfold parseStringBody at h
      by_cases h1 : c = '"'
      · simp only [h1, if_true, Option.some.injEq, Prod.mk.injEq] at h
        rw [← h.2]
        simp
      · rw [if_neg h1] at h
        by_cases h2 : c = '\\'
        · rw [if_pos h2] at h
          cases rest with
          | nil => simp at h
          | cons e rest1 =>
            simp only [] at h
            by_cases h3 : e = 'u'
            · rw [if_pos h3] at h
              rcases rest1 with _ | ⟨a, _ | ⟨b, _ | ⟨c2, _ | ⟨d, rest2⟩⟩⟩⟩
              · simp at h
              · simp at h
              · simp at h
              · simp at h
              · simp only [List.length_cons]
                simp only [] at h
                cases hh : hex4 a b c2 d with
                | none => simp [hh] at h
                | some rr =>
                  simp only [hh] at h
                  by_cases hs : isSurrogate rr = true
                  · rw [if_pos hs] at h
                    cases hg : getu4 rest2 with
                    | none =>
                      simp only [hg] at h
                      have := step rest2 _ h
                      omega
                    | some rr1 =>
                      simp only [hg] at h
                      by_cases hd : decodeSurrogates rr rr1 = replacementChar
                      · rw [if_pos hd] at h
                        have := step rest2 _ h
                        omega
                      · rw [if_neg hd] at h
                        have := step (rest2.drop 6) _ h
                        simp only [List.length_drop] at this
                        omega
                  · rw [if_neg hs] at h
                    have := step rest2 _ h
                    omega
            · rw [if_neg h3] at h
              cases hse : simpleEscape e with
              | none => simp [hse] at h
              | some x =>
                simp only [hse] at h
                have := step rest1 _ h
                simp only [List.length_cons]
                omega
        · rw [if_neg h2] at h
          by_cases h4 : c.toNat < 0x20
          · rw [if_pos h4] at h
            simp at h
          · rw [if_neg h4] at h
            have := step rest _ h
            simp only [List.length_cons]
            omega

theorem parseString_rest (cs s r : List Char) (h : parseString cs = some (s, r)) :
    r.length + 1 < cs.length := by
  cases cs with
  | nil => simp [parseString] at h
  | cons c rest =>
    simp only [parseString] at h
    by_cases h1 : c = '"'
    · rw [if_pos h1] at h
      have := parseStringBody_rest _ _ _ _ h
      simp only [List.length_cons]
      omega
    · rw [if_neg h1] at h
      simp at h

theorem spanDigits_length (cs : List Char) :
    (spanDigits cs).1.length + (spanDigits cs).2.length = cs.length := by
  induction cs with
  | nil => rfl
  | cons c cs ih =>
    unfold spanDigits
    split_ifs
    · simp only [List.length_cons]
      omega
    · simp

theorem skipWs_length (cs : List Char) : (skipWs cs).length ≤ cs.length := by
  induction cs with
  | nil => simp [skipWs]
  | cons c cs ih =>
    unfold skipWs
    split_ifs
    · simp only [List.length_cons]
      omega
    · simp

theorem parseIntPart_rest (cs ip r : List Char) (h : parseIntPart cs = some (ip, r)) :
    r.length < cs.length := by
  have hl := spanDigits_length cs
  unfold parseIntPart at h
  rcases hsp : spanDigits cs with ⟨ds, rest⟩
  rw [hsp] at h hl
  simp only [] at hl
  cases ds with
  | nil => simp at h
  | cons d ds =>
    simp only [List.length_cons] at hl
    simp only [] at h
    split_ifs at h with h0
    · simp only [Option.some.injEq, Prod.mk.injEq] at h
      rw [← h.2]
      simp only [List.length_append]
      omega
    · simp only [Option.some.injEq, Prod.mk.injEq] at h
      rw [← h.2]
      omega

theorem parseFrac_rest (cs fp r : List Char) (h : parseFrac cs = some (fp, r)) :
    r.length ≤ cs.length := by
  unfold parseFrac at h
  cases cs with
  | nil =>
    simp only [Option.some.injEq, Prod.mk.injEq] at h
    rw [← h.2]
  | cons c rest =>
    simp only [] at h
    split_ifs at h with h1
    · have hl := spanDigits_length rest
      rcases hsp : spanDigits rest with ⟨ds, rest1⟩
      rw [hsp] at h hl
      simp only [] at hl
      cases ds with
      | nil => simp at h
      | cons d ds =>
        simp only [Option.some.injEq, Prod.mk.injEq] at h
        rw [← h.2]
        simp only [List.length_cons] at hl ⊢
        omega
    · simp only [Option.some.injEq, Prod.mk.injEq] at h
      rw [← h.2]

theorem parseExpDigits_rest (pre cs ep r : List Char)
    (h : parseExpDigits pre cs = some (ep, r)) : r.length ≤ cs.length := by
  unfold parseExpDigits at h
  have hl := spanDigits_length cs
  rcases hsp : spanDigits cs with ⟨ds, rest1⟩
  rw [hsp] at h hl
  simp only [] at hl
  cases ds with
  | nil => simp at h
  | cons d ds =>
    simp only [Option.some.injEq, Prod.mk.injEq] at h
    rw [← h.2]
    omega

theorem parseExp_rest (cs ep r : List Char) (h : parseExp cs = some (ep, r)) :
    r.length ≤ cs.length := by
  unfold parseExp at h
  cases cs with
  | nil =>
    simp only [Option.some.injEq, Prod.mk.injEq] at h
    rw [← h.2]
  | cons c rest =>
    simp only [] at h
    split_ifs at h with h1
    · cases rest with
      | nil => simp at h
      | cons s rest1 =>
        simp only [] at h
        split_ifs at h with h2
        · have := parseExpDigits_rest _ _ _ _ h
          simp only [List.length_cons]
          omega
        · have := parseExpDigits_rest _ _ _ _ h
          simp only [List.length_cons] at this ⊢
          omega
    · simp only [Option.some.injEq, Prod.mk.injEq] at h
      rw [← h.2]

theorem parseUnsigned_rest (sign cs lit r : List Char)
    (h : parseUnsigned sign cs = some (lit, r)) : r.length < cs.length := by
  unfold parseUnsigned at h
  cases h1 : parseIntPart cs with
  | none => simp [h1] at h
  | some p1 =>
    obtain ⟨ip, r1⟩ := p1
    have l1 := parseIntPart_rest _ _ _ h1
    simp only [h1] at h
    cases h2 : parseFrac r1 with
    | none => simp [h2] at h
    | some p2 =>
      obtain ⟨fp, r2⟩ := p2
      have l2 := parseFrac_rest _ _ _ h2
      simp only [h2] at h
      cases h3 : parseExp r2 with
      | none => simp [h3] at h
      | some p3 =>
        obtain ⟨ep, r3⟩ := p3
        have l3 := parseExp_rest _ _ _ h3
        simp only [h3, Option.some.injEq, Prod.mk.injEq] at h
        rw [← h.2]
        omega

theorem parseNumber_rest (cs lit r : List Char) (h : parseNumber cs = some (lit, r)) :
    r.length < cs.length := by
  unfold parseNumber at h
  cases cs with
  | nil => simp at h
  | cons c rest =>
    simp only [] at h
    split_ifs at h with h1
    · have := parseUnsigned_rest _ _ _ _ h
      simp only [List.length_cons]
      omega
    · exact parseUnsigned_rest _ _ _ _ h

theorem parseWord_rest (word : List Char) (v v1 : Json) (cs r : List Char)
    (hw : 0 < word.length) (h : parseWord word v cs = some (v1, r)) : r.length < cs.length := by
  unfold parseWord at h
  split_ifs at h with h1
  simp only [Option.some.injEq, Prod.mk.injEq] at h
  rw [← h.2]
  have h2 := congrArg List.length h1
  simp only [List.length_take] at h2
  simp only [List.length_drop]
  omega

theorem map_rest {α β : Type} {o : Option (α × List Char)} {g : α → β} {b : β}
    {r : List Char} (h : o.map (fun p => (g p.1, p.2)) = some (b, r)) :
    ∃ a, o = some (a, r) := by
  obtain ⟨p, hp, hpe⟩ := Option.map_eq_some'.mp h
  simp only [Prod.mk.injEq] at hpe
  refine ⟨p.1, ?_⟩
  rw [hp, ← hpe.2]

theorem skipWs_cons_length {cs : List Char} {c : Char} {rest : List Char}
    (h : skipWs cs = c :: rest) : rest.length < cs.length := by
  have := skipWs_length cs
  rw [h] at this
  simp only [List.length_cons] at this
  omega

/-- The JSON reader consumes input: after a value, the members of an object or
the elements of an array, what is left is shorter. -/
theorem parse_rest (f : Nat) :
    (∀ cs v r, parseValue f cs = some (v, r) → r.length < cs.length)
    ∧ (∀ cs m r, parseMembers f cs = some (m, r) → r.length < cs.length)
    ∧ (∀ cs e r, parseElems f cs = some (e, r) → r.length < cs.length) := by
  induction f with
  | zero =>
    refine ⟨?_, ?_, ?_⟩ <;> intro cs v r h
    · simp [parseValue] at h
    · simp [parseMembers] at h
    · simp [parseElems] at h
  | succ g ih =>
    obtain ⟨ihV, ihM, ihE⟩ := ih
    refine ⟨?_, ?_, ?_⟩
    · intro cs v r h
      cases cs with
      | nil => simp [parseValue] at h
      | cons c rest =>
        unfold parseValue at h
        simp only [List.length_cons]
        by_cases h1 : c = '{'
        · rw [if_pos h1] at h
          cases hs : skipWs rest with
          | nil => simp [hs] at h
          | cons c1 rest1 =>
            have hl := skipWs_cons_length hs
            simp only [hs] at h
            by_cases h2 : c1 = '}'
            · rw [if_pos h2] at h
              simp only [Option.some.injEq, Prod.mk.injEq] at h
              rw [← h.2]
              omega
            · rw [if_neg h2] at h
              obtain ⟨a, ha⟩ := map_rest h
              have := ihM _ _ _ ha
              simp only [List.length_cons] at this
              omega
        · rw [if_neg h1] at h
          by_cases h3 : c = '['
          · rw [if_pos h3] at h
            cases hs : skipWs rest with
            | nil => simp [hs] at h
            | cons c1 rest1 =>
              have hl := skipWs_cons_length hs
              simp only [hs] at h
              by_cases h2 : c1 = ']'
              · rw [if_pos h2] at h
                simp only [Option.some.injEq, Prod.mk.injEq] at h
                rw [← h.2]
                omega
              · rw [if_neg h2] at h
                obtain ⟨a, ha⟩ := map_rest h
                have := ihE _ _ _ ha
                simp only [List.length_cons] at this
                omega
          · rw [if_neg h3] at h
            by_cases h4 : c = '"'
            · rw [if_pos h4] at h
              obtain ⟨a, ha⟩ := map_rest h
              have := parseString_rest _ _ _ ha
              simp only [List.length_cons] at this
              omega
            · rw [if_neg h4] at h
              by_cases h5 : c = 't'
              · rw [if_pos h5] at h
                have := parseWord_rest _ _ _ _ _ (by decide) h
                simp only [List.length_cons] at this
                omega
              · rw [if_neg h5] at h
                by_cases h6 : c = 'f'
                · rw [if_pos h6] at h
                  have := parseWord_rest _ _ _ _ _ (by decide) h
                  simp only [List.length_cons] at this
                  omega
                · rw [if_neg h6] at h
                  by_cases h7 : c = 'n'
                  · rw [if_pos h7] at h
                    have := parseWord_rest _ _ _ _ _ (by decide) h
                    simp only [List.length_cons] at this
                    omega
                  · rw [if_neg h7] at h
                    obtain ⟨a, ha⟩ := map_rest h
                    have := parseNumber_rest _ _ _ ha
                    simp only [List.length_cons] at this
                    omega
    · intro cs m r h
      unfold parseMembers at h
      cases hk : parseString cs with
      | none => simp [hk] at h
      | some p =>
        obtain ⟨key, r1⟩ := p
        have l1 := parseString_rest _ _ _ hk
        simp only [hk] at h
        cases hc : skipWs r1 with
        | nil => simp [hc] at h
        | cons colon r2 =>
          have l2 := skipWs_cons_length hc
          simp only [hc] at h
          by_cases h1 : colon = ':'
          · rw [if_pos h1] at h
            cases hv : parseValue g (skipWs r2) with
            | none => simp [hv] at h
            | some pv =>
              obtain ⟨v, r3⟩ := pv
              have l3 := ihV _ _ _ hv
              have l3' := skipWs_length r2
              simp only [hv] at h
              cases hsep : skipWs r3 with
              | nil => simp [hsep] at h
              | cons sep r4 =>
                have l4 := skipWs_cons_length hsep
                simp only [hsep] at h
                by_cases h2 : sep = '}'
                · rw [if_pos h2] at h
                  simp only [Option.some.injEq, Prod.mk.injEq] at h
                  rw [← h.2]
                  omega
                · rw [if_neg h2] at h
                  by_cases h3 : sep = ','
                  · rw [if_pos h3] at h
                    obtain ⟨a, ha⟩ := map_rest h
                    have l5 := ihM _ _ _ ha
                    have l5' := skipWs_length r4
                    omega
                  · rw [if_neg h3] at h
                    simp at h
          · rw [if_neg h1] at h
            simp at h
    · intro cs e r h
      unfold parseElems at h
      cases hv : parseValue g cs with
      | none => simp [hv] at h
      | some pv =>
        obtain ⟨v, r1⟩ := pv
        have l1 := ihV _ _ _ hv
        simp only [hv] at h
        cases hsep : skipWs r1 with
        | nil => simp [hsep] at h
        | cons sep r2 =>
          have l2 := skipWs_cons_length hsep
          simp only [hsep] at h
          by_cases h2 : sep = ']'
          · rw [if_pos h2] at h
            simp only [Option.some.injEq, Prod.mk.injEq] at h
            rw [← h.2]
            omega
          · rw [if_neg h2] at h
            by_cases h3 : sep = ','
            · rw [if_pos h3] at h
              obtain ⟨a, ha⟩ := map_rest h
              have l5 := ihE _ _ _ ha
              have l5' := skipWs_length r2
              omega
            · rw [if_neg h3] at h
              simp at h

/-- One more nested call allowed changes nothing once the bound exceeds the
length of the input. -/
theorem parse_fuel (f : Nat) :
    (∀ cs : List Char, 2 * cs.length < f → parseValue (f + 1) cs = parseValue f cs)
    ∧ (∀ cs : List Char, 2 * cs.length + 1 < f →
        parseMembers (f + 1) cs = parseMembers f cs)
    ∧ (∀ cs : List Char, 2 * cs.length + 1 < f →
        parseElems (f + 1) cs = parseElems f cs) := by
  induction f with
  | zero => exact ⟨fun cs h => absurd h (by omega), fun cs h => absurd h (by omega),
      fun cs h => absurd h (by omega)⟩
  | succ g ih =>
    obtain ⟨ihV, ihM, ihE⟩ := ih
    obtain ⟨restV, restM, restE⟩ := parse_rest g
    refine ⟨?_, ?_, ?_⟩
    · intro cs hlen
      cases cs with
      | nil => simp [parseValue]
      | cons c rest =>
        simp only [List.length_cons] at hlen
        conv_lhs => unfold parseValue
        conv_rhs => unfold parseValue
        by_cases h1 : c = '{'
        · simp only [if_pos h1]
          cases hs : skipWs rest with
          | nil => rfl
          | cons c1 rest1 =>
            have hl := skipWs_cons_length hs
            simp only []
            rw [ihM (c1 :: rest1) (by simp only [List.length_cons]; omega)]
        · simp only [if_neg h1]
          by_cases h3 : c = '['
          · simp only [if_pos h3]
            cases hs : skipWs rest with
            | nil => rfl
            | cons c1 rest1 =>
              have hl := skipWs_cons_length hs
              simp only []
              rw [ihE (c1 :: rest1) (by simp only [List.length_cons]; omega)]
          · simp only [if_neg h3]
    · intro cs hlen
      conv_lhs => unfold parseMembers
      conv_rhs => unfold parseMembers
      cases hk : parseString cs with
      | none => rfl
      | some p =>
        obtain ⟨key, r1⟩ := p
        have l1 := parseString_rest _ _ _ hk
        simp only []
        cases hc : skipWs r1 with
        | nil => rfl
        | cons colon r2 =>
          have l2 := skipWs_cons_length hc
          simp only []
          by_cases h1 : colon = ':'
          · simp only [if_pos h1]
            have l3' := skipWs_length r2
            rw [ihV (skipWs r2) (by omega)]
            cases hv : parseValue g (skipWs r2) with
            | none => rfl
            | some pv =>
              obtain ⟨v, r3⟩ := pv
              have l3 := restV _ _ _ hv
              simp only []
              cases hsep : skipWs r3 with
              | nil => rfl
              | cons sep r4 =>
                have l4 := skipWs_cons_length hsep
                have l5' := skipWs_length r4
                simp only []
                rw [ihM (skipWs r4) (by omega)]
          · simp only [if_neg h1]
    · intro cs hlen
      conv_lhs => unfold parseElems
      conv_rhs => unfold parseElems
      rw [ihV cs (by omega)]
      cases hv : parseValue g cs with
      | none => rfl
      | some pv =>
        obtain ⟨v, r1⟩ := pv
        have l1 := restV _ _ _ hv
        simp only []
        cases hsep : skipWs r1 with
        | nil => rfl
        | cons sep r2 =>
          have l2 := skipWs_cons_length hsep
          have l5' := skipWs_length r2
          simp only []
          rw [ihE (skipWs r2) (by omega)]

/-- Any bound above twice the length of the input gives the result of
`parseJson`: the bound in its definition is never what makes a text invalid. -/
theorem parseJson_fuel (cs : List Char) (f : Nat) (h : 2 * cs.length < f) :
    (match parseValue f (skipWs cs) with
      | none => none
      | some (v, rest) => if skipWs rest = [] then some v else none) = parseJson cs := by
  have key : ∀ d : Nat, parseValue (2 * cs.length + 1 + d) (skipWs cs)
      = parseValue (2 * cs.length + 1) (skipWs cs) := by
    intro d
    induction d with
    | zero => rfl
    | succ d ih =>
      have hl := skipWs_length cs
      rw [← ih]
      exact (parse_fuel (2 * cs.length + 1 + d)).1 (skipWs cs) (by omega)
  obtain ⟨d, hd⟩ : ∃ d, f = 2 * cs.length + 1 + d := ⟨f - (2 * cs.length + 1), by omega⟩
  rw [hd, key d]
  rfl

/-! ## Round trip of `json.Marshal` and `json.Unmarshal` on token records -/

theorem hexVal_hexDigit (n : Nat) (h : n < 16) : hexVal (hexDigit n) = some n := by
  interval_cases n <;> rfl

theorem escapeChar_length_pos (c : Char) : 0 < (escapeChar c).length := by
  unfold escapeChar
  split_ifs <;> simp

/-- Reading back the escaped form of one character. -/
theorem parseStringBody_escapeChar (c : Char) (t : List Char) (k : Nat) :
    parseStringBody (k + 1) (escapeChar c ++ t)
      = (parseStringBody k t).map (fun p => (c :: p.1, p.2)) := by
  unfold escapeChar
  split_ifs with h1 h2 h3 h4 h5 h6 h7 h8
  · subst h1
    simp [parseStringBody, simpleEscape]
  · subst h2
    simp [parseStringBody, simpleEscape]
  · subst h3
    simp [parseStringBody, simpleEscape]
  · subst h4
    simp [parseStringBody, simpleEscape]
  · subst h5
    simp [parseStringBody, simpleEscape]
  · have hlt : c.toNat < 128 := by
      rcases h6 with h | h | h | h
      · omega
      · subst h; decide
      · subst h; decide
      · subst h; decide
    have hhi : hexVal (hexDigit (c.toNat / 16)) = some (c.toNat / 16) :=
      hexVal_hexDigit _ (by omega)
    have hlo : hexVal (hexDigit (c.toNat % 16)) = some (c.toNat % 16) :=
      hexVal_hexDigit _ (by omega)
    have h0 : hexVal '0' = some 0 := rfl
    have hval : c.toNat / 16 * 16 + c.toNat % 16 = c.toNat := by omega
    have hs : isSurrogate c.toNat = false := by
      simp [isSurrogate]; omega
    simp [parseStringBody, hex4, h0, hhi, hlo, hval, hs, Char.ofNat_toNat]
  · have hc : c = Char.ofNat 0x2028 := by
      rw [← Char.ofNat_toNat c, h7]
    subst hc
    simp [parseStringBody, hex4, hexVal, isSurrogate]
  · have hc : c = Char.ofNat 0x2029 := by
      rw [← Char.ofNat_toNat c, h8]
    subst hc
    simp [parseStringBody, hex4, hexVal, isSurrogate]
  · have hge : ¬ c.toNat < 32 := fun h => h6 (Or.inl h)
    simp [parseStringBody, h1, h2, hge]

/-- Reading back the body of a string literal that `json.Marshal` wrote. -/
theorem parseStringBody_escape (s rest : List Char) :
    ∀ fuel, (s.flatMap escapeChar).length < fuel →
      parseStringBody fuel (s.flatMap escapeChar ++ '"' :: rest) = some (s, rest) := by
  induction s with
  | nil =>
    intro fuel hf
    cases fuel with
    | zero => simp at hf
    | succ k => simp [parseStringBody]
  | cons c s ih =>
    intro fuel hf
    cases fuel with
    | zero => simp at hf
    | succ k =>
      have hpos := escapeChar_length_pos c
      simp only [List.flatMap_cons, List.length_append] at hf
      rw [List.flatMap_cons, List.append_assoc, parseStringBody_escapeChar, ih k (by omega)]
      rfl

/-- Reading back a string literal that `json.Marshal` wrote. -/
theorem parseString_encodeString (s : String) (rest : List Char) :
    parseString (encodeString s ++ rest) = some (s.data, rest) := by
  unfold encodeString parseString
  simp only [List.cons_append, List.append_assoc, List.singleton_append, if_true]
  exact parseStringBody_escape s.data rest _ (by simp only [List.length_append, List.length_cons]; omega)

theorem digitChar_isDigit (n : Nat) (h : n < 10) : (Nat.digitChar n).isDigit = true := by
  interval_cases n <;> rfl

theorem digitChar_val (n : Nat) (h : n < 10) : (Nat.digitChar n).toNat - 48 = n := by
  interval_cases n <;> rfl

theorem digitChar_eq_zero (n : Nat) (h : n < 10) (h0 : Nat.digitChar n = '0') : n = 0 := by
  interval_cases n <;> first | rfl | (revert h0; decide)

theorem decimal_ne_nil (fuel n : Nat) : decimal (fuel + 1) n ≠ [] := by
  unfold decimal
  split_ifs <;> simp

theorem decimal_isDigit : ∀ fuel n, ∀ c ∈ decimal fuel n, c.isDigit = true := by
  intro fuel
  induction fuel with
  | zero => intro n c hc; simp [decimal] at hc
  | succ f ih =>
    intro n c hc
    unfold decimal at hc
    split_ifs at hc with h
    · simp only [List.mem_singleton] at hc
      subst hc
      exact digitChar_isDigit n h
    · rcases List.mem_append.mp hc with h1 | h1
      · exact ih _ c h1
      · simp only [List.mem_singleton] at h1
        subst h1
        exact digitChar_isDigit _ (Nat.mod_lt _ (by decide))

theorem digitsVal_append_singleton (ds : List Char) (d : Char) :
    digitsVal (ds ++ [d]) = digitsVal ds * 10 + (d.toNat - 48) := by
  simp [digitsVal, List.foldl_append]

theorem digitsVal_decimal : ∀ fuel n, n < fuel → digitsVal (decimal fuel n) = n := by
  intro fuel
  induction fuel with
  | zero => intro n h; omega
  | succ f ih =>
    intro n hn
    unfold decimal
    split_ifs with h
    · simp [digitsVal, digitChar_val n h]
    · rw [digitsVal_append_singleton, ih (n / 10) (by omega),
        digitChar_val _ (Nat.mod_lt _ (by decide))]
      omega

theorem decimal_head_zero : ∀ fuel n, n < fuel → (decimal fuel n).head? = some '0' → n = 0 := by
  intro fuel
  induction fuel with
  | zero => intro n h; omega
  | succ f ih =>
    intro n hn hhead
    unfold decimal at hhead
    split_ifs at hhead with h
    · simp only [List.head?_cons, Option.some.injEq] at hhead
      exact digitChar_eq_zero n h hhead
    · cases f with
      | zero => omega
      | succ g =>
        have hne := decimal_ne_nil g (n / 10)
        rw [List.head?_append_of_ne_nil _ hne] at hhead
        have := ih (n / 10) (by omega) hhead
        omega

theorem decimal_zero (fuel : Nat) : decimal (fuel + 1) 0 = ['0'] := by
  simp only [decimal, Nat.lt_irrefl, Nat.zero_lt_succ, if_true]
  rfl

theorem spanDigits_append (ds : List Char) (hds : ∀ c ∈ ds, c.isDigit = true) (c : Char)
    (hc : c.isDigit = false) (rest : List Char) :
    spanDigits (ds ++ c :: rest) = (ds, c :: rest) := by
  induction ds with
  | nil => simp [spanDigits, hc]
  | cons d ds ih =>
    have hd : d.isDigit = true := hds d (List.mem_cons_self _ _)
    have ih' := ih (fun x hx => hds x (List.mem_cons_of_mem _ hx))
    simp [spanDigits, hd, ih']

/-- Reading back a natural number that `strconv.Itoa` wrote, followed by a comma. -/
theorem parseIntPart_decimal (fuel n : Nat) (hn : n < fuel + 1) (rest : List Char) :
    parseIntPart (decimal (fuel + 1) n ++ ',' :: rest)
      = some (decimal (fuel + 1) n, ',' :: rest) := by
  unfold parseIntPart
  rw [spanDigits_append _ (decimal_isDigit _ _) ',' (by decide)]
  cases hd : decimal (fuel + 1) n with
  | nil => exact absurd hd (decimal_ne_nil fuel n)
  | cons d ds =>
    simp only []
    by_cases h0 : d = '0' ∧ ds ≠ []
    · exfalso
      have hz : n = 0 := decimal_head_zero (fuel + 1) n hn (by rw [hd]; simp [h0.1])
      subst hz
      rw [decimal_zero] at hd
      simp only [List.cons.injEq] at hd
      exact h0.2 hd.2.symm
    · rw [if_neg h0]

theorem decimal_head_ne_minus (fuel n : Nat) (d : Char) (ds : List Char)
    (h : decimal fuel n = d :: ds) : d ≠ '-' := by
  intro hd
  have := decimal_isDigit fuel n d (by rw [h]; exact List.mem_cons_self _ _)
  subst hd
  revert this
  decide

/-- Reading back an integer that `strconv.Itoa` wrote, followed by a comma. -/
theorem parseNumber_itoa (n : Int) (rest : List Char) :
    parseNumber (itoa n ++ ',' :: rest) = some (itoa n, ',' :: rest) := by
  cases n with
  | ofNat m =>
    simp only [itoa]
    cases hd : decimal (m + 1) m with
    | nil => exact absurd hd (decimal_ne_nil m m)
    | cons d ds =>
      have hm := decimal_head_ne_minus _ _ d ds hd
      have hp := parseIntPart_decimal m m (by omega) rest
      rw [hd] at hp
      simp only [List.cons_append] at hp
      simp [parseNumber, parseUnsigned, hm, hp, parseFrac, parseExp]
  | negSucc m =>
    simp only [itoa]
    have hp := parseIntPart_decimal (m + 1) (m + 1) (by omega) rest
    simp [parseNumber, parseUnsigned, hp, parseFrac, parseExp]

/-- The Go `int` of the text that `strconv.Itoa` wrote for it. -/
theorem parseGoInt_itoa (n : Int) (hlo : -2 ^ 63 ≤ n) (hhi : n < 2 ^ 63) :
    parseGoInt (itoa n) = some n := by
  cases n with
  | ofNat m =>
    simp only [itoa]
    have hm : m < 2 ^ 63 := by
      have : (m : Int) < 2 ^ 63 := hhi
      exact_mod_cast this
    cases hd : decimal (m + 1) m with
    | nil => exact absurd hd (decimal_ne_nil m m)
    | cons d ds =>
      have hne := decimal_head_ne_minus _ _ d ds hd
      have hall : (d :: ds).all Char.isDigit = true := by
        rw [← hd, List.all_eq_true]
        exact decimal_isDigit _ _
      have hval : digitsVal (d :: ds) = m := by
        rw [← hd]
        exact digitsVal_decimal _ _ (by omega)
      simp only [parseGoInt, hne, if_false, hall, hval, hm, and_self, if_true]
      rfl
  | negSucc m =>
    simp only [itoa]
    have hm : m + 1 ≤ 2 ^ 63 := by
      have h1 : -(2 : Int) ^ 63 ≤ Int.negSucc m := hlo
      rw [Int.negSucc_eq] at h1
      have h2 : ((m : Int) + 1) ≤ 2 ^ 63 := by linarith
      exact_mod_cast h2
    have hne := decimal_ne_nil (m + 1) (m + 1)
    have hall : (decimal (m + 2) (m + 1)).all Char.isDigit = true := by
      rw [List.all_eq_true]
      exact decimal_isDigit _ _
    have hval : digitsVal (decimal (m + 2) (m + 1)) = m + 1 :=
      digitsVal_decimal _ _ (by omega)
    simp only [parseGoInt, if_true, hne, ne_eq, not_false_eq_true, hall, hval, hm, and_self]
    rw [Int.negSucc_eq]
    simp

theorem encodeString_append (s : String) (t : List Char) :
    encodeString s ++ t = '"' :: (s.data.flatMap escapeChar ++ '"' :: t) := by
  simp [encodeString]

theorem parseString_quoted (s : String) (t : List Char) :
    parseString ('"' :: (s.data.flatMap escapeChar ++ '"' :: t)) = some (s.data, t) := by
  rw [← encodeString_append]
  exact parseString_encodeString s t

theorem parseValue_quoted (g : Nat) (s : String) (t : List Char) :
    parseValue (g + 1) ('"' :: (s.data.flatMap escapeChar ++ '"' :: t))
      = some (Json.str s.data, t) := by
  simp [parseValue, parseString_quoted]

theorem skipWs_quote (t : List Char) : skipWs ('"' :: t) = '"' :: t := by
  simp [skipWs, isWs]

theorem skipWs_encodeString (s : String) (t : List Char) :
    skipWs (encodeString s ++ t) = encodeString s ++ t := by
  rw [encodeString_append, skipWs_quote]

theorem parseValue_object (f : Nat) (k : String) (t : List Char) :
    parseValue (f + 1) ('{' :: (encodeString k ++ t))
      = (parseMembers f (encodeString k ++ t)).map (fun p => (Json.obj p.1, p.2)) := by
  rw [encodeString_append]
  conv_lhs => unfold parseValue
  simp only [skipWs_quote]
  simp

theorem skipWs_colon (t : List Char) : skipWs (':' :: t) = ':' :: t := by
  simp [skipWs, isWs]

theorem skipWs_comma (t : List Char) : skipWs (',' :: t) = ',' :: t := by
  simp [skipWs, isWs]

theorem skipWs_brace (t : List Char) : skipWs ('}' :: t) = '}' :: t := by
  simp [skipWs, isWs]

/-- Reading back a member with a string value, followed by another member. -/
theorem parseMembers_string_comma (g : Nat) (k s : String) (t : List Char) :
    parseMembers (g + 2) (encodeString k ++ ':' :: (encodeString s ++ ',' :: t))
      = (parseMembers (g + 1) (skipWs t)).map
          (fun p => ((k.data, Json.str s.data) :: p.1, p.2)) := by
  rw [encodeString_append, encodeString_append]
  conv_lhs => unfold parseMembers
  simp only [parseString_quoted, skipWs_colon, skipWs_quote, parseValue_quoted, skipWs_comma,
    skipWs_brace]
  simp

/-- Reading back the last member, with a string value. -/
theorem parseMembers_string_end (g : Nat) (k s : String) (t : List Char) :
    parseMembers (g + 2) (encodeString k ++ ':' :: (encodeString s ++ '}' :: t))
      = some ([(k.data, Json.str s.data)], t) := by
  rw [encodeString_append, encodeString_append]
  conv_lhs => unfold parseMembers
  simp only [parseString_quoted, skipWs_colon, skipWs_quote, parseValue_quoted, skipWs_comma,
    skipWs_brace]
  simp

theorem itoa_head (n : Int) :
    ∃ d ds, itoa n = d :: ds ∧ (d.isDigit = true ∨ d = '-') := by
  cases n with
  | ofNat m =>
    simp only [itoa]
    cases hd : decimal (m + 1) m with
    | nil => exact absurd hd (decimal_ne_nil m m)
    | cons d ds =>
      exact ⟨d, ds, rfl, Or.inl (decimal_isDigit _ _ d (by rw [hd]; exact List.mem_cons_self _ _))⟩
  | negSucc m => exact ⟨'-', _, rfl, Or.inr rfl⟩

theorem parseValue_itoa (g : Nat) (n : Int) (t : List Char) :
    parseValue (g + 1) (itoa n ++ ',' :: t) = some (Json.num (itoa n), ',' :: t) := by
  have hp := parseNumber_itoa n t
  obtain ⟨d, ds, hd, hdig⟩ := itoa_head n
  rw [hd] at hp ⊢
  simp only [List.cons_append] at hp ⊢
  have h1 : d ≠ '{' := by rintro rfl; revert hdig; decide
  have h2 : d ≠ '[' := by rintro rfl; revert hdig; decide
  have h3 : d ≠ '"' := by rintro rfl; revert hdig; decide
  have h4 : d ≠ 't' := by rintro rfl; revert hdig; decide
  have h5 : d ≠ 'f' := by rintro rfl; revert hdig; decide
  have h6 : d ≠ 'n' := by rintro rfl; revert hdig; decide
  simp [parseValue, h1, h2, h3, h4, h5, h6, hp]

theorem skipWs_itoa (n : Int) (t : List Char) : skipWs (itoa n ++ t) = itoa n ++ t := by
  obtain ⟨d, ds, hd, hdig⟩ := itoa_head n
  rw [hd]
  have h1 : isWs d = false := by
    rcases hdig with h | h
    · cases hw : isWs d with
      | false => rfl
      | true =>
        exfalso
        simp only [isWs, Bool.or_eq_true, decide_eq_true_eq] at hw
        rcases hw with ((rfl | rfl) | rfl) | rfl <;> revert h <;> decide
    · subst h; decide
  simp [skipWs, h1]

/-- Reading back a member with an integer value, followed by another member. -/
theorem parseMembers_int_comma (g : Nat) (k : String) (n : Int) (t : List Char) :
    parseMembers (g + 2) (encodeString k ++ ':' :: (itoa n ++ ',' :: t))
      = (parseMembers (g + 1) (skipWs t)).map
          (fun p => ((k.data, Json.num (itoa n)) :: p.1, p.2)) := by
  rw [encodeString_append]
  conv_lhs => unfold parseMembers
  simp only [parseString_quoted, skipWs_colon, skipWs_itoa, parseValue_itoa, skipWs_comma]
  simp

/-- The text `json.Marshal` writes for a token record, member by member. -/
theorem GetAPITokenResponse.marshal_data (r : GetAPITokenResponse) :
    r.marshal.data
      = '{' :: (encodeString "access_token" ++ ':' :: (encodeString r.AccessToken ++ ','
        :: (encodeString "token_type" ++ ':' :: (encodeString r.TokenType ++ ','
        :: (encodeString "expires_in" ++ ':' :: (itoa r.ExpiresIn ++ ','
        :: (encodeString "refresh_token" ++ ':' :: (encodeString r.RefreshToken ++ ','
        :: (encodeString "scope" ++ ':' :: (encodeString r.Scope ++ ['}'])))))))))) := by
  have k1 : ∀ X : List Char, "\x7b\"access_token\":".data ++ X
      = '{' :: (encodeString "access_token" ++ ':' :: X) := fun _ => rfl
  have k2 : ∀ X : List Char, ",\"token_type\":".data ++ X
      = ',' :: (encodeString "token_type" ++ ':' :: X) := fun _ => rfl
  have k3 : ∀ X : List Char, ",\"expires_in\":".data ++ X
      = ',' :: (encodeString "expires_in" ++ ':' :: X) := fun _ => rfl
  have k4 : ∀ X : List Char, ",\"refresh_token\":".data ++ X
      = ',' :: (encodeString "refresh_token" ++ ':' :: X) := fun _ => rfl
  have k5 : ∀ X : List Char, ",\"scope\":".data ++ X
      = ',' :: (encodeString "scope" ++ ':' :: X) := fun _ => rfl
  unfold GetAPITokenResponse.marshal
  simp only [List.append_assoc]
  rw [k1, k2, k3, k4, k5]

/-- The JSON value of the text `json.Marshal` writes for a token record. -/
theorem parseJson_marshal (r : GetAPITokenResponse) :
    parseJson r.marshal.data
      = some (Json.obj [("access_token".data, Json.str r.AccessToken.data),
          ("token_type".data, Json.str r.TokenType.data),
          ("expires_in".data, Json.num (itoa r.ExpiresIn)),
          ("refresh_token".data, Json.str r.RefreshToken.data),
          ("scope".data, Json.str r.Scope.data)]) := by
  have hlen : ∃ g, 2 * r.marshal.data.length = g + 6 := by
    refine ⟨2 * r.marshal.data.length - 6, ?_⟩
    have : 6 ≤ r.marshal.data.length := by
      rw [GetAPITokenResponse.marshal_data]
      simp only [List.length_cons, List.length_append, encodeString]
      omega
    omega
  obtain ⟨g, hg⟩ := hlen
  unfold parseJson
  rw [hg]
  rw [GetAPITokenResponse.marshal_data]
  have hws : ∀ t : List Char, skipWs ('{' :: t) = '{' :: t := by
    intro t
    simp [skipWs, isWs]
  rw [hws]
  have hmem : parseMembers (g + 6)
      (encodeString "access_token" ++ ':' :: (encodeString r.AccessToken ++ ','
        :: (encodeString "token_type" ++ ':' :: (encodeString r.TokenType ++ ','
        :: (encodeString "expires_in" ++ ':' :: (itoa r.ExpiresIn ++ ','
        :: (encodeString "refresh_token" ++ ':' :: (encodeString r.RefreshToken ++ ','
        :: (encodeString "scope" ++ ':' :: (encodeString r.Scope ++ ['}']))))))))))
      = some ([("access_token".data, Json.str r.AccessToken.data),
          ("token_type".data, Json.str r.TokenType.data),
          ("expires_in".data, Json.num (itoa r.ExpiresIn)),
          ("refresh_token".data, Json.str r.RefreshToken.data),
          ("scope".data, Json.str r.Scope.data)], []) := by
    rw [parseMembers_string_comma (g + 4), skipWs_encodeString,
      parseMembers_string_comma (g + 3), skipWs_encodeString,
      parseMembers_int_comma (g + 2), skipWs_encodeString,
      parseMembers_string_comma (g + 1), skipWs_encodeString,
      parseMembers_string_end g]
    rfl
  rw [parseValue_object, hmem]
  rfl

/-- Reading back what `json.Marshal` wrote: `json.Unmarshal` of the JSON text of a token
record gives the record, without error. -/
theorem unmarshal_marshal (r : GetAPITokenResponse)
    (hlo : -2 ^ 63 ≤ r.ExpiresIn) (hhi : r.ExpiresIn < 2 ^ 63) (p : GetAPITokenResponse) :
    unmarshalPtr GetAPITokenResponse.setField {} r.marshal (some p) = (some r, none) := by
  have f11 : isField "access_token" "access_token".data = true := by decide
  have f21 : isField "access_token" "token_type".data = false := by decide
  have f22 : isField "token_type" "token_type".data = true := by decide
  have f31 : isField "access_token" "expires_in".data = false := by decide
  have f32 : isField "token_type" "expires_in".data = false := by decide
  have f33 : isField "expires_in" "expires_in".data = true := by decide
  have f41 : isField "access_token" "refresh_token".data = false := by decide
  have f42 : isField "token_type" "refresh_token".data = false := by decide
  have f43 : isField "expires_in" "refresh_token".data = false := by decide
  have f44 : isField "refresh_token" "refresh_token".data = true := by decide
  have f51 : isField "access_token" "scope".data = false := by decide
  have f52 : isField "token_type" "scope".data = false := by decide
  have f53 : isField "expires_in" "scope".data = false := by decide
  have f54 : isField "refresh_token" "scope".data = false := by decide
  have f55 : isField "scope" "scope".data = true := by decide
  unfold unmarshalPtr
  rw [parseJson_marshal]
  simp only [decStruct, List.foldl, GetAPITokenResponse.setField, setWith, decString, decInt,
    parseGoInt_itoa r.ExpiresIn hlo hhi, f11, f21, f22, f31, f32, f33, f41, f42, f43, f44, f51,
    f52, f53, f54, f55, if_true, Bool.false_eq_true, if_false, Bool.or_false, Option.getD]

theorem peekChars_of_le (cs : List Char) :
    ∀ n, (cs.map Char.utf8Size).sum ≤ n → peekChars n cs = cs := by
  induction cs with
  | nil => intro n _; rfl
  | cons c cs ih =>
    intro n hn
    simp only [List.map_cons, List.sum_cons] at hn
    have hc : c.utf8Size ≤ n := by omega
    simp only [peekChars, hc, if_true]
    rw [ih (n - c.utf8Size) (by omega)]

/-- Method `Peek(n)` returns the whole content of a file of at most `n` bytes. -/
theorem peek_of_le (n : Nat) (content : String) (h : byteLen content ≤ n) :
    peek n content = content := by
  unfold peek
  rw [peekChars_of_le content.data n h]

theorem marshal_ne_empty (r : GetAPITokenResponse) : r.marshal ≠ "" := by
  intro h
  have := congrArg String.data h
  rw [GetAPITokenResponse.marshal_data] at this
  simp at this

/-- The round trip of the token store for records that fit in the 1000 bytes
`getAPIToken` reads: when the store holds the JSON text of a record `r` (as
`getAPIToken` writes it) and that text has at most 1000 bytes, the next run
loads a record identical to `r` and goes on with its refresh token. -/
theorem store_roundtrip_within_1000_bytes (r : GetAPITokenResponse) (w : World)
    (hlo : -2 ^ 63 ≤ r.ExpiresIn) (hhi : r.ExpiresIn < 2 ^ 63)
    (hlen : byteLen r.marshal ≤ 1000) (hstore : w.storeContent = r.marshal) :
    unmarshalPtr GetAPITokenResponse.setField {} (peek 1000 w.storeContent) (some {})
      = (some r, none)
    ∧ chooseGrant (peek 1000 w.storeContent) w = Res.ret (Except.ok (true, r.RefreshToken)) w := by
  rw [hstore, peek_of_le 1000 r.marshal hlen]
  have hu := unmarshal_marshal r hlo hhi {}
  refine ⟨hu, ?_⟩
  unfold chooseGrant
  simp only [marshal_ne_empty r, if_false, hu]
/-! ## net/url: an escaped value reads back -/

theorem hexVal_upperHex (n : Nat) (h : n < 16) : hexVal (upperHex n) = some n := by
  interval_cases n <;> decide

theorem queryUnescapeBytes_plain (c : Char) (t : List Char) (h1 : c ≠ '%') (h2 : c ≠ '+') :
    queryUnescapeBytes (c :: t)
      = (queryUnescapeBytes t).map (fun r => utf8Bytes (String.mk [c]) ++ r) := by
  conv_lhs => unfold queryUnescapeBytes
  simp only [h1, h2, if_false]

theorem queryUnescapeBytes_plus (t : List Char) :
    queryUnescapeBytes ('+' :: t) = (queryUnescapeBytes t).map (fun r => 32 :: r) := by
  conv_lhs => unfold queryUnescapeBytes
  simp

theorem queryUnescapeBytes_hex (a b : Char) (x y : Nat) (t : List Char)
    (ha : hexVal a = some x) (hb : hexVal b = some y) :
    queryUnescapeBytes ('%' :: a :: b :: t)
      = (queryUnescapeBytes t).map (fun r => (x * 16 + y) :: r) := by
  conv_lhs => unfold queryUnescapeBytes
  simp only [if_true, ha, hb]

/-- The escapes of a list of bytes read back as the bytes. -/
theorem queryUnescapeBytes_percent (bs : List Nat) (hbs : ∀ b ∈ bs, b < 256) (t : List Char) :
    queryUnescapeBytes
        (bs.flatMap (fun b => ['%', upperHex (b / 16), upperHex (b % 16)]) ++ t)
      = (queryUnescapeBytes t).map (fun r => bs ++ r) := by
  induction bs with
  | nil => simp
  | cons b rest ih =>
    have hb : b < 256 := hbs b (List.mem_cons_self _ _)
    have h1 : hexVal (upperHex (b / 16)) = some (b / 16) := hexVal_upperHex _ (by omega)
    have h2 : hexVal (upperHex (b % 16)) = some (b % 16) := hexVal_upperHex _ (by omega)
    have h3 : b / 16 * 16 + b % 16 = b := by omega
    have e : (b :: rest).flatMap (fun b => ['%', upperHex (b / 16), upperHex (b % 16)]) ++ t
        = '%' :: upperHex (b / 16) :: upperHex (b % 16)
            :: (rest.flatMap (fun b => ['%', upperHex (b / 16), upperHex (b % 16)]) ++ t) := by
      simp [List.flatMap_cons]
    rw [e, queryUnescapeBytes_hex _ _ _ _ _ h1 h2, h3,
      ih (fun x hx => hbs x (List.mem_cons_of_mem _ hx)), Option.map_map]
    rfl

/-- The UTF-8 bytes are bytes. -/
theorem utf8Bytes_lt (s : String) : ∀ b ∈ utf8Bytes s, b < 256 := by
  intro b hb
  simp only [utf8Bytes, List.mem_flatMap, List.mem_map] at hb
  obtain ⟨_, _, x, _, rfl⟩ := hb
  exact x.toNat_lt

/-- The escape of one character reads back as the bytes of the character. -/
theorem queryUnescapeBytes_escapeChar (c : Char) (t : List Char) :
    queryUnescapeBytes (queryEscapeChar c ++ t)
      = (queryUnescapeBytes t).map (fun r => utf8Bytes (String.mk [c]) ++ r) := by
  unfold queryEscapeChar
  split
  · rename_i h
    have h1 : c ≠ '%' := by
      intro e
      subst e
      revert h
      decide
    have h2 : c ≠ '+' := by
      intro e
      subst e
      revert h
      decide
    exact queryUnescapeBytes_plain c t h1 h2
  · split
    · rename_i h
      subst h
      have e : utf8Bytes (String.mk [' ']) = [32] := by decide
      rw [e]
      exact queryUnescapeBytes_plus t
    · exact queryUnescapeBytes_percent _ (utf8Bytes_lt _) t

/-- What `url.QueryEscape` writes reads back, by `url.QueryUnescape`, as the text that
was escaped. -/
theorem queryUnescapeBytes_queryEscape (s : String) :
    queryUnescapeBytes (queryEscape s).data = some (utf8Bytes s) := by
  have key : ∀ cs : List Char,
      queryUnescapeBytes (cs.flatMap queryEscapeChar) = some (utf8Bytes (String.mk cs)) := by
    intro cs
    induction cs with
    | nil => rfl
    | cons c rest ih =>
      have h := queryUnescapeBytes_escapeChar c (rest.flatMap queryEscapeChar)
      rw [List.flatMap_cons, h, ih]
      simp [utf8Bytes]
  exact key s.data
/-! ## strconv: the range of a `float64` -/

theorem pow10_mono (a b : Nat) (h : a ≤ b) : (10 : Nat) ^ a ≤ 10 ^ b :=
  Nat.pow_le_pow_right (by decide) h

/-- The tests of `roundsToInf` that avoid the large powers of ten give the same
answer as the comparison they stand for. -/
theorem roundsToInf_iff (m nd : Nat) (x : Int) (hm : m < 10 ^ nd) :
    roundsToInf m nd x = true
      ↔ (2 ^ 1024 - 2 ^ 970) * 10 ^ (-x).toNat ≤ m * 10 ^ x.toNat := by
  have hT1 : (10 : Nat) ^ 308 < 2 ^ 1024 - 2 ^ 970 := by norm_num
  have hT2 : (2 : Nat) ^ 1024 - 2 ^ 970 ≤ 10 ^ 310 := by norm_num
  unfold roundsToInf
  by_cases h0 : m = 0
  · subst h0
    simp only [if_true, Bool.false_eq_true, zero_mul, false_iff, not_le]
    positivity
  simp only [h0, if_false]
  by_cases h1 : 309 < x
  · simp only [h1, if_true, true_iff]
    have e1 : (-x).toNat = 0 := by omega
    have e2 : 310 ≤ x.toNat := by omega
    rw [e1, pow_zero, mul_one]
    calc 2 ^ 1024 - 2 ^ 970 ≤ 10 ^ 310 := hT2
      _ ≤ 10 ^ x.toNat := pow10_mono 310 x.toNat e2
      _ ≤ m * 10 ^ x.toNat := Nat.le_mul_of_pos_left _ (Nat.pos_of_ne_zero h0)
  simp only [h1, if_false]
  by_cases h2 : (nd : Int) + x ≤ 308
  · simp only [h2, if_true, Bool.false_eq_true, false_iff, not_le]
    by_cases hx : 0 ≤ x
    · have e1 : (-x).toNat = 0 := by omega
      rw [e1, pow_zero, mul_one]
      calc m * 10 ^ x.toNat < 10 ^ nd * 10 ^ x.toNat :=
            Nat.mul_lt_mul_of_pos_right hm (by positivity)
        _ = 10 ^ (nd + x.toNat) := (pow_add _ _ _).symm
        _ ≤ 10 ^ 308 := pow10_mono _ _ (by omega)
        _ < 2 ^ 1024 - 2 ^ 970 := hT1
    · have e1 : x.toNat = 0 := by omega
      rw [e1, pow_zero, mul_one]
      calc m < 10 ^ nd := hm
        _ ≤ 10 ^ (308 + (-x).toNat) := pow10_mono _ _ (by omega)
        _ = 10 ^ 308 * 10 ^ (-x).toNat := pow_add _ _ _
        _ ≤ (2 ^ 1024 - 2 ^ 970) * 10 ^ (-x).toNat := Nat.mul_le_mul_right _ hT1.le
  simp only [h2, if_false]
  by_cases hx : 0 ≤ x
  · have e1 : (-x).toNat = 0 := by omega
    simp only [hx, if_true, decide_eq_true_eq, e1, pow_zero, mul_one]
  · have e1 : x.toNat = 0 := by omega
    simp only [hx, if_false, decide_eq_true_eq, e1, pow_zero, mul_one]
/-! ## encoding/json: an array decoded into a slice without a backing array -/

theorem growCap_gt (cap : Nat) : cap < growCap cap := by
  unfold growCap
  split <;> omega

theorem getD_append_length {α : Type} (pre : List α) (a d : α) (t : List α) :
    (pre ++ a :: t).getD pre.length d = a := by
  induction pre with
  | nil => rfl
  | cons p ps ih => simpa [List.getD] using ih

theorem set_append_length {α : Type} (pre : List α) (a d : α) (t : List α) :
    (pre ++ a :: t).set pre.length d = pre ++ d :: t := by
  induction pre with
  | nil => rfl
  | cons p ps ih => simp [ih]

/-- The loop of the decoder on a backing array that is zero from index `i` on: the
elements are decoded into zero values, one after the other. -/
theorem decElems_fresh {α : Type} (dec : Json → α → α × Bool) (zero : α) (xs : List Json) :
    ∀ (pre : List α) (k : Nat),
      (∃ k1, (decElems dec zero xs pre.length (pre ++ List.replicate k zero)).1
          = pre ++ xs.map (fun x => (dec x zero).1) ++ List.replicate k1 zero)
      ∧ (decElems dec zero xs pre.length (pre ++ List.replicate k zero)).2
          = xs.any (fun x => (dec x zero).2) := by
  induction xs with
  | nil =>
    intro pre k
    exact ⟨⟨k, by simp [decElems]⟩, by simp [decElems]⟩
  | cons x rest ih =>
    intro pre k
    have hback : ∃ k2,
        (if (pre ++ List.replicate k zero).length ≤ pre.length then
          (pre ++ List.replicate k zero)
            ++ List.replicate (growCap (pre ++ List.replicate k zero).length
              - (pre ++ List.replicate k zero).length) zero
        else pre ++ List.replicate k zero)
          = pre ++ zero :: List.replicate k2 zero := by
      by_cases hk : k = 0
      · subst hk
        have hg := growCap_gt pre.length
        obtain ⟨j, hj⟩ : ∃ j, growCap pre.length - pre.length = j + 1 :=
          ⟨growCap pre.length - pre.length - 1, by omega⟩
        refine ⟨j, ?_⟩
        simp only [List.replicate_zero, List.append_nil, le_refl, if_true, hj,
          List.replicate_succ]
      · refine ⟨k - 1, ?_⟩
        have hlen : ¬ (pre ++ List.replicate k zero).length ≤ pre.length := by
          simp only [List.length_append, List.length_replicate]
          omega
        rw [if_neg hlen]
        obtain ⟨j, hj⟩ : ∃ j, k = j + 1 := ⟨k - 1, by omega⟩
        subst hj
        simp [List.replicate_succ]
    obtain ⟨k2, hk2⟩ := hback
    have hget : (pre ++ zero :: List.replicate k2 zero).getD pre.length zero = zero :=
      getD_append_length pre zero zero _
    have hset : ∀ d : α, (pre ++ zero :: List.replicate k2 zero).set pre.length d
        = (pre ++ [d]) ++ List.replicate k2 zero := by
      intro d
      rw [set_append_length]
      simp
    have hlen1 : (pre ++ [(dec x zero).1]).length = pre.length + 1 := by simp
    obtain ⟨⟨k1, h1⟩, h2⟩ := ih (pre ++ [(dec x zero).1]) k2
    rw [hlen1] at h1 h2
    unfold decElems
    simp only [hk2, hget, hset, h1, h2, List.map_cons, List.any_cons]
    exact ⟨⟨k1, by simp⟩, trivial⟩

/-- A JSON array decoded into the nil slice gives the elements decoded into zero
values, in order. -/
theorem decSlice_nil {α : Type} (dec : Json → α → α × Bool) (zero : α) (xs : List Json) :
    (decSlice dec zero (Json.arr xs) {}).1.elems = xs.map (fun x => (dec x zero).1)
    ∧ (decSlice dec zero (Json.arr xs) {}).2 = xs.any (fun x => (dec x zero).2) := by
  cases xs with
  | nil => exact ⟨rfl, rfl⟩
  | cons x rest =>
    obtain ⟨⟨k1, h1⟩, h2⟩ := decElems_fresh dec zero (x :: rest) [] 0
    simp only [List.length_nil, List.replicate_zero, List.append_nil, List.nil_append] at h1 h2
    simp only [decSlice, List.append_nil, h1, h2, and_true]
    rw [List.take_append_of_le_length (by simp)]
    simp

/-! ## The claims that fail on the code, at concrete inputs -/

/-- C3 (failing input). The token store holds the refresh token `R` and the token
server answers the refresh request with status 400 and a body that is not
JSON: `getAPIToken` returns the empty access token with a nil error, the store
is not written, and `login` reports success. -/
theorem getAPIToken_nil_error_on_invalid_response :
    (getAPIToken (loggedInWorld [NetResult.response ⟨400, "Bad Request"⟩])).value
      = some ("", none)
    ∧ (getAPIToken (loggedInWorld [NetResult.response ⟨400, "Bad Request"⟩])).world.writes = []
    ∧ (main ["login"] (loggedInWorld [NetResult.response ⟨400, "Bad Request"⟩])).world.out
      = [Out.text "Sucessfully logged in!\n"] := by
  decide

/-- C5 (failing input). A token record whose access token is 1000 characters long
is written to the store in full (1091 bytes) by the run that receives it; on
the next run `Peek(1000)` cuts the content, `json.Unmarshal` rejects it, and
`getAPIToken` returns with that error instead of the record. -/
theorem store_roundtrip_fails_for_long_record :
    longRecord.AccessToken ≠ "" ∧ longRecord.RefreshToken ≠ ""
    ∧ (getAPIToken (loggedInWorld [NetResult.response ⟨200, longRecord.marshal⟩])).world.storeContent
      = longRecord.marshal
    ∧ byteLen longRecord.marshal = 1091
    ∧ unmarshalPtr GetAPITokenResponse.setField {} (peek 1000 longRecord.marshal) (some {})
      = (some {}, some GoError.jsonSyntax)
    ∧ (getAPIToken
        { (getAPIToken (loggedInWorld [NetResult.response ⟨200, longRecord.marshal⟩])).world with
          net := [NetResult.response ⟨200, sampleRefreshBody⟩] }).value
      = some ("", some GoError.jsonSyntax) := by
  set_option maxRecDepth 1000000 in decide!

/-- C6 (counterexample). The pause endpoint answers with status 404: `pauseTrack`
prints no error and prints `Track paused.`. -/
theorem pauseTrack_prints_paused_on_404 :
    (loggedInWorld [NetResult.response ⟨200, sampleRefreshBody⟩,
      NetResult.response ⟨404, "Not Found"⟩]).net.get? 1
      = some (NetResult.response ⟨404, "Not Found"⟩)
    ∧ (pauseTrack (loggedInWorld [NetResult.response ⟨200, sampleRefreshBody⟩,
        NetResult.response ⟨404, "Not Found"⟩])).world.out
      = [Out.text "Track paused.\n"] := by
  decide

/-- C7 (failing input). The token store holds text that is not JSON, so
`getAPIToken` returns an error; `pauseTrack` still sends its request, with an
empty bearer token, and prints `Track paused.`. -/
theorem pauseTrack_ignores_token_error :
    (getAPIToken corruptStoreWorld).value
      = some ("", some GoError.jsonSyntax)
    ∧ (pauseTrack corruptStoreWorld).world.requests
      = [{ method := "PUT", url := "https://api.spotify.com/v1/me/player/pause",
           header := [("Authorization", "Bearer ")], body := "" }]
    ∧ (pauseTrack corruptStoreWorld).world.out
      = [Out.text "Error deserializing spotify term storage file.\n",
          Out.error GoError.jsonSyntax, Out.text "Track paused.\n"] := by
  decide

/-- C8 (counterexample). The devices response holds one device, whose name is the
message about no devices, a line feed, and `Kitchen`: it decodes without error
to a list of one device, and `getDevices` puts two lines on standard output,
the first of which is the message about no devices. -/
theorem getDevices_two_lines_for_one_device :
    (unmarshalPtr GetDevicesResponse.setField {} lineFeedDevicesBody (some {})).2 = none
    ∧ (unmarshalPtr GetDevicesResponse.setField {} lineFeedDevicesBody (some {})).1.map
        (fun response => response.Devices.elems.length) = some 1
    ∧ (getDevices (loggedInWorld [NetResult.response ⟨200, sampleRefreshBody⟩,
        NetResult.response ⟨200, lineFeedDevicesBody⟩])).value = some ()
    ∧ (outText (getDevices (loggedInWorld [NetResult.response ⟨200, sampleRefreshBody⟩,
        NetResult.response ⟨200, lineFeedDevicesBody⟩])).world.out).map linesOf
      = some ["There are no available devices at the moment.", "Kitchen   Speaker   50   k1"] := by
  decide

/-- C9 (counterexample). The callback request `/callback?code=` carries a `code`
parameter with the empty value: the handler answers with the success body,
the authorization code stays empty, and the waiting loop of
`getAuthorizationCode` never ends. -/
theorem getAuthorizationCode_hangs_on_empty_code :
    callbackHandler [("code", [""])] ""
      = ("", "Sucesssfuly authorized, you can go back to your terminal now.\n")
    ∧ (getAuthorizationCode (freshWorld [[("code", [""])]] [])).value = none
    ∧ (getAuthorizationCode (freshWorld [[("code", [""])]] [])).world.replies
      = ["Sucesssfuly authorized, you can go back to your terminal now.\n"]
    ∧ ∃ w, getAuthorizationCode (freshWorld [[("code", [""])]] []) = Res.hang w := by
  refine ⟨by decide, by decide, by decide, ?_⟩
  exact ⟨_, rfl⟩

/-- C10 (failing input). The currently-playing endpoint answers with the body
`{}`: it deserializes without error, the artists list is empty, and
`displayCurrentPlayingTrack` panics on `Artists[0]` without printing a line. -/
theorem displayCurrentPlayingTrack_panics_on_empty_object :
    (unmarshalPtr CurrentlyPlayingResponse.setField {} "\x7b\x7d" (some {})).2 = none
    ∧ displayCurrentPlayingTrack (loggedInWorld [NetResult.response ⟨200, sampleRefreshBody⟩,
        NetResult.response ⟨200, "\x7b\x7d"⟩])
      = Res.panic "index out of range [0] with length 0"
          (displayCurrentPlayingTrack (loggedInWorld [NetResult.response ⟨200, sampleRefreshBody⟩,
            NetResult.response ⟨200, "\x7b\x7d"⟩])).world
    ∧ (displayCurrentPlayingTrack (loggedInWorld [NetResult.response ⟨200, sampleRefreshBody⟩,
        NetResult.response ⟨200, "\x7b\x7d"⟩])).world.out = [] := by
  decide

/-! ## The theorems at concrete inputs -/

/-- C1 at a concrete input: the store holds the refresh token `R`, the response
carries the access token `A2` and no refresh token; the record written has the
refresh token `R` and the access token `A2`. -/
theorem getAPIToken_refresh_keeps_refresh_token_witness :
    (getAPIToken (loggedInWorld [NetResult.response ⟨200, sampleRefreshBody⟩])).world.storeContent
      = GetAPITokenResponse.marshal
          { AccessToken := "A2", TokenType := "Bearer", ExpiresIn := 3600, RefreshToken := "R",
            Scope := "s" }
    ∧ (getAPIToken (loggedInWorld [NetResult.response ⟨200, sampleRefreshBody⟩])).value
      = some ("A2", none) :=
  have h := getAPIToken_refresh_keeps_refresh_token
    (loggedInWorld [NetResult.response ⟨200, sampleRefreshBody⟩])
    { AccessToken := "A", TokenType := "Bearer", ExpiresIn := 3600, RefreshToken := "R",
      Scope := "s" }
    { AccessToken := "A2", TokenType := "Bearer", ExpiresIn := 3600, RefreshToken := "",
      Scope := "s" }
    { ClientID := "id", ClientSecret := "secret", RedirectPort := "5958" }
    ⟨200, sampleRefreshBody⟩ []
    (by decide) (by decide) (by decide) (by decide) (by decide) (by decide) (by decide)
    (by decide) (by decide)
  ⟨h.2.2.1, h.2.2.2⟩

/-- C2 at concrete inputs: a first login whose callback carries the code `XYZ`, and
a run with the refresh token `R` in the store. -/
theorem getAPIToken_grant_by_store_witness :
    (getAPIToken (freshWorld [[("code", ["XYZ"])]]
        [NetResult.response ⟨200, sampleLoginBody⟩])).world.requests
      = [{ method := "POST", url := "https://accounts.spotify.com/api/token",
           header := [("Content-Type", "application/x-www-form-urlencoded"),
             ("Content-Length", "92"), ("Authorization", "Basic aWQ6c2VjcmV0")],
           body := "code=XYZ&grant_type=authorization_code&redirect_uri=http%3A%2F%2Flocalhost%3A5958%2Fcallback" }]
    ∧ (getAPIToken (loggedInWorld [NetResult.response ⟨200, sampleRefreshBody⟩])).world.requests
      = [{ method := "POST", url := "https://accounts.spotify.com/api/token",
           header := [("Content-Type", "application/x-www-form-urlencoded"),
             ("Content-Length", "94"), ("Authorization", "Basic aWQ6c2VjcmV0")],
           body := "grant_type=refresh_token&redirect_uri=http%3A%2F%2Flocalhost%3A5958%2Fcallback&refresh_token=R" }]
    ∧ (getAPIToken (loggedInWorld [NetResult.response ⟨200, sampleRefreshBody⟩])).world.authRuns
      = 0 := by
  have h1 := ((getAPIToken_grant_by_store
    (freshWorld [[("code", ["XYZ"])]] [NetResult.response ⟨200, sampleLoginBody⟩])
    (by decide) (by decide)).1 (by decide) "XYZ"
    (getAuthorizationCode
      (freshWorld [[("code", ["XYZ"])]] [NetResult.response ⟨200, sampleLoginBody⟩])).world
    { ClientID := "id", ClientSecret := "secret", RedirectPort := "5958" }
    (by decide) (by decide)).1
  have h2 := (getAPIToken_grant_by_store
    (loggedInWorld [NetResult.response ⟨200, sampleRefreshBody⟩])
    (by decide) (by decide)).2
    { AccessToken := "A", TokenType := "Bearer", ExpiresIn := 3600, RefreshToken := "R",
      Scope := "s" }
    { ClientID := "id", ClientSecret := "secret", RedirectPort := "5958" }
    (by decide) (by decide)
  refine ⟨?_, ?_, h2.2.1⟩
  · rw [h1]
    decide
  · rw [h2.1]
    decide

/-- C4 at concrete inputs: a refresh that succeeds writes the merged record; a
response that is not JSON leaves the store as it was. -/
theorem getAPIToken_writes_store_iff_witness :
    (getAPIToken (loggedInWorld [NetResult.response ⟨200, sampleRefreshBody⟩])).world.storeWrites
      = [("/home/u\\.spotify-term", GetAPITokenResponse.marshal
          { AccessToken := "A2", TokenType := "Bearer", ExpiresIn := 3600, RefreshToken := "R",
            Scope := "s" })]
    ∧ (getAPIToken (loggedInWorld [NetResult.response ⟨400, "Bad Request"⟩])).world.storeWrites
      = []
    ∧ (getAPIToken (loggedInWorld [NetResult.response ⟨400, "Bad Request"⟩])).world.storeContent
      = sampleStoreFile := by
  refine ⟨?_, ?_⟩
  · exact ((getAPIToken_writes_store_iff
      (loggedInWorld [NetResult.response ⟨200, sampleRefreshBody⟩])).1
      (Exchange.mk true "R" sampleRefreshBody)
      { AccessToken := "A2", TokenType := "Bearer", ExpiresIn := 3600, RefreshToken := "R",
        Scope := "s" }
      (by decide) (by decide) (by decide) (by decide) (by decide)).1
  · refine (getAPIToken_writes_store_iff
      (loggedInWorld [NetResult.response ⟨400, "Bad Request"⟩])).2.1 ?_
    intro x m hx hm
    have h0 : (getAPITokenRequest (loggedInWorld [NetResult.response ⟨400, "Bad Request"⟩])).value
        = some (Except.ok (Exchange.mk true "R" "Bad Request")) := by decide
    rw [h0] at hx
    simp only [Option.some.injEq, Except.ok.injEq] at hx
    subst hx
    have h1 : mergedResponse (Exchange.mk true "R" "Bad Request")
        = some { RefreshToken := "R" } := by decide
    rw [h1] at hm
    simp only [Option.some.injEq] at hm
    subst hm
    exact Or.inr (Or.inl rfl)

/-- C6 (amended) at concrete inputs: the devices request fails with a transport
error, and the pause endpoint answers with status 404. -/
theorem command_aborts_on_transport_failure_witness :
    (Command.devices.run (loggedInWorld [NetResult.response ⟨200, sampleRefreshBody⟩,
        NetResult.failure (GoError.env "connection refused")])).world.out
      = [Out.text "Error on get devices request.\n", Out.error (GoError.env "connection refused")]
    ∧ (pauseTrack (loggedInWorld [NetResult.response ⟨200, sampleRefreshBody⟩,
        NetResult.response ⟨404, "Not Found"⟩])).world.out
      = [Out.text "Track paused.\n"] := by
  have h1 := (command_aborts_on_transport_failure Command.devices
    (loggedInWorld [NetResult.response ⟨200, sampleRefreshBody⟩,
      NetResult.failure (GoError.env "connection refused")])
    (getAPIToken (loggedInWorld [NetResult.response ⟨200, sampleRefreshBody⟩,
      NetResult.failure (GoError.env "connection refused")])).world "A2" []
    (by decide)).1 (GoError.env "connection refused") (by decide)
  have h2 := (command_aborts_on_transport_failure Command.pause
    (loggedInWorld [NetResult.response ⟨200, sampleRefreshBody⟩,
      NetResult.response ⟨404, "Not Found"⟩])
    (getAPIToken (loggedInWorld [NetResult.response ⟨200, sampleRefreshBody⟩,
      NetResult.response ⟨404, "Not Found"⟩])).world "A2" []
    (by decide)).2 ⟨404, "Not Found"⟩ (by decide)
  rw [h1, h2]
  decide

/-- C8 (amended) at a concrete input: a response with two devices gives two lines. -/
theorem getDevices_output_witness :
    (outText (getDevices (loggedInWorld [NetResult.response ⟨200, sampleRefreshBody⟩,
        NetResult.response ⟨200, sampleDevicesBody⟩])).world.out).map linesOf
      = some ["Desk   Computer   70   d1", "Phone   Smartphone   35   d2"] := by
  have h := ((getDevices_output
    (loggedInWorld [NetResult.response ⟨200, sampleRefreshBody⟩,
      NetResult.response ⟨200, sampleDevicesBody⟩])
    (getAPIToken (loggedInWorld [NetResult.response ⟨200, sampleRefreshBody⟩,
      NetResult.response ⟨200, sampleDevicesBody⟩])).world "A2"
    ⟨200, sampleDevicesBody⟩ []
    { Devices :=
        { elems := [{ ID := "d1", IsActive := true, Name := "Desk", Type_ := "Computer",
                      VolumePercent := 70 },
                    { ID := "d2", Name := "Phone", Type_ := "Smartphone", VolumePercent := 35 }]
          spare := [{}, {}] } }
    (by decide) (by decide) (by decide)).2.2 (by decide)).1
  have h0 : (getAPIToken (loggedInWorld [NetResult.response ⟨200, sampleRefreshBody⟩,
      NetResult.response ⟨200, sampleDevicesBody⟩])).world.out.length = 0 := by decide
  rw [h0, List.drop_zero] at h
  rw [h]
  decide

/-- C9 (amended) at concrete inputs: a callback request with the code `XYZ`, and one
without a code followed by one with the code `XYZ`. -/
theorem callback_with_code_completes_flow_witness :
    awaitAuthorizationCode "" [[("code", ["XYZ"])]] []
      = (some "XYZ", [], ["Sucesssfuly authorized, you can go back to your terminal now.\n"])
    ∧ awaitAuthorizationCode "" [[("state", ["s"])], [("code", ["XYZ"])]] []
      = awaitAuthorizationCode "" [[("code", ["XYZ"])]] ["Couldn't get code from request URI.\n"] :=
  ⟨((callback_with_code_completes_flow [("code", ["XYZ"])] [] []).1 "XYZ" [] (by decide)
      (by decide)).2,
    ((callback_with_code_completes_flow [("state", ["s"])] [[("code", ["XYZ"])]] []).2
      (by decide)).2⟩

/-- The round trip of the token store at a concrete input: the sample store is
the JSON text of its record, 92 bytes long, and it is loaded back. -/
theorem store_roundtrip_within_1000_bytes_witness :
    unmarshalPtr GetAPITokenResponse.setField {} (peek 1000 (loggedInWorld []).storeContent)
        (some {})
      = (some { AccessToken := "A", TokenType := "Bearer", ExpiresIn := 3600,
                RefreshToken := "R", Scope := "s" }, none) :=
  (store_roundtrip_within_1000_bytes
    { AccessToken := "A", TokenType := "Bearer", ExpiresIn := 3600, RefreshToken := "R",
      Scope := "s" }
    (loggedInWorld []) (by decide) (by decide) (by decide) (by decide)).1

end SpotifyTerm
